import Mathlib

/-!
# Rubidium distortion (`src/dsp/Distortions/Rubidium.h`)

Two shallow embeddings of `RubidiumDistortion`, followed by theorems about
them.

* The embedding over an arbitrary linearly ordered field `K` reads `float` and
  `double` as `K`: it gives the values the code computes as long as every
  intermediate result is finite (rounding is not modelled).
* The embedding in the namespace `Ieee` is over the floating values `Fp K`
  (a finite number, an infinity or NaN) and follows the source operation by
  operation, with the conversion to `float` wherever the source computes in
  `float`; `atanApprox` (`inline float atanApprox(float x)`) overflows there.
  `processBlock_toFp` shows that the two embeddings agree on every block
  without floating-point exception (`NoOverflowBlock`).
* The C and JUCE math routines the class calls (`powf`, `exp`, `log10`, `atan`,
  `sqrt`, `twoPi`, `Decibels::decibelsToGain`) are the fields of `Libm`;
  `Libm.IsReal` says that a `Libm ℝ` is the real-valued one and `Libm.Extends`
  that a `Libm (Fp K)` extends a `Libm K`.
* `SmoothParam` is not part of the source file: the values its
  `getNextValue()` returns during one sample are the fields of `Controls K`.
* `processBlock`'s per-sample loop body is `processSample`, split into
  functions along the comments of the source.
-/

namespace Rubidium

/-- The math routines called by `RubidiumDistortion`, over a field `K`. -/
structure Libm (K : Type) where
  /-- The C function `powf`. -/
  powf : K → K → K
  /-- The C function `exp`. -/
  exp : K → K
  /-- The C function `log10`. -/
  log10 : K → K
  /-- The C function `atan`. -/
  atan : K → K
  /-- The C function `sqrt`. -/
  sqrt : K → K
  /-- JUCE `MathConstants<float>::twoPi`. -/
  twoPi : K
  /-- JUCE `Decibels::decibelsToGain`. -/
  decibelsToGain : K → K

/-- The real-valued math library: every routine is the function of real
analysis it names; `decibelsToGain` is JUCE's
`dB > -100 ? pow(10, dB * 0.05) : 0`. -/
structure Libm.IsReal (m : Libm ℝ) : Prop where
  powf_eq : ∀ x y, m.powf x y = Real.rpow x y
  exp_eq : ∀ x, m.exp x = Real.exp x
  log10_eq : ∀ x, m.log10 x = Real.log x / Real.log 10
  atan_eq : ∀ x, m.atan x = Real.arctan x
  sqrt_eq : ∀ x, m.sqrt x = Real.sqrt x
  twoPi_eq : m.twoPi = 2 * Real.pi
  decibelsToGain_eq : ∀ dB, m.decibelsToGain dB =
    if dB > -100 then Real.rpow 10 (dB * 0.05) else 0

/-- Rational stand-ins for the math routines, for evaluating the embedding on
concrete inputs whose result does not depend on the transcendental values. -/
def Libm.rational : Libm ℚ where
  powf := fun x _ => x
  exp := fun x => 1 + x * x
  log10 := fun x => x - 1
  atan := fun x => x / (1 + |x|)
  sqrt := fun x => x
  twoPi := 6.283185307179586
  decibelsToGain := fun dB => if dB > -100 then 1 + dB * dB else 0

/-- JUCE `dsp::FastMathApproximations::tanh` on finite values: the rational
function `x(135135 + 17325x² + 378x⁴ + x⁶) / (135135 + 62370x² + 3150x⁴ + 28x⁶)`.
The source instantiates it at `float`; `Ieee.FastMathApproximations.tanh` is
that instance with its overflow. -/
def FastMathApproximations.tanh {K : Type} [LinearOrderedField K] (x : K) : K :=
  let x2 := x * x
  let numerator := x * (135135 + x2 * (17325 + x2 * (378 + x2)))
  let denominator := 135135 + x2 * (62370 + x2 * (3150 + 28 * x2))
  numerator / denominator

/-- JUCE `AudioBuffer<double>` with one channel: its length and its samples. -/
structure AudioBuffer (K : Type) where
  numSamples : Nat
  data : Int → K

/-- JUCE `dsp::ProcessSpec`, the two members `prepare` reads. -/
structure ProcessSpec (K : Type) where
  sampleRate : K
  maximumBlockSize : Nat

/-- The value each `SmoothParam::getNextValue()` returns during one sample. -/
structure Controls (K : Type) where
  drive : K
  hysteresis : K
  tone : K
  mojo : K
  bias : K

/-- The data members of `RubidiumDistortion` (lines 225-285). -/
structure RubidiumDistortion (K : Type) where
  dataBuffer : AudioBuffer K
  (gain hys0 hys1 cut0 cut1 cut2 buf_length0 buf_length1 vol : K)
  (a adj3 adj4 rc : K)
  highpassFreq : K
  maxBlockSize : K
  (ap1_x0 ap1_y ap1_x1 ap1_z : K)
  (pos0 pos1 pos2 pos3 pos4 pos5 : Int)
  (delta0 delta1 : K)
  (shape srate dt : K)
  (adj_s3 adj_s4 : K)
  cDenorm : K
  (v_n_buf0 v_n_buf1 v_n_buf2 v_n_buf3 v_n_buf4 v_n_buf5 : Int)
  g : K
  (h0 h1 h2 h3 : K)
  (l0 l1 l2 l3 : K)
  (rand0 rand1 : K)
  (ap1_k0 ap1_k1 ap1_y0 ap1_y1 : K)

section Embedding

variable {K : Type} [LinearOrderedField K]

/-- JUCE `AudioBuffer::getSample(0, i)`. -/
def AudioBuffer.getSample (b : AudioBuffer K) (i : Int) : K := b.data i

/-- JUCE `AudioBuffer::setSample(0, i, v)`. -/
def AudioBuffer.setSample (b : AudioBuffer K) (i : Int) (v : K) : AudioBuffer K :=
  { b with data := Function.update b.data i v }

/-- JUCE `AudioBuffer::setSize(1, n)`: the new length; the content is not cleared
(whatever the samples held is kept as the unspecified content). -/
def AudioBuffer.setSize (b : AudioBuffer K) (n : Nat) : AudioBuffer K :=
  { b with numSamples := n }

/-- The loop of lines 26-29: `for (i = 0; i < n; i++) setSample(0, i, 0)`. -/
def zeroFill (n : Nat) (b : AudioBuffer K) : AudioBuffer K :=
  (List.range n).foldl (fun acc i => acc.setSample (i : Int) 0) b

/-- A state whose members are all zero and whose buffer is empty. -/
def RubidiumDistortion.allZero : RubidiumDistortion K where
  dataBuffer := ⟨0, fun _ => 0⟩
  gain := 0
  hys0 := 0
  hys1 := 0
  cut0 := 0
  cut1 := 0
  cut2 := 0
  buf_length0 := 0
  buf_length1 := 0
  vol := 0
  a := 0
  adj3 := 0
  adj4 := 0
  rc := 0
  highpassFreq := 0
  maxBlockSize := 0
  ap1_x0 := 0
  ap1_y := 0
  ap1_x1 := 0
  ap1_z := 0
  pos0 := 0
  pos1 := 0
  pos2 := 0
  pos3 := 0
  pos4 := 0
  pos5 := 0
  delta0 := 0
  delta1 := 0
  shape := 0
  srate := 0
  dt := 0
  adj_s3 := 0
  adj_s4 := 0
  cDenorm := 0
  v_n_buf0 := 0
  v_n_buf1 := 0
  v_n_buf2 := 0
  v_n_buf3 := 0
  v_n_buf4 := 0
  v_n_buf5 := 0
  g := 0
  h0 := 0
  h1 := 0
  h2 := 0
  h3 := 0
  l0 := 0
  l1 := 0
  l2 := 0
  l3 := 0
  rand0 := 0
  rand1 := 0
  ap1_k0 := 0
  ap1_k1 := 0
  ap1_y0 := 0
  ap1_y1 := 0

/-- The constructor with the default member initializers (lines 227-285).
The members without an initializer (`gain`, `hys0`, `hys1`, `cut0`, `cut1`,
`cut2`, `buf_length0`, `buf_length1`, `a`, `adj3`, `adj4`) are indeterminate:
they keep the values of `u`. The buffer is default-constructed (no samples;
`u` supplies the unspecified content of later allocations). -/
def RubidiumDistortion.construct (u : RubidiumDistortion K) : RubidiumDistortion K :=
  { u with
    dataBuffer := ⟨0, u.dataBuffer.data⟩
    vol := 0
    rc := 0
    highpassFreq := 5
    maxBlockSize := 128
    ap1_x0 := 0
    ap1_y := 0
    ap1_x1 := 0
    ap1_z := 0
    pos0 := 0
    pos1 := 0
    pos2 := 0
    pos3 := 0
    pos4 := 0
    pos5 := 0
    delta0 := 0
    delta1 := 0
    shape := 4
    srate := 44100
    dt := 1 / 44100
    adj_s3 := 1
    adj_s4 := 1
    cDenorm := 1e-30
    v_n_buf0 := 1000
    v_n_buf1 := 2000
    v_n_buf2 := 3000
    v_n_buf3 := 4000
    v_n_buf4 := 5000
    v_n_buf5 := 6000
    g := 0
    h0 := 0
    h1 := 0
    h2 := 0
    h3 := 0
    l0 := 0
    l1 := 0
    l2 := 0
    l3 := 0
    rand0 := 0.02
    rand1 := 0.09
    ap1_k0 := -0.9
    ap1_k1 := -0.9
    ap1_y0 := 0
    ap1_y1 := 0 }

/-- Method `updateCoefficients` (lines 56-73). -/
def updateCoefficients (m : Libm K) (c : Controls K) (s : RubidiumDistortion K) :
    RubidiumDistortion K :=
  let satAmt := m.powf (c.mojo * 0.01) 1.2 * 100 + 5
  let hystAmt := m.powf (c.hysteresis * 0.1) 2 * 300
  let toneAmt := c.tone
  let highpassFreq := toneAmt
  let gain := 0.125 + (satAmt * 0.06666666)
  { s with
    highpassFreq := highpassFreq
    gain := gain
    hys0 := 0.015625 + 0.015625 * (hystAmt * 0.08)
    hys1 := hystAmt * 0.01
    cut0 := m.twoPi * (highpassFreq + s.rand0) * s.dt
    cut1 := m.twoPi * (highpassFreq + s.rand1) * s.dt
    cut2 := m.twoPi * 0 * s.dt
    adj3 := if gain ≤ 0 then 0.0000001 else m.exp (s.shape * m.log10 gain) + 0.00000001
    adj4 := if gain ≤ 0 then 0.0000001 else m.exp (s.shape * m.log10 gain) + 0.00000001 }

/-- The delay-line lengths of `prepare` (lines 42-50) as a function of the
step ratio: the pair `(buf_length0, buf_length1)`. -/
def bufLengths (stepRatio : K) : K × K :=
  let buf_length1 := max ((stepRatio * 2) - 1) 0
  let buf_length1 := if stepRatio = 6 then 21 else buf_length1
  let buf_length0 := max (buf_length1 * buf_length1 * 2) 1
  let buf_length1 := buf_length1 * 2
  let buf_length0 := if buf_length1 = 2 then 6 else buf_length0
  (buf_length0, buf_length1)

/-- Method `prepare` (lines 17-54) with the local constant `stepRatio` as a
parameter; `c` holds the values `updateCoefficients` reads from the smoothers. -/
def prepareWith (stepRatio : K) (m : Libm K) (spec : ProcessSpec K) (c : Controls K)
    (s : RubidiumDistortion K) : RubidiumDistortion K :=
  let srate := spec.sampleRate
  let dt := 1 / spec.sampleRate
  let maxBlockSize : K := (spec.maximumBlockSize : K)
  let dataBuffer := zeroFill 70000 (s.dataBuffer.setSize 70000)
  let s := updateCoefficients m c
    { s with srate := srate, dt := dt, maxBlockSize := maxBlockSize, dataBuffer := dataBuffer }
  let rc := 0.2 * max (128 * 0.001) (maxBlockSize / srate)
  { s with
    vol := 0.9
    buf_length0 := (bufLengths stepRatio).1
    buf_length1 := (bufLengths stepRatio).2
    rc := rc
    a := dt / (rc + dt) }

/-- Method `prepare` (lines 17-54): `float stepRatio = 11.0f`. -/
def prepare (m : Libm K) (spec : ProcessSpec K) (c : Controls K)
    (s : RubidiumDistortion K) : RubidiumDistortion K :=
  prepareWith 11 m spec c s

/-- Method `atanApprox` (lines 75-77) on finite values: the value that
`inline float atanApprox(float x)` returns when no `float` operation in it
overflows (`atanApprox_toFp`); `Ieee.atanApprox` is the method with its
overflow (`atanApprox_overflow`). -/
def atanApprox (x : K) : K :=
  FastMathApproximations.tanh x + x * 0.08

/-- Lines 92-105 of `processBlock`: bias removal and arctangent saturation of
the two input samples `in0`, `in1`. Returns `(spl0, spl1, driveVal)`. -/
def saturation (m : Libm K) (c : Controls K) (s : RubidiumDistortion K) (in0 in1 : K) :
    K × K × K :=
  let biasKnob := c.bias
  let bias := m.powf biasKnob 3 * 0.6
  let spl0 := in0 - bias
  let spl1 := in1 - bias
  let driveKnob := c.drive
  let driveVal := m.decibelsToGain (driveKnob * 0.3)
  let spl0 := m.atan (spl0 * 1.1 * driveVal)
  let spl1 := m.atan (spl1 * 1.1 * driveVal)
  let spl0 := spl0 * s.adj3
  let spl1 := spl1 * s.adj4
  (spl0, spl1, driveVal)

/-- Lines 107-115: delta signal hysteresis (single-pole allpass). -/
def deltaHysteresis (s : RubidiumDistortion K) (spl0 spl1 : K) : RubidiumDistortion K :=
  let ap1_x0 := spl0
  let ap1_y := s.ap1_y0 + s.ap1_k0 * ap1_x0
  let ap1_y0 := ap1_x0 - s.ap1_k0 * ap1_y
  let delta0 := ap1_y
  let ap1_x1 := spl1
  let ap1_z := s.ap1_y1 + s.ap1_k1 * ap1_x1
  let ap1_y1 := ap1_x1 - s.ap1_k1 * ap1_z
  let delta1 := ap1_z
  { s with
    ap1_x0 := ap1_x0, ap1_y := ap1_y, ap1_y0 := ap1_y0, delta0 := delta0
    ap1_x1 := ap1_x1, ap1_z := ap1_z, ap1_y1 := ap1_y1, delta1 := delta1 }

/-- Lines 117-131: low level hysteresis (delay regions 0 and 1).
Returns the state and `(out0, out1)`. -/
def lowLevelHysteresis (s : RubidiumDistortion K) : RubidiumDistortion K × K × K :=
  let in0 := s.ap1_y + s.cDenorm
  let v_n0 := in0 + s.dataBuffer.getSample (s.v_n_buf0 + s.pos0) * -s.g
  let out0 := v_n0 * s.g + s.dataBuffer.getSample (s.v_n_buf0 + s.pos0)
  let dataBuffer := s.dataBuffer.setSample (s.v_n_buf0 + s.pos0) v_n0
  let pos0 := s.pos0 + 1
  let pos0 := if (pos0 : K) > s.buf_length0 then 0 else pos0
  let in1 := s.ap1_z + s.cDenorm
  let v_n1 := in1 + dataBuffer.getSample (s.v_n_buf1 + s.pos1) * -s.g
  let out1 := v_n1 * s.g + dataBuffer.getSample (s.v_n_buf1 + s.pos1)
  let dataBuffer := dataBuffer.setSample (s.v_n_buf1 + s.pos1) v_n1
  let pos1 := s.pos1 + 1
  let pos1 := if (pos1 : K) > s.buf_length0 then 0 else pos1
  ({ s with dataBuffer := dataBuffer, pos0 := pos0, pos1 := pos1 }, out0, out1)

/-- Lines 133-137: the rectified nonlinearity added to the delta signals. -/
def hysteresisRectify (m : Libm K) (s : RubidiumDistortion K) (out0 out1 : K) :
    RubidiumDistortion K :=
  let out0sign : K := if out0 < 0 then 0 else 1
  let out1sign : K := if out1 < 0 then 0 else 1
  { s with
    delta0 := s.delta0 + s.hys1 * max (s.hys0 - m.sqrt (out0 * out0sign) * out0sign) 0
    delta1 := s.delta1 + s.hys1 * max (s.hys0 - m.sqrt (out1 * out1sign) * out1sign) 0 }

/-- Lines 139-143: delta lowpass + rectified. -/
def deltaLowpass (s : RubidiumDistortion K) : RubidiumDistortion K :=
  let l0 := s.l0 + ((s.delta0 - s.l0) * s.cut0)
  let delta0 := l0 * l0
  let l1 := s.l1 + ((s.delta1 - s.l1) * s.cut1)
  let delta1 := l1 * l1
  { s with l0 := l0, delta0 := delta0, l1 := l1, delta1 := delta1 }

/-- Lines 145-149: signal highpass. Returns the state and `(spl0, spl1)`. -/
def signalHighpass (s : RubidiumDistortion K) (spl0 spl1 : K) : RubidiumDistortion K × K × K :=
  let h0 := s.h0 + (spl0 - s.h0) * s.cut0
  let spl0 := spl0 - h0
  let h1 := s.h1 + (spl1 - s.h1) * s.cut1
  let spl1 := spl1 - h1
  ({ s with h0 := h0, h1 := h1 }, spl0, spl1)

/-- Lines 151-153: the first nonlinear recombination. Returns `(spl0, spl1)`. -/
def recombineFirst (s : RubidiumDistortion K) (spl0 spl1 : K) : K × K :=
  (atanApprox (spl0 * s.delta0) /
      (if spl0 = 0 then 1 else (if s.delta0 = 0 then 0.00000000000001 else s.delta0)),
   atanApprox (spl1 * s.delta1) /
      (if spl1 = 0 then 1 else (if s.delta1 = 0 then 0.00000000000001 else s.delta1)))

/-- Lines 155-189: nested allpass (delay regions 2 to 5).
Returns the state and `(spl0, spl1)`. -/
def nestedAllpass (s : RubidiumDistortion K) (spl0 spl1 : K) : RubidiumDistortion K × K × K :=
  let in2 := spl0 + s.cDenorm
  let v_n2 := in2 + s.dataBuffer.getSample (s.v_n_buf2 + s.pos2) * -s.g
  let out2 := v_n2 * s.g + s.dataBuffer.getSample (s.v_n_buf2 + s.pos2)
  let dataBuffer := s.dataBuffer.setSample (s.v_n_buf2 + s.pos2) v_n2
  let pos2 := s.pos2 + 1
  let pos2 := if (pos2 : K) > s.buf_length1 then 0 else pos2
  let spl0 := out2
  let in3 := spl1 + s.cDenorm
  let v_n3 := in3 + dataBuffer.getSample (s.v_n_buf3 + s.pos3) * -s.g
  let out3 := v_n3 * s.g + dataBuffer.getSample (s.v_n_buf3 + s.pos3)
  let dataBuffer := dataBuffer.setSample (s.v_n_buf3 + s.pos3) v_n3
  let pos3 := s.pos3 + 1
  let pos3 := if (pos3 : K) > s.buf_length1 then 0 else pos3
  let spl1 := out3
  let in4 := s.delta0 + s.cDenorm
  let v_n4 := in4 + dataBuffer.getSample (s.v_n_buf4 + s.pos4) * -s.g
  let delta0 := v_n4 * s.g + dataBuffer.getSample (s.v_n_buf4 + s.pos4)
  let dataBuffer := dataBuffer.setSample (s.v_n_buf4 + s.pos4) v_n4
  let pos4 := s.pos4 + 1
  let pos4 := if (pos4 : K) > s.buf_length1 then 0 else pos4
  let in5 := s.delta1 + s.cDenorm
  let v_n5 := in5 + dataBuffer.getSample (s.v_n_buf5 + s.pos5) * -s.g
  let delta1 := v_n5 * s.g + dataBuffer.getSample (s.v_n_buf5 + s.pos5)
  let dataBuffer := dataBuffer.setSample (s.v_n_buf5 + s.pos5) v_n5
  let pos5 := s.pos5 + 1
  let pos5 := if (pos5 : K) > s.buf_length1 then 0 else pos5
  ({ s with
      dataBuffer := dataBuffer, pos2 := pos2, pos3 := pos3, pos4 := pos4, pos5 := pos5
      delta0 := delta0, delta1 := delta1 }, spl0, spl1)

/-- Lines 191-195: the second signal highpass. Returns the state and
`(spl0, spl1)`. -/
def signalHighpassSecond (s : RubidiumDistortion K) (spl0 spl1 : K) :
    RubidiumDistortion K × K × K :=
  let h2 := s.h2 + ((spl0 - s.h2) * s.cut2)
  let spl0 := spl0 - h2
  let h3 := s.h3 + ((spl1 - s.h3) * s.cut2)
  let spl1 := spl1 - h3
  ({ s with h2 := h2, h3 := h3 }, spl0, spl1)

/-- Lines 197-201: the delta lowpass of the second pass. -/
def deltaLowpassSecond (s : RubidiumDistortion K) : RubidiumDistortion K :=
  let l2 := s.l2 + ((s.delta0 - s.l2) * s.cut2)
  let delta0 := s.delta0 + l2
  let l3 := s.l3 + ((s.delta1 - s.l3) * s.cut2)
  let delta1 := s.delta1 + l3
  { s with l2 := l2, delta0 := delta0, l3 := l3, delta1 := delta1 }

/-- Lines 203-204: the second nonlinear recombination. Returns `(spl0, spl1)`. -/
def recombineSecond (s : RubidiumDistortion K) (spl0 spl1 : K) : K × K :=
  (atanApprox (spl0 * s.delta0) /
      (if spl0 = 0 then 1 else (if s.delta0 = 0 then 0.0000000000001 else s.delta0)),
   atanApprox (spl1 * s.delta1) /
      (if spl1 = 0 then 1 else (if s.delta1 = 0 then 0.0000000000001 else s.delta1)))

/-- Lines 206-211: drive compensation and output volume. Returns `(spl0, spl1)`. -/
def outputGain (s : RubidiumDistortion K) (driveVal spl0 spl1 : K) : K × K :=
  let compensation := driveVal * 0.1 + 1.0
  let spl0 := spl0 / (s.adj3 * compensation)
  let spl1 := spl1 / (s.adj4 * compensation)
  (spl0 * s.vol, spl1 * s.vol)

/-- One input frame of `processBlock`: the control values in effect at the
sample and the samples of the two channels. -/
structure Frame (K : Type) where
  controls : Controls K
  in0 : K
  in1 : K

/-- The body of the sample loop of `processBlock` (lines 90-214): the new
state and the two samples written back to the block. -/
def processSample (m : Libm K) (s : RubidiumDistortion K) (f : Frame K) :
    RubidiumDistortion K × K × K :=
  let s := updateCoefficients m f.controls s
  let sat := saturation m f.controls s f.in0 f.in1
  let driveVal := sat.2.2
  let s := deltaHysteresis s sat.1 sat.2.1
  let low := lowLevelHysteresis s
  let s := hysteresisRectify m low.1 low.2.1 low.2.2
  let s := deltaLowpass s
  let hp := signalHighpass s sat.1 sat.2.1
  let rec1 := recombineFirst hp.1 hp.2.1 hp.2.2
  let ap := nestedAllpass hp.1 rec1.1 rec1.2
  let hp2 := signalHighpassSecond ap.1 ap.2.1 ap.2.2
  let s := deltaLowpassSecond hp2.1
  let rec2 := recombineSecond s hp2.2.1 hp2.2.2
  let out := outputGain s driveVal rec2.1 rec2.2
  (s, out.1, out.2)

/-- The sample loop of `processBlock` (lines 88-215) over the frames of a
block: the final state and the output samples, in order. -/
def processBlock (m : Libm K) (s : RubidiumDistortion K) :
    List (Frame K) → RubidiumDistortion K × List (K × K)
  | [] => (s, [])
  | f :: fs =>
    let r := processSample m s f
    let rest := processBlock m r.1 fs
    (rest.1, (r.2.1, r.2.2) :: rest.2)

/-- Method `processBlock` with the control values held at `c` for the whole block. -/
def processBlockConst (m : Libm K) (c : Controls K) (s : RubidiumDistortion K)
    (xs : List (K × K)) : RubidiumDistortion K × List (K × K) :=
  processBlock m s (xs.map fun x => ⟨c, x.1, x.2⟩)

/-- Successive calls of `processBlock`, one per block, with the control values
held at `c`: the final state and the concatenated outputs. -/
def processBlocksConst (m : Libm K) (c : Controls K) (s : RubidiumDistortion K) :
    List (List (K × K)) → RubidiumDistortion K × List (K × K)
  | [] => (s, [])
  | b :: bs =>
    let r := processBlockConst m c s b
    let rest := processBlocksConst m c r.1 bs
    (rest.1, r.2 ++ rest.2)

/-- The delay-line recurrence as the specification words it (§4.3), for a
region with feedback `g`, base offset `base` and configured length `length`:
`in = x + 1e-30`, `v_n = in + stored * (-g)`, `out = v_n * g + stored`,
`buffer[base + pos] = v_n`, `pos = (pos + 1) mod (length + 1)`.
Returns the buffer, the position and `out`. -/
def delayLineSpec (g : K) (base : Int) (length : Nat) (buffer : AudioBuffer K) (pos : Int)
    (x : K) : AudioBuffer K × Int × K :=
  let stored := buffer.getSample (base + pos)
  let input := x + 1e-30
  let v_n := input + stored * (-g)
  let out := v_n * g + stored
  (buffer.setSample (base + pos) v_n, (pos + 1) % ((length : Int) + 1), out)

/-- The fast hyperbolic-tangent approximation the specification calls
`tanhApprox`, as the rational function it is modelled by:
`x(135135 + 17325x² + 378x⁴ + x⁶) / (135135 + 62370x² + 3150x⁴ + 28x⁶)`. -/
def tanhApproxSpec (x : K) : K :=
  x * (135135 + 17325 * x ^ 2 + 378 * x ^ 4 + x ^ 6) /
    (135135 + 62370 * x ^ 2 + 3150 * x ^ 4 + 28 * x ^ 6)

/-- The function `atanApprox` as the specification words it (§4.6):
`atanApprox(v) = tanhApprox(v) + 0.08 * v`. -/
def atanApproxSpec (v : K) : K :=
  tanhApproxSpec v + 0.08 * v

/-- The nonlinear recombination as the specification words it (§4.6):
`atanApprox(x * delta) / denom` with `denom = 1` if `x == 0`, else `1e-14` if
`delta == 0`, else `delta`, and `atanApprox(v) = tanhApprox(v) + 0.08 * v`.
It is written with `atanApproxSpec`, not with the `atanApprox` of the code. -/
def recombineSpec (x delta : K) : K :=
  atanApproxSpec (x * delta) / (if x = 0 then 1 else if delta = 0 then 1e-14 else delta)

/-- Every circular position lies between 0 and the configured length of its
region: `buf_length0` for regions 0-1, `buf_length1` for regions 2-5. -/
def positionsInRange (s : RubidiumDistortion K) : Prop :=
  (0 ≤ s.pos0 ∧ (s.pos0 : K) ≤ s.buf_length0) ∧ (0 ≤ s.pos1 ∧ (s.pos1 : K) ≤ s.buf_length0) ∧
  (0 ≤ s.pos2 ∧ (s.pos2 : K) ≤ s.buf_length1) ∧ (0 ≤ s.pos3 ∧ (s.pos3 : K) ≤ s.buf_length1) ∧
  (0 ≤ s.pos4 ∧ (s.pos4 : K) ≤ s.buf_length1) ∧ (0 ≤ s.pos5 ∧ (s.pos5 : K) ≤ s.buf_length1)

/-- A concrete instance over `ℚ`: constructed, then prepared at sample rate
44100 and block size 128 with every control at 0. -/
def preparedRat : RubidiumDistortion ℚ :=
  prepare Libm.rational ⟨44100, 128⟩ ⟨0, 0, 0, 0, 0⟩
    (RubidiumDistortion.construct RubidiumDistortion.allZero)

/-- A concrete frame over `ℚ`: every control at 0, both input samples 1. -/
def frameRat : Frame ℚ := ⟨⟨0, 0, 0, 0, 0⟩, 1, 1⟩

/-- The first part of the loop body (lines 90-153), up to the first
recombination: the state and `(spl0, spl1, driveVal)` entering the nested
allpass. -/
def processSampleFront (m : Libm K) (s : RubidiumDistortion K) (f : Frame K) :
    RubidiumDistortion K × K × K × K :=
  let s := updateCoefficients m f.controls s
  let sat := saturation m f.controls s f.in0 f.in1
  let s := deltaHysteresis s sat.1 sat.2.1
  let low := lowLevelHysteresis s
  let s := hysteresisRectify m low.1 low.2.1 low.2.2
  let s := deltaLowpass s
  let hp := signalHighpass s sat.1 sat.2.1
  let rec1 := recombineFirst hp.1 hp.2.1 hp.2.2
  (hp.1, rec1.1, rec1.2, sat.2.2)

/-- The second part of the loop body (lines 155-214), from the nested allpass
on: the new state and the two output samples. -/
def processSampleBack (s : RubidiumDistortion K) (spl0 spl1 driveVal : K) :
    RubidiumDistortion K × K × K :=
  let ap := nestedAllpass s spl0 spl1
  let hp2 := signalHighpassSecond ap.1 ap.2.1 ap.2.2
  let s := deltaLowpassSecond hp2.1
  let rec2 := recombineSecond s hp2.2.1 hp2.2.2
  let out := outputGain s driveVal rec2.1 rec2.2
  (s, out.1, out.2)

/-- The loop invariant behind the output bounds, relative to a reference state
`s0`: the members the loop never writes have their prepared values (`g = 0`,
`cDenorm = 1e-30`, `vol = 0.9`, the six base offsets, the lengths 882 and 42,
and `rand0`, `rand1`, `dt`, `shape` as in `s0`), the positions are in range,
the first highpass states are bounded by `M`, the second ones are 0, and the
slots of regions 2 and 3 are bounded by `B`. -/
structure Bounded (s0 : RubidiumDistortion K) (M B : K) (s : RubidiumDistortion K) : Prop where
  g_eq : s.g = 0
  cDenorm_eq : s.cDenorm = 1e-30
  vol_eq : s.vol = 0.9
  rand0_eq : s.rand0 = s0.rand0
  rand1_eq : s.rand1 = s0.rand1
  dt_eq : s.dt = s0.dt
  shape_eq : s.shape = s0.shape
  base0 : s.v_n_buf0 = 1000
  base1 : s.v_n_buf1 = 2000
  base2 : s.v_n_buf2 = 3000
  base3 : s.v_n_buf3 = 4000
  base4 : s.v_n_buf4 = 5000
  base5 : s.v_n_buf5 = 6000
  len0 : s.buf_length0 = 882
  len1 : s.buf_length1 = 42
  pos : positionsInRange s
  h0_le : |s.h0| ≤ M
  h1_le : |s.h1| ≤ M
  h2_eq : s.h2 = 0
  h3_eq : s.h3 = 0
  data_le : ∀ i : Int, (3000 ≤ i ∧ i ≤ 3042) ∨ (4000 ≤ i ∧ i ≤ 4042) →
    |s.dataBuffer.data i| ≤ B

/-- What the output bounds need of one frame, with the coefficients computed
as in the reference state `s0`: the saturation outputs are bounded by `M`, the
cutoffs `cut0`, `cut1` lie in `[0, 1]`, and the divisors of the output stage
are at least `A`. -/
structure FrameOK (m : Libm K) (s0 : RubidiumDistortion K) (M A : K) (f : Frame K) : Prop where
  sat0 : |(saturation m f.controls (updateCoefficients m f.controls s0) f.in0 f.in1).1| ≤ M
  sat1 : |(saturation m f.controls (updateCoefficients m f.controls s0) f.in0 f.in1).2.1| ≤ M
  cut0_nonneg : 0 ≤ (updateCoefficients m f.controls s0).cut0
  cut0_le : (updateCoefficients m f.controls s0).cut0 ≤ 1
  cut1_nonneg : 0 ≤ (updateCoefficients m f.controls s0).cut1
  cut1_le : (updateCoefficients m f.controls s0).cut1 ≤ 1
  div0 : A ≤ (updateCoefficients m f.controls s0).adj3 *
    ((saturation m f.controls (updateCoefficients m f.controls s0) f.in0 f.in1).2.2 * 0.1 + 1.0)
  div1 : A ≤ (updateCoefficients m f.controls s0).adj4 *
    ((saturation m f.controls (updateCoefficients m f.controls s0) f.in0 f.in1).2.2 * 0.1 + 1.0)

/-- The in-range frames of the boundedness property: both input samples in
`[-1, 1]`, drive in `[0, 100]`, mojo in `[0, 100]`, asym (the hysteresis
control) in `[0, 10]`, bias in `[0, 1]`, and a tone for which the cutoffs
`cut0`, `cut1` that `updateCoefficients` computes in the state `s0` lie in
`[0, 1]`. -/
def Frame.InRange (m : Libm K) (s0 : RubidiumDistortion K) (f : Frame K) : Prop :=
  (-1 ≤ f.in0 ∧ f.in0 ≤ 1) ∧ (-1 ≤ f.in1 ∧ f.in1 ≤ 1) ∧
  (0 ≤ f.controls.drive ∧ f.controls.drive ≤ 100) ∧
  (0 ≤ f.controls.mojo ∧ f.controls.mojo ≤ 100) ∧
  (0 ≤ f.controls.hysteresis ∧ f.controls.hysteresis ≤ 10) ∧
  (0 ≤ f.controls.bias ∧ f.controls.bias ≤ 1) ∧
  (0 ≤ (updateCoefficients m f.controls s0).cut0 ∧
    (updateCoefficients m f.controls s0).cut0 ≤ 1) ∧
  (0 ≤ (updateCoefficients m f.controls s0).cut1 ∧
    (updateCoefficients m f.controls s0).cut1 ≤ 1)

/-- The base offsets of the six delay regions, `v_n_buf0 .. v_n_buf5`. -/
def regionBase (s : RubidiumDistortion K) : Fin 6 → Int :=
  ![s.v_n_buf0, s.v_n_buf1, s.v_n_buf2, s.v_n_buf3, s.v_n_buf4, s.v_n_buf5]

/-- The circular positions of the six delay regions, `pos0 .. pos5`. -/
def regionPos (s : RubidiumDistortion K) : Fin 6 → Int :=
  ![s.pos0, s.pos1, s.pos2, s.pos3, s.pos4, s.pos5]

/-- The arena index that region `i` reads and writes in the next sample:
`v_n_buf_i + pos_i`. -/
def regionIndex (s : RubidiumDistortion K) (i : Fin 6) : Int :=
  regionBase s i + regionPos s i

/-- The configured length of region `i`: `L0` (the value of `buf_length0`) for
regions 0-1, `L1` (the value of `buf_length1`) for regions 2-5. -/
def regionLength (L0 L1 : Nat) : Fin 6 → Nat :=
  ![L0, L0, L1, L1, L1, L1]

/-- The loop body up to and including the nested allpass (lines 90-189): the
state and `(spl0, spl1)` entering the second signal highpass. -/
def processSampleAllpass (m : Libm K) (s : RubidiumDistortion K) (f : Frame K) :
    RubidiumDistortion K × K × K :=
  nestedAllpass (processSampleFront m s f).1 (processSampleFront m s f).2.1
    (processSampleFront m s f).2.2.1

/-- The value `x` fed to each delay region (`in = x + cDenorm`) in the sample
processed from state `s` with frame `f`: `ap1_y`, `ap1_z` for regions 0-1
(lines 118, 125), `spl0`, `spl1` after the first recombination for regions 2-3
(lines 157, 165), `delta0`, `delta1` after the delta lowpass for regions 4-5
(lines 175, 182). -/
def delayIn (m : Libm K) (s : RubidiumDistortion K) (f : Frame K) : Fin 6 → K :=
  ![(processSampleFront m s f).1.ap1_y, (processSampleFront m s f).1.ap1_z,
    (processSampleFront m s f).2.1, (processSampleFront m s f).2.2.1,
    (processSampleFront m s f).1.delta0, (processSampleFront m s f).1.delta1]

/-- The output of each delay region in the sample processed from state `s`
with frame `f`: `out0`, `out1` (lines 120, 127), `out2`, `out3` (lines 159,
167) and the new `delta0`, `delta1` (lines 177, 184). -/
def delayOut (m : Libm K) (s : RubidiumDistortion K) (f : Frame K) : Fin 6 → K :=
  let s1 := updateCoefficients m f.controls s
  let sat := saturation m f.controls s1 f.in0 f.in1
  let low := lowLevelHysteresis (deltaHysteresis s1 sat.1 sat.2.1)
  ![low.2.1, low.2.2, (processSampleAllpass m s f).2.1, (processSampleAllpass m s f).2.2,
    (processSampleAllpass m s f).1.delta0, (processSampleAllpass m s f).1.delta1]

/-- The state after `n` samples of the stream of frames `fr 0, fr 1, ...`. -/
def stateAt (m : Libm K) (s : RubidiumDistortion K) (fr : Nat → Frame K) :
    Nat → RubidiumDistortion K
  | 0 => s
  | n + 1 => (processSample m (stateAt m s fr n) (fr n)).1

/-- The members the delay regions depend on and the loop never writes:
`g = 0`, `cDenorm = 1e-30`, the base offsets 1000, ..., 6000 and the integer
lengths `buf_length0 = L0`, `buf_length1 = L1`, both below the spacing 1000 of
the base offsets. -/
structure DelayConsts (L0 L1 : Nat) (s : RubidiumDistortion K) : Prop where
  g_eq : s.g = 0
  cDenorm_eq : s.cDenorm = 1e-30
  base0 : s.v_n_buf0 = 1000
  base1 : s.v_n_buf1 = 2000
  base2 : s.v_n_buf2 = 3000
  base3 : s.v_n_buf3 = 4000
  base4 : s.v_n_buf4 = 5000
  base5 : s.v_n_buf5 = 6000
  len0 : s.buf_length0 = (L0 : K)
  len1 : s.buf_length1 = (L1 : K)
  len0_lt : L0 < 1000
  len1_lt : L1 < 1000

/-- A state whose delay regions start from silence: the constant members of
`DelayConsts`, every position 0 and every slot of every region zero. -/
structure DelayReady (L0 L1 : Nat) (s : RubidiumDistortion K) : Prop where
  consts : DelayConsts L0 L1 s
  pos_eq : ∀ i : Fin 6, regionPos s i = 0
  zero : ∀ (i : Fin 6) (j : Int), 0 ≤ j → j ≤ (regionLength L0 L1 i : Int) →
    s.dataBuffer.getSample (regionBase s i + j) = 0

/-- A value of the C++ types `float` and `double`: a finite number, carried
exactly (rounding and the sign of zero are not modelled), an infinity, or NaN. -/
inductive Fp (K : Type) where
  | fin (x : K)
  | posInf
  | negInf
  | nan

/-- `FLT_MAX`, the largest finite `float`: `(2 - 2^-23) * 2^127`. -/
def floatMax : K := 340282346638528859811704183484516925440

/-- The infinity with the sign of `x`; NaN when `x` is zero. -/
def Fp.signedInf (x : K) : Fp K :=
  if 0 < x then .posInf else if x < 0 then .negInf else .nan

/-- IEEE 754 negation. -/
def Fp.neg : Fp K → Fp K
  | .fin x => .fin (-x)
  | .posInf => .negInf
  | .negInf => .posInf
  | .nan => .nan

/-- IEEE 754 addition: `inf + (-inf)` is NaN. -/
def Fp.add : Fp K → Fp K → Fp K
  | .fin x, .fin y => .fin (x + y)
  | .fin _, .posInf => .posInf
  | .fin _, .negInf => .negInf
  | .posInf, .fin _ => .posInf
  | .posInf, .posInf => .posInf
  | .posInf, .negInf => .nan
  | .negInf, .fin _ => .negInf
  | .negInf, .posInf => .nan
  | .negInf, .negInf => .negInf
  | .nan, _ => .nan
  | _, .nan => .nan

/-- IEEE 754 subtraction: `a + (-b)`. -/
def Fp.sub : Fp K → Fp K → Fp K
  | .fin x, .fin y => .fin (x - y)
  | a, b => Fp.add a (Fp.neg b)

/-- IEEE 754 multiplication: `inf * 0` is NaN. -/
def Fp.mul : Fp K → Fp K → Fp K
  | .fin x, .fin y => .fin (x * y)
  | .fin x, .posInf => Fp.signedInf x
  | .fin x, .negInf => Fp.signedInf (-x)
  | .posInf, .fin y => Fp.signedInf y
  | .posInf, .posInf => .posInf
  | .posInf, .negInf => .negInf
  | .negInf, .fin y => Fp.signedInf (-y)
  | .negInf, .posInf => .negInf
  | .negInf, .negInf => .posInf
  | .nan, _ => .nan
  | _, .nan => .nan

/-- IEEE 754 division (a zero divisor is `+0`): `0 / 0` and `inf / inf` are
NaN, a finite number divided by an infinity is 0. -/
def Fp.div : Fp K → Fp K → Fp K
  | .fin x, .fin y => if y = 0 then Fp.signedInf x else .fin (x / y)
  | .fin _, .posInf => .fin 0
  | .fin _, .negInf => .fin 0
  | .posInf, .fin y => if y < 0 then .negInf else .posInf
  | .posInf, .posInf => .nan
  | .posInf, .negInf => .nan
  | .negInf, .fin y => if y < 0 then .posInf else .negInf
  | .negInf, .posInf => .nan
  | .negInf, .negInf => .nan
  | .nan, _ => .nan
  | _, .nan => .nan

instance Fp.instNeg : Neg (Fp K) := ⟨Fp.neg⟩

instance Fp.instAdd : Add (Fp K) := ⟨Fp.add⟩

instance Fp.instSub : Sub (Fp K) := ⟨Fp.sub⟩

instance Fp.instMul : Mul (Fp K) := ⟨Fp.mul⟩

instance Fp.instDiv : Div (Fp K) := ⟨Fp.div⟩

/-- The comparison `a < b` of C++: false when either side is NaN. -/
def Fp.lt : Fp K → Fp K → Bool
  | .fin x, .fin y => decide (x < y)
  | .fin _, .posInf => true
  | .negInf, .fin _ => true
  | .negInf, .posInf => true
  | _, _ => false

/-- The comparison `a <= b` of C++: false when either side is NaN. -/
def Fp.le : Fp K → Fp K → Bool
  | .fin x, .fin y => decide (x ≤ y)
  | .fin _, .posInf => true
  | .negInf, .fin _ => true
  | .negInf, .posInf => true
  | .posInf, .posInf => true
  | .negInf, .negInf => true
  | _, _ => false

/-- The comparison `a == b` of C++: false when either side is NaN. -/
def Fp.eq : Fp K → Fp K → Bool
  | .fin x, .fin y => decide (x = y)
  | .posInf, .posInf => true
  | .negInf, .negInf => true
  | _, _ => false

/-- The C function `fmax`: a NaN argument is ignored. -/
def Fp.fmax : Fp K → Fp K → Fp K
  | .nan, y => y
  | x, .nan => x
  | x, y => if Fp.lt x y then y else x

/-- Conversion to `float`, and the result of a `float` operation whose exact
value is the argument: beyond `FLT_MAX` in magnitude it is an infinity. -/
def Fp.toFloat : Fp K → Fp K
  | .fin x => if floatMax < x then .posInf else if x < -floatMax then .negInf else .fin x
  | .posInf => .posInf
  | .negInf => .negInf
  | .nan => .nan

/-- The math routines `mx` on floating values return, at finite arguments
inside the domain of the routine, the finite value the routines `m` return.
They are the exact routines: the conversion of the `float` result of `powf`
is applied where `powf` is called, and overflow of a `double` result is not
modelled. -/
structure Libm.Extends (mx : Libm (Fp K)) (m : Libm K) : Prop where
  powf_fin : ∀ x y, 0 ≤ x → 0 < y → mx.powf (.fin x) (.fin y) = .fin (m.powf x y)
  exp_fin : ∀ x, mx.exp (.fin x) = .fin (m.exp x)
  log10_fin : ∀ x, 0 < x → mx.log10 (.fin x) = .fin (m.log10 x)
  atan_fin : ∀ x, mx.atan (.fin x) = .fin (m.atan x)
  sqrt_fin : ∀ x, 0 ≤ x → mx.sqrt (.fin x) = .fin (m.sqrt x)
  twoPi_fin : mx.twoPi = .fin m.twoPi
  decibelsToGain_fin : ∀ x, mx.decibelsToGain (.fin x) = .fin (m.decibelsToGain x)

/-- An extension of the math routines `m` to floating values. `exp`, `log10`,
`atan`, `sqrt` and `decibelsToGain` follow the C library and JUCE at
infinities, at NaN and outside their domain; `powf` is the routine of `m` at
finite arguments and NaN otherwise. -/
def Libm.toFp (m : Libm K) : Libm (Fp K) where
  powf := fun x y =>
    match x, y with
    | .fin a, .fin b => .fin (m.powf a b)
    | _, _ => .nan
  exp := fun x =>
    match x with
    | .fin a => .fin (m.exp a)
    | .posInf => .posInf
    | .negInf => .fin 0
    | .nan => .nan
  log10 := fun x =>
    match x with
    | .fin a => if 0 < a then .fin (m.log10 a) else if a = 0 then .negInf else .nan
    | .posInf => .posInf
    | .negInf => .nan
    | .nan => .nan
  atan := fun x =>
    match x with
    | .fin a => .fin (m.atan a)
    | .posInf => .fin (m.twoPi / 4)
    | .negInf => .fin (-(m.twoPi / 4))
    | .nan => .nan
  sqrt := fun x =>
    match x with
    | .fin a => if 0 ≤ a then .fin (m.sqrt a) else .nan
    | .posInf => .posInf
    | .negInf => .nan
    | .nan => .nan
  twoPi := .fin m.twoPi
  decibelsToGain := fun x =>
    match x with
    | .fin a => .fin (m.decibelsToGain a)
    | .posInf => .posInf
    | .negInf => .fin 0
    | .nan => .fin 0

/-- A buffer of finite samples as a buffer of floating values. -/
def AudioBuffer.toFp (b : AudioBuffer K) : AudioBuffer (Fp K) :=
  ⟨b.numSamples, fun i => .fin (b.data i)⟩

/-- Finite control values as floating values. -/
def Controls.toFp (c : Controls K) : Controls (Fp K) :=
  ⟨.fin c.drive, .fin c.hysteresis, .fin c.tone, .fin c.mojo, .fin c.bias⟩

/-- A frame of finite values as a frame of floating values. -/
def Frame.toFp (f : Frame K) : Frame (Fp K) :=
  ⟨f.controls.toFp, .fin f.in0, .fin f.in1⟩

/-- A state whose members are all finite as a state of floating values. -/
def RubidiumDistortion.toFp (s : RubidiumDistortion K) : RubidiumDistortion (Fp K) where
  dataBuffer := s.dataBuffer.toFp
  gain := .fin s.gain
  hys0 := .fin s.hys0
  hys1 := .fin s.hys1
  cut0 := .fin s.cut0
  cut1 := .fin s.cut1
  cut2 := .fin s.cut2
  buf_length0 := .fin s.buf_length0
  buf_length1 := .fin s.buf_length1
  vol := .fin s.vol
  a := .fin s.a
  adj3 := .fin s.adj3
  adj4 := .fin s.adj4
  rc := .fin s.rc
  highpassFreq := .fin s.highpassFreq
  maxBlockSize := .fin s.maxBlockSize
  ap1_x0 := .fin s.ap1_x0
  ap1_y := .fin s.ap1_y
  ap1_x1 := .fin s.ap1_x1
  ap1_z := .fin s.ap1_z
  pos0 := s.pos0
  pos1 := s.pos1
  pos2 := s.pos2
  pos3 := s.pos3
  pos4 := s.pos4
  pos5 := s.pos5
  delta0 := .fin s.delta0
  delta1 := .fin s.delta1
  shape := .fin s.shape
  srate := .fin s.srate
  dt := .fin s.dt
  adj_s3 := .fin s.adj_s3
  adj_s4 := .fin s.adj_s4
  cDenorm := .fin s.cDenorm
  v_n_buf0 := s.v_n_buf0
  v_n_buf1 := s.v_n_buf1
  v_n_buf2 := s.v_n_buf2
  v_n_buf3 := s.v_n_buf3
  v_n_buf4 := s.v_n_buf4
  v_n_buf5 := s.v_n_buf5
  g := .fin s.g
  h0 := .fin s.h0
  h1 := .fin s.h1
  h2 := .fin s.h2
  h3 := .fin s.h3
  l0 := .fin s.l0
  l1 := .fin s.l1
  l2 := .fin s.l2
  l3 := .fin s.l3
  rand0 := .fin s.rand0
  rand1 := .fin s.rand1
  ap1_k0 := .fin s.ap1_k0
  ap1_k1 := .fin s.ap1_k1
  ap1_y0 := .fin s.ap1_y0
  ap1_y1 := .fin s.ap1_y1

namespace Ieee

open Fp

/-- JUCE `AudioBuffer::getSample(0, i)`. -/
def getSample (b : AudioBuffer (Fp K)) (i : Int) : Fp K := b.data i

/-- JUCE `AudioBuffer::setSample(0, i, v)`. -/
def setSample (b : AudioBuffer (Fp K)) (i : Int) (v : Fp K) : AudioBuffer (Fp K) :=
  { b with data := Function.update b.data i v }

/-- JUCE `dsp::FastMathApproximations::tanh<float>`, operation by operation:
every product, sum and quotient is a `float` operation. -/
def FastMathApproximations.tanh (x : Fp K) : Fp K :=
  let x2 := toFloat (x * x)
  let numerator := toFloat (x * toFloat (fin 135135 + toFloat (x2 * toFloat (fin 17325 +
    toFloat (x2 * toFloat (fin 378 + x2))))))
  let denominator := toFloat (fin 135135 + toFloat (x2 * toFloat (fin 62370 +
    toFloat (x2 * toFloat (fin 3150 + toFloat (fin 28 * x2))))))
  toFloat (numerator / denominator)

/-- Method `atanApprox` (lines 75-77), `inline float atanApprox(float x)`: the
argument is converted to `float` and the sum and the product are `float`
operations. -/
def atanApprox (x : Fp K) : Fp K :=
  let x := toFloat x
  toFloat (FastMathApproximations.tanh x + toFloat (x * fin 0.08))

/-- Method `updateCoefficients` (lines 56-73). `satAmt`, `hystAmt` and
`toneAmt` are `float` variables, `powf` is the `float` routine and a product or
sum of two `float` values is a `float`; the members are `double`. -/
def updateCoefficients (mx : Libm (Fp K)) (c : Controls (Fp K)) (s : RubidiumDistortion (Fp K)) :
    RubidiumDistortion (Fp K) :=
  let satAmt := toFloat (toFloat (toFloat (mx.powf (toFloat (c.mojo * fin 0.01)) (fin 1.2)) *
    fin 100) + fin 5)
  let hystAmt := toFloat (toFloat (mx.powf (toFloat (c.hysteresis * fin 0.1)) (fin 2)) * fin 300)
  let toneAmt := toFloat c.tone
  let highpassFreq := toneAmt
  let gain := fin 0.125 + toFloat (satAmt * fin 0.06666666)
  { s with
    highpassFreq := highpassFreq
    gain := gain
    hys0 := fin 0.015625 + fin 0.015625 * toFloat (hystAmt * fin 0.08)
    hys1 := toFloat (hystAmt * fin 0.01)
    cut0 := mx.twoPi * (highpassFreq + s.rand0) * s.dt
    cut1 := mx.twoPi * (highpassFreq + s.rand1) * s.dt
    cut2 := toFloat (mx.twoPi * fin 0) * s.dt
    adj3 := if Fp.le gain (fin 0) then fin 0.0000001
      else mx.exp (s.shape * mx.log10 gain) + fin 0.00000001
    adj4 := if Fp.le gain (fin 0) then fin 0.0000001
      else mx.exp (s.shape * mx.log10 gain) + fin 0.00000001 }

/-- Lines 92-105 of `processBlock`: bias removal and arctangent saturation.
`powf` takes and returns `float`, and its product with `0.6f` is a `float`.
Returns `(spl0, spl1, driveVal)`. -/
def saturation (mx : Libm (Fp K)) (c : Controls (Fp K)) (s : RubidiumDistortion (Fp K))
    (in0 in1 : Fp K) : Fp K × Fp K × Fp K :=
  let biasKnob := c.bias
  let bias := toFloat (toFloat (mx.powf (toFloat biasKnob) (fin 3)) * fin 0.6)
  let spl0 := in0 - bias
  let spl1 := in1 - bias
  let driveKnob := c.drive
  let driveVal := mx.decibelsToGain (driveKnob * fin 0.3)
  let spl0 := mx.atan (spl0 * fin 1.1 * driveVal)
  let spl1 := mx.atan (spl1 * fin 1.1 * driveVal)
  let spl0 := spl0 * s.adj3
  let spl1 := spl1 * s.adj4
  (spl0, spl1, driveVal)

/-- Lines 107-115: delta signal hysteresis (single-pole allpass). -/
def deltaHysteresis (s : RubidiumDistortion (Fp K)) (spl0 spl1 : Fp K) :
    RubidiumDistortion (Fp K) :=
  let ap1_x0 := spl0
  let ap1_y := s.ap1_y0 + s.ap1_k0 * ap1_x0
  let ap1_y0 := ap1_x0 - s.ap1_k0 * ap1_y
  let delta0 := ap1_y
  let ap1_x1 := spl1
  let ap1_z := s.ap1_y1 + s.ap1_k1 * ap1_x1
  let ap1_y1 := ap1_x1 - s.ap1_k1 * ap1_z
  let delta1 := ap1_z
  { s with
    ap1_x0 := ap1_x0, ap1_y := ap1_y, ap1_y0 := ap1_y0, delta0 := delta0
    ap1_x1 := ap1_x1, ap1_z := ap1_z, ap1_y1 := ap1_y1, delta1 := delta1 }

/-- Lines 117-131: low level hysteresis (delay regions 0 and 1); the position
is converted to `double` for the wrap test. Returns the state and
`(out0, out1)`. -/
def lowLevelHysteresis (s : RubidiumDistortion (Fp K)) : RubidiumDistortion (Fp K) × Fp K × Fp K :=
  let in0 := s.ap1_y + s.cDenorm
  let v_n0 := in0 + getSample s.dataBuffer (s.v_n_buf0 + s.pos0) * -s.g
  let out0 := v_n0 * s.g + getSample s.dataBuffer (s.v_n_buf0 + s.pos0)
  let dataBuffer := setSample s.dataBuffer (s.v_n_buf0 + s.pos0) v_n0
  let pos0 := s.pos0 + 1
  let pos0 := if Fp.lt s.buf_length0 (fin (pos0 : K)) then 0 else pos0
  let in1 := s.ap1_z + s.cDenorm
  let v_n1 := in1 + getSample dataBuffer (s.v_n_buf1 + s.pos1) * -s.g
  let out1 := v_n1 * s.g + getSample dataBuffer (s.v_n_buf1 + s.pos1)
  let dataBuffer := setSample dataBuffer (s.v_n_buf1 + s.pos1) v_n1
  let pos1 := s.pos1 + 1
  let pos1 := if Fp.lt s.buf_length0 (fin (pos1 : K)) then 0 else pos1
  ({ s with dataBuffer := dataBuffer, pos0 := pos0, pos1 := pos1 }, out0, out1)

/-- Lines 133-137: the rectified nonlinearity added to the delta signals. -/
def hysteresisRectify (mx : Libm (Fp K)) (s : RubidiumDistortion (Fp K)) (out0 out1 : Fp K) :
    RubidiumDistortion (Fp K) :=
  let out0sign : Fp K := if Fp.lt out0 (fin 0) then fin 0 else fin 1
  let out1sign : Fp K := if Fp.lt out1 (fin 0) then fin 0 else fin 1
  { s with
    delta0 := s.delta0 +
      s.hys1 * Fp.fmax (s.hys0 - mx.sqrt (out0 * out0sign) * out0sign) (fin 0)
    delta1 := s.delta1 +
      s.hys1 * Fp.fmax (s.hys0 - mx.sqrt (out1 * out1sign) * out1sign) (fin 0) }

/-- Lines 139-143: delta lowpass + rectified. -/
def deltaLowpass (s : RubidiumDistortion (Fp K)) : RubidiumDistortion (Fp K) :=
  let l0 := s.l0 + ((s.delta0 - s.l0) * s.cut0)
  let delta0 := l0 * l0
  let l1 := s.l1 + ((s.delta1 - s.l1) * s.cut1)
  let delta1 := l1 * l1
  { s with l0 := l0, delta0 := delta0, l1 := l1, delta1 := delta1 }

/-- Lines 145-149: signal highpass. Returns the state and `(spl0, spl1)`. -/
def signalHighpass (s : RubidiumDistortion (Fp K)) (spl0 spl1 : Fp K) :
    RubidiumDistortion (Fp K) × Fp K × Fp K :=
  let h0 := s.h0 + (spl0 - s.h0) * s.cut0
  let spl0 := spl0 - h0
  let h1 := s.h1 + (spl1 - s.h1) * s.cut1
  let spl1 := spl1 - h1
  ({ s with h0 := h0, h1 := h1 }, spl0, spl1)

/-- Lines 151-153: the first nonlinear recombination; the `float` result of
`atanApprox` is divided in `double`. Returns `(spl0, spl1)`. -/
def recombineFirst (s : RubidiumDistortion (Fp K)) (spl0 spl1 : Fp K) : Fp K × Fp K :=
  (atanApprox (spl0 * s.delta0) /
      (if Fp.eq spl0 (fin 0) then fin 1
        else (if Fp.eq s.delta0 (fin 0) then fin 0.00000000000001 else s.delta0)),
   atanApprox (spl1 * s.delta1) /
      (if Fp.eq spl1 (fin 0) then fin 1
        else (if Fp.eq s.delta1 (fin 0) then fin 0.00000000000001 else s.delta1)))

/-- Lines 155-189: nested allpass (delay regions 2 to 5).
Returns the state and `(spl0, spl1)`. -/
def nestedAllpass (s : RubidiumDistortion (Fp K)) (spl0 spl1 : Fp K) :
    RubidiumDistortion (Fp K) × Fp K × Fp K :=
  let in2 := spl0 + s.cDenorm
  let v_n2 := in2 + getSample s.dataBuffer (s.v_n_buf2 + s.pos2) * -s.g
  let out2 := v_n2 * s.g + getSample s.dataBuffer (s.v_n_buf2 + s.pos2)
  let dataBuffer := setSample s.dataBuffer (s.v_n_buf2 + s.pos2) v_n2
  let pos2 := s.pos2 + 1
  let pos2 := if Fp.lt s.buf_length1 (fin (pos2 : K)) then 0 else pos2
  let spl0 := out2
  let in3 := spl1 + s.cDenorm
  let v_n3 := in3 + getSample dataBuffer (s.v_n_buf3 + s.pos3) * -s.g
  let out3 := v_n3 * s.g + getSample dataBuffer (s.v_n_buf3 + s.pos3)
  let dataBuffer := setSample dataBuffer (s.v_n_buf3 + s.pos3) v_n3
  let pos3 := s.pos3 + 1
  let pos3 := if Fp.lt s.buf_length1 (fin (pos3 : K)) then 0 else pos3
  let spl1 := out3
  let in4 := s.delta0 + s.cDenorm
  let v_n4 := in4 + getSample dataBuffer (s.v_n_buf4 + s.pos4) * -s.g
  let delta0 := v_n4 * s.g + getSample dataBuffer (s.v_n_buf4 + s.pos4)
  let dataBuffer := setSample dataBuffer (s.v_n_buf4 + s.pos4) v_n4
  let pos4 := s.pos4 + 1
  let pos4 := if Fp.lt s.buf_length1 (fin (pos4 : K)) then 0 else pos4
  let in5 := s.delta1 + s.cDenorm
  let v_n5 := in5 + getSample dataBuffer (s.v_n_buf5 + s.pos5) * -s.g
  let delta1 := v_n5 * s.g + getSample dataBuffer (s.v_n_buf5 + s.pos5)
  let dataBuffer := setSample dataBuffer (s.v_n_buf5 + s.pos5) v_n5
  let pos5 := s.pos5 + 1
  let pos5 := if Fp.lt s.buf_length1 (fin (pos5 : K)) then 0 else pos5
  ({ s with
      dataBuffer := dataBuffer, pos2 := pos2, pos3 := pos3, pos4 := pos4, pos5 := pos5
      delta0 := delta0, delta1 := delta1 }, spl0, spl1)

/-- Lines 191-195: the second signal highpass. Returns the state and
`(spl0, spl1)`. -/
def signalHighpassSecond (s : RubidiumDistortion (Fp K)) (spl0 spl1 : Fp K) :
    RubidiumDistortion (Fp K) × Fp K × Fp K :=
  let h2 := s.h2 + ((spl0 - s.h2) * s.cut2)
  let spl0 := spl0 - h2
  let h3 := s.h3 + ((spl1 - s.h3) * s.cut2)
  let spl1 := spl1 - h3
  ({ s with h2 := h2, h3 := h3 }, spl0, spl1)

/-- Lines 197-201: the delta lowpass of the second pass. -/
def deltaLowpassSecond (s : RubidiumDistortion (Fp K)) : RubidiumDistortion (Fp K) :=
  let l2 := s.l2 + ((s.delta0 - s.l2) * s.cut2)
  let delta0 := s.delta0 + l2
  let l3 := s.l3 + ((s.delta1 - s.l3) * s.cut2)
  let delta1 := s.delta1 + l3
  { s with l2 := l2, delta0 := delta0, l3 := l3, delta1 := delta1 }

/-- Lines 203-204: the second nonlinear recombination. Returns `(spl0, spl1)`. -/
def recombineSecond (s : RubidiumDistortion (Fp K)) (spl0 spl1 : Fp K) : Fp K × Fp K :=
  (atanApprox (spl0 * s.delta0) /
      (if Fp.eq spl0 (fin 0) then fin 1
        else (if Fp.eq s.delta0 (fin 0) then fin 0.0000000000001 else s.delta0)),
   atanApprox (spl1 * s.delta1) /
      (if Fp.eq spl1 (fin 0) then fin 1
        else (if Fp.eq s.delta1 (fin 0) then fin 0.0000000000001 else s.delta1)))

/-- Lines 206-214: drive compensation, output volume and the conversion
`(float)spl0`, `(float)spl1` of the samples written to the block. -/
def outputGain (s : RubidiumDistortion (Fp K)) (driveVal spl0 spl1 : Fp K) : Fp K × Fp K :=
  let compensation := driveVal * fin 0.1 + fin 1.0
  let spl0 := spl0 / (s.adj3 * compensation)
  let spl1 := spl1 / (s.adj4 * compensation)
  (toFloat (spl0 * s.vol), toFloat (spl1 * s.vol))

/-- The body of the sample loop of `processBlock` (lines 90-214): the new
state and the two samples written back to the block. -/
def processSample (mx : Libm (Fp K)) (s : RubidiumDistortion (Fp K)) (f : Frame (Fp K)) :
    RubidiumDistortion (Fp K) × Fp K × Fp K :=
  let s := updateCoefficients mx f.controls s
  let sat := saturation mx f.controls s f.in0 f.in1
  let driveVal := sat.2.2
  let s := deltaHysteresis s sat.1 sat.2.1
  let low := lowLevelHysteresis s
  let s := hysteresisRectify mx low.1 low.2.1 low.2.2
  let s := deltaLowpass s
  let hp := signalHighpass s sat.1 sat.2.1
  let rec1 := recombineFirst hp.1 hp.2.1 hp.2.2
  let ap := nestedAllpass hp.1 rec1.1 rec1.2
  let hp2 := signalHighpassSecond ap.1 ap.2.1 ap.2.2
  let s := deltaLowpassSecond hp2.1
  let rec2 := recombineSecond s hp2.2.1 hp2.2.2
  let out := outputGain s driveVal rec2.1 rec2.2
  (s, out.1, out.2)

/-- The sample loop of `processBlock` (lines 88-215) over the frames of a
block: the final state and the output samples, in order. -/
def processBlock (mx : Libm (Fp K)) (s : RubidiumDistortion (Fp K)) :
    List (Frame (Fp K)) → RubidiumDistortion (Fp K) × List (Fp K × Fp K)
  | [] => (s, [])
  | f :: fs =>
    let r := processSample mx s f
    let rest := processBlock mx r.1 fs
    (rest.1, (r.2.1, r.2.2) :: rest.2)

/-- The loop body up to the first signal highpass (lines 90-149): the state and
`(spl0, spl1, driveVal)` entering the first recombination. -/
def processSamplePre (mx : Libm (Fp K)) (s : RubidiumDistortion (Fp K)) (f : Frame (Fp K)) :
    RubidiumDistortion (Fp K) × Fp K × Fp K × Fp K :=
  let s := updateCoefficients mx f.controls s
  let sat := saturation mx f.controls s f.in0 f.in1
  let s := deltaHysteresis s sat.1 sat.2.1
  let low := lowLevelHysteresis s
  let s := hysteresisRectify mx low.1 low.2.1 low.2.2
  let s := deltaLowpass s
  let hp := signalHighpass s sat.1 sat.2.1
  (hp.1, hp.2.1, hp.2.2, sat.2.2)

/-- The second part of the loop body (lines 155-214), from the nested allpass
on: the new state and the two output samples. -/
def processSampleBack (s : RubidiumDistortion (Fp K)) (spl0 spl1 driveVal : Fp K) :
    RubidiumDistortion (Fp K) × Fp K × Fp K :=
  let ap := nestedAllpass s spl0 spl1
  let hp2 := signalHighpassSecond ap.1 ap.2.1 ap.2.2
  let s := deltaLowpassSecond hp2.1
  let rec2 := recombineSecond s hp2.2.1 hp2.2.2
  let out := outputGain s driveVal rec2.1 rec2.2
  (s, out.1, out.2)

/-- The first part of the loop body (lines 90-153), up to the first
recombination: the state and `(spl0, spl1, driveVal)` entering the nested
allpass. -/
def processSampleFront (mx : Libm (Fp K)) (s : RubidiumDistortion (Fp K)) (f : Frame (Fp K)) :
    RubidiumDistortion (Fp K) × Fp K × Fp K × Fp K :=
  let pre := processSamplePre mx s f
  let rec1 := recombineFirst pre.1 pre.2.1 pre.2.2.1
  (pre.1, rec1.1, rec1.2, pre.2.2.2)

/-- The loop body up to and including the nested allpass (lines 90-189): the
state and `(spl0, spl1)` entering the second signal highpass; `spl0` and `spl1`
are the outputs `out2`, `out3` of the delay regions 2 and 3. -/
def processSampleAllpass (mx : Libm (Fp K)) (s : RubidiumDistortion (Fp K)) (f : Frame (Fp K)) :
    RubidiumDistortion (Fp K) × Fp K × Fp K :=
  nestedAllpass (processSampleFront mx s f).1 (processSampleFront mx s f).2.1
    (processSampleFront mx s f).2.2.1

end Ieee

/-- The `float` computations of `updateCoefficients` (lines 57-65) and of the
bias (line 93) with the controls `c` stay within the range of `float`, and the
arguments of `powf` are not negative. -/
structure CoeffFinite (m : Libm K) (c : Controls K) : Prop where
  mojo_nonneg : 0 ≤ c.mojo * 0.01
  mojo_arg : |c.mojo * 0.01| ≤ floatMax
  mojo_pow : |m.powf (c.mojo * 0.01) 1.2| ≤ floatMax
  mojo_mul : |m.powf (c.mojo * 0.01) 1.2 * 100| ≤ floatMax
  satAmt : |m.powf (c.mojo * 0.01) 1.2 * 100 + 5| ≤ floatMax
  satAmt_mul : |(m.powf (c.mojo * 0.01) 1.2 * 100 + 5) * 0.06666666| ≤ floatMax
  hyst_nonneg : 0 ≤ c.hysteresis * 0.1
  hyst_arg : |c.hysteresis * 0.1| ≤ floatMax
  hyst_pow : |m.powf (c.hysteresis * 0.1) 2| ≤ floatMax
  hystAmt : |m.powf (c.hysteresis * 0.1) 2 * 300| ≤ floatMax
  hys0_mul : |m.powf (c.hysteresis * 0.1) 2 * 300 * 0.08| ≤ floatMax
  hys1_mul : |m.powf (c.hysteresis * 0.1) 2 * 300 * 0.01| ≤ floatMax
  tone : |c.tone| ≤ floatMax
  bias_nonneg : 0 ≤ c.bias
  bias_arg : |c.bias| ≤ floatMax
  bias_pow : |m.powf c.bias 3| ≤ floatMax
  bias_mul : |m.powf c.bias 3 * 0.6| ≤ floatMax

/-- The `float` evaluation of `atanApprox` at the finite argument `x` stays
finite: it returns the value of the rational function. -/
def AtanFinite (x : K) : Prop := Ieee.atanApprox (.fin x) = .fin (atanApprox x)

/-- The loop body up to the first signal highpass (lines 90-149): the state and
`(spl0, spl1, driveVal)` entering the first recombination. -/
def processSamplePre (m : Libm K) (s : RubidiumDistortion K) (f : Frame K) :
    RubidiumDistortion K × K × K × K :=
  let s := updateCoefficients m f.controls s
  let sat := saturation m f.controls s f.in0 f.in1
  let s := deltaHysteresis s sat.1 sat.2.1
  let low := lowLevelHysteresis s
  let s := hysteresisRectify m low.1 low.2.1 low.2.2
  let s := deltaLowpass s
  let hp := signalHighpass s sat.1 sat.2.1
  (hp.1, hp.2.1, hp.2.2, sat.2.2)

/-- Lines 155-201 of the loop body: the state and `(spl0, spl1)` entering the
second recombination. -/
def processSampleSecond (s : RubidiumDistortion K) (spl0 spl1 : K) :
    RubidiumDistortion K × K × K :=
  let ap := nestedAllpass s spl0 spl1
  let hp2 := signalHighpassSecond ap.1 ap.2.1 ap.2.2
  (deltaLowpassSecond hp2.1, hp2.2.1, hp2.2.2)

/-- No floating-point exception occurs in lines 155-214 of the loop body run
from the state `s` with the finite values `spl0`, `spl1`, `driveVal`: the two
`float` evaluations of `atanApprox` in the second recombination stay finite,
the divisors of the output stage are not zero and the two output samples are
in the range of `float`. -/
structure BackFinite (s : RubidiumDistortion K) (spl0 spl1 driveVal : K) : Prop where
  second0 : AtanFinite
    ((processSampleSecond s spl0 spl1).2.1 * (processSampleSecond s spl0 spl1).1.delta0)
  second1 : AtanFinite
    ((processSampleSecond s spl0 spl1).2.2 * (processSampleSecond s spl0 spl1).1.delta1)
  div0 : (processSampleSecond s spl0 spl1).1.adj3 * (driveVal * 0.1 + 1.0) ≠ 0
  div1 : (processSampleSecond s spl0 spl1).1.adj4 * (driveVal * 0.1 + 1.0) ≠ 0
  out0 : |(processSampleBack s spl0 spl1 driveVal).2.1| ≤ floatMax
  out1 : |(processSampleBack s spl0 spl1 driveVal).2.2| ≤ floatMax

/-- No floating-point exception occurs in the sample computed from the state
`s` with the frame `f`: the `float` computations of the coefficients stay in
range, the `float` evaluations of `atanApprox` in the first recombination stay
finite, and so does the rest of the loop body (`BackFinite`). -/
structure NoOverflow (m : Libm K) (s : RubidiumDistortion K) (f : Frame K) : Prop where
  coeff : CoeffFinite m f.controls
  first0 : AtanFinite ((processSamplePre m s f).2.1 * (processSamplePre m s f).1.delta0)
  first1 : AtanFinite ((processSamplePre m s f).2.2.1 * (processSamplePre m s f).1.delta1)
  back : BackFinite (processSampleFront m s f).1 (processSampleFront m s f).2.1
    (processSampleFront m s f).2.2.1 (processSampleFront m s f).2.2.2

/-- No floating-point exception occurs in any sample of the block `fs`
processed from the state `s`. -/
def NoOverflowBlock (m : Libm K) (s : RubidiumDistortion K) : List (Frame K) → Prop
  | [] => True
  | f :: fs => NoOverflow m s f ∧ NoOverflowBlock m (processSample m s f).1 fs

/-- In-range control values that lead to the overflow: drive 100, asym
(`hysteresis`) 0, mojo 100, bias 0 and the tone for which `cut0` is `1/2` at
44100 Hz, `22050 / twoPi - 0.02` (about 3509.35 Hz). -/
def overflowControls (m : Libm K) : Controls K :=
  ⟨100, 0, 22050 / m.twoPi - 0.02, 100, 0⟩

/-- Frame `k` of the run that leads to the overflow: the controls
`overflowControls`, the left input sample `1` in frames 0 to 40 and `-1` from
frame 41 on, the right input sample `0`. -/
def overflowFrame (m : Libm K) (k : Nat) : Frame K :=
  ⟨overflowControls m, if k < 41 then 1 else -1, 0⟩

/-- The left-channel filter states after `n` samples of constant saturation
output `A` with `cut0 = 1/2` and no hysteresis, in closed form, with the
right-channel states at zero and the members the loop never writes at their
initial values. -/
structure RunState (A : K) (n : Nat) (s : RubidiumDistortion K) : Prop where
  rand0_eq : s.rand0 = 0.02
  dt_eq : s.dt = 1 / 44100
  shape_eq : s.shape = 4
  k0_eq : s.ap1_k0 = -0.9
  k1_eq : s.ap1_k1 = -0.9
  h0_eq : s.h0 = A * (1 - (1 / 2) ^ n)
  y0_eq : s.ap1_y0 = 1.9 * A * (1 - 0.9 ^ n)
  l0_eq : s.l0 = A * (1 - 2.375 * 0.9 ^ n + 1.375 * (1 / 2) ^ n)
  h1_eq : s.h1 = 0
  y1_eq : s.ap1_y1 = 0
  l1_eq : s.l1 = 0

/-- The recombination as the specification words it (§4.6), on floating
values: `atanApprox(x * delta) / denom` with `denom = 1` if `x == 0`, else
`1e-14` if `delta == 0`, else `delta`, where `atanApprox(v)` is
`tanhApprox(v) + v * 0.08` computed in `float`. -/
def Ieee.recombineSpec (x delta : Fp K) : Fp K :=
  Fp.toFloat (Ieee.FastMathApproximations.tanh (Fp.toFloat (x * delta)) +
      Fp.toFloat (Fp.toFloat (x * delta) * .fin 0.08)) /
    (if Fp.eq x (.fin 0) then .fin 1 else if Fp.eq delta (.fin 0) then .fin 1e-14 else delta)

end Embedding

end Rubidium

namespace Rubidium

section BlockSplitting

variable {K : Type} [LinearOrderedField K]

theorem processBlock_append (m : Libm K) (s : RubidiumDistortion K) (fs gs : List (Frame K)) :
    processBlock m s (fs ++ gs) =
      ((processBlock m (processBlock m s fs).1 gs).1,
       (processBlock m s fs).2 ++ (processBlock m (processBlock m s fs).1 gs).2) := by
  induction fs generalizing s with
  | nil => simp [processBlock]
  | cons f fs ih => simp [processBlock, ih]

theorem processBlockConst_append (m : Libm K) (c : Controls K) (s : RubidiumDistortion K)
    (xs ys : List (K × K)) :
    processBlockConst m c s (xs ++ ys) =
      ((processBlockConst m c (processBlockConst m c s xs).1 ys).1,
       (processBlockConst m c s xs).2 ++
         (processBlockConst m c (processBlockConst m c s xs).1 ys).2) := by
  simp [processBlockConst, processBlock_append]

theorem processBlocksConst_singletons (m : Libm K) (c : Controls K)
    (s : RubidiumDistortion K) (xs : List (K × K)) :
    processBlocksConst m c s (xs.map fun x => [x]) = processBlockConst m c s xs := by
  induction xs generalizing s with
  | nil => simp [processBlocksConst, processBlockConst, processBlock]
  | cons x xs ih =>
    have h := ih (processSample m s ⟨c, x.1, x.2⟩).1
    simp only [processBlockConst] at h
    simp [processBlocksConst, processBlockConst, processBlock, h]

/-- C3: with the control values held constant, processing `xs ++ ys` as one
block from any state gives the same final state and the same output samples as
processing `xs` and then `ys` from the state `xs` left; in particular one call
on `xs` equals one call per sample. -/
theorem processBlock_split_blocks (m : Libm K) (c : Controls K) (s : RubidiumDistortion K)
    (xs ys : List (K × K)) :
    processBlockConst m c s (xs ++ ys) =
        ((processBlockConst m c (processBlockConst m c s xs).1 ys).1,
         (processBlockConst m c s xs).2 ++
           (processBlockConst m c (processBlockConst m c s xs).1 ys).2) ∧
      processBlocksConst m c s (xs.map fun x => [x]) = processBlockConst m c s xs :=
  ⟨processBlockConst_append m c s xs ys, processBlocksConst_singletons m c s xs⟩

end BlockSplitting

section Prepare

variable {K : Type} [LinearOrderedField K]

theorem bufLengths_eleven : bufLengths (11 : K) = (882, 42) := by
  have h1 : ¬ ((11 : K) = 6) := by norm_num
  have h2 : max ((11 : K) * 2 - 1) 0 = 21 := by
    rw [max_eq_left] <;> norm_num
  have h3 : max ((21 : K) * 21 * 2) 1 = 882 := by
    rw [max_eq_left] <;> norm_num
  have h4 : ¬ ((21 : K) * 2 = 2) := by norm_num
  simp only [bufLengths, h1, h2, h3, h4, if_false]
  norm_num

theorem prepare_buf_length0_eq (m : Libm K) (spec : ProcessSpec K) (c : Controls K)
    (s : RubidiumDistortion K) : (prepare m spec c s).buf_length0 = 882 := by
  simp [prepare, prepareWith, bufLengths_eleven]

theorem prepare_buf_length1_eq (m : Libm K) (spec : ProcessSpec K) (c : Controls K)
    (s : RubidiumDistortion K) : (prepare m spec c s).buf_length1 = 42 := by
  simp [prepare, prepareWith, bufLengths_eleven]

/-- C9 (as the code has it): after `prepare` returns, the lengths used by the
per-sample wrap tests are `buf_length0 = 882` and `buf_length1 = 42`
(the 21 computed from the step ratio 11 is doubled before `prepare` returns). -/
theorem prepare_buf_lengths (m : Libm K) (spec : ProcessSpec K) (c : Controls K)
    (s : RubidiumDistortion K) :
    (prepare m spec c s).buf_length0 = 882 ∧ (prepare m spec c s).buf_length1 = 42 :=
  ⟨prepare_buf_length0_eq m spec c s, prepare_buf_length1_eq m spec c s⟩

/-- C9, refuted as stated: at sample rate 44100 and block size 128, from the
constructed state, `prepare` does not leave `buf_length1 = 21`. -/
theorem prepare_buf_length1_ne_21 :
    ¬ ((prepare Libm.rational ⟨44100, 128⟩ ⟨0, 0, 0, 0, 0⟩
          (RubidiumDistortion.construct RubidiumDistortion.allZero)).buf_length1 = 21 ∧
       (prepare Libm.rational ⟨44100, 128⟩ ⟨0, 0, 0, 0, 0⟩
          (RubidiumDistortion.construct RubidiumDistortion.allZero)).buf_length0 = 882) := by
  rw [prepare_buf_length1_eq]
  norm_num

end Prepare

end Rubidium

namespace Rubidium

section Recombination

variable {K : Type} [LinearOrderedField K]

theorem tanh_zero : FastMathApproximations.tanh (0 : K) = 0 := by
  simp [FastMathApproximations.tanh]

theorem atanApprox_zero : atanApprox (0 : K) = 0 := by
  simp [atanApprox, tanh_zero]

/-- The `atanApprox` of the code is the specification's
`tanhApprox(v) + 0.08 * v` with the rational `tanhApprox`. -/
theorem atanApprox_eq_spec (v : K) : atanApprox v = atanApproxSpec v := by
  simp only [atanApprox, atanApproxSpec, FastMathApproximations.tanh, tanhApproxSpec]
  ring

theorem recombineSpec_first (x delta : K) :
    atanApprox (x * delta) /
        (if x = 0 then 1 else (if delta = 0 then 0.00000000000001 else delta)) =
      recombineSpec x delta := by
  unfold recombineSpec
  rw [atanApprox_eq_spec]

theorem recombineSpec_second (x delta : K) :
    atanApprox (x * delta) /
        (if x = 0 then 1 else (if delta = 0 then 0.0000000000001 else delta)) =
      recombineSpec x delta := by
  unfold recombineSpec
  rw [← atanApprox_eq_spec]
  by_cases hx : x = 0
  · simp [hx]
  · by_cases hd : delta = 0
    · simp [hx, hd, atanApprox_zero]
    · simp [hx, hd]

end Recombination

end Rubidium

namespace Rubidium

section Fader

theorem updateCoefficients_adj4_eq {K : Type} [LinearOrderedField K] (m : Libm K)
    (c : Controls K) (s : RubidiumDistortion K) :
    (updateCoefficients m c s).adj4 = (updateCoefficients m c s).adj3 := rfl

theorem updateCoefficients_adj3_pos (m : Libm ℝ) (hexp : ∀ x, m.exp x = Real.exp x)
    (c : Controls ℝ) (s : RubidiumDistortion ℝ) : 0 < (updateCoefficients m c s).adj3 := by
  simp only [updateCoefficients]
  split_ifs
  · norm_num
  · rw [hexp]
    have := Real.exp_pos (s.shape * m.log10 (0.125 + (m.powf (c.mojo * 0.01) 1.2 * 100 + 5) * 0.06666666))
    linarith

/-- C10: whatever `gain` the routines produce (the `gain <= 0` branch included),
`updateCoefficients` leaves `adj3 = adj4 > 0`, and for every drive gain
`driveVal >= 0` the divisors `adj3 * (driveVal * 0.1 + 1)` and
`adj4 * (driveVal * 0.1 + 1)` of the output stage are strictly positive. -/
theorem fader_terms_positive (m : Libm ℝ) (hexp : ∀ x, m.exp x = Real.exp x)
    (c : Controls ℝ) (s : RubidiumDistortion ℝ) :
    (updateCoefficients m c s).adj3 = (updateCoefficients m c s).adj4 ∧
      0 < (updateCoefficients m c s).adj3 ∧
      ∀ driveVal : ℝ, 0 ≤ driveVal →
        0 < (updateCoefficients m c s).adj3 * (driveVal * 0.1 + 1.0) ∧
        0 < (updateCoefficients m c s).adj4 * (driveVal * 0.1 + 1.0) := by
  have hpos := updateCoefficients_adj3_pos m hexp c s
  refine ⟨(updateCoefficients_adj4_eq m c s).symm, hpos, ?_⟩
  intro driveVal hd
  rw [updateCoefficients_adj4_eq]
  have hc : (0 : ℝ) < driveVal * 0.1 + 1.0 := by norm_num; nlinarith
  exact ⟨mul_pos hpos hc, mul_pos hpos hc⟩

end Fader

end Rubidium

namespace Rubidium

section Saturation

/-- C10, at the real-valued routines with every control and member zero. -/
theorem fader_terms_positive_witness :
    (∀ x, (Libm.mk Real.rpow Real.exp (fun x => Real.log x / Real.log 10) Real.arctan
        Real.sqrt (2 * Real.pi)
        (fun dB => if dB > -100 then Real.rpow 10 (dB * 0.05) else 0)).exp x = Real.exp x) ∧
    ((updateCoefficients (Libm.mk Real.rpow Real.exp (fun x => Real.log x / Real.log 10)
        Real.arctan Real.sqrt (2 * Real.pi)
        (fun dB => if dB > -100 then Real.rpow 10 (dB * 0.05) else 0))
        ⟨0, 0, 0, 0, 0⟩ RubidiumDistortion.allZero).adj3 =
      (updateCoefficients (Libm.mk Real.rpow Real.exp (fun x => Real.log x / Real.log 10)
        Real.arctan Real.sqrt (2 * Real.pi)
        (fun dB => if dB > -100 then Real.rpow 10 (dB * 0.05) else 0))
        ⟨0, 0, 0, 0, 0⟩ RubidiumDistortion.allZero).adj4) :=
  ⟨fun _ => rfl, (fader_terms_positive _ (fun _ => rfl) ⟨0, 0, 0, 0, 0⟩
    RubidiumDistortion.allZero).1⟩

theorem abs_arctan_mul_lt (x a : ℝ) (ha : 0 < a) : |Real.arctan x * a| < a * (Real.pi / 2) := by
  have h1 := Real.arctan_lt_pi_div_two x
  have h2 := Real.neg_pi_div_two_lt_arctan x
  rw [abs_mul, abs_of_pos ha, mul_comm]
  exact mul_lt_mul_of_pos_left (abs_lt.mpr ⟨h2, h1⟩) ha

theorem saturation_abs_lt (m : Libm ℝ) (hm : m.IsReal) (c : Controls ℝ)
    (s : RubidiumDistortion ℝ) (in0 in1 : ℝ) :
    |(saturation m c (updateCoefficients m c s) in0 in1).1| <
        (updateCoefficients m c s).adj3 * (Real.pi / 2) ∧
      |(saturation m c (updateCoefficients m c s) in0 in1).2.1| <
        (updateCoefficients m c s).adj4 * (Real.pi / 2) := by
  have hpos := updateCoefficients_adj3_pos m hm.exp_eq c s
  have hpos4 : 0 < (updateCoefficients m c s).adj4 := by
    rw [updateCoefficients_adj4_eq]; exact hpos
  simp only [saturation, hm.atan_eq]
  exact ⟨abs_arctan_mul_lt _ _ hpos, abs_arctan_mul_lt _ _ hpos4⟩

/-- C8: for every input sample, every bias knob value and every drive value, the
saturation stage output `adj3 * arctan((x - bias) * 1.1 * driveVal)` of channel 0
has magnitude strictly below `adj3 * pi / 2`, and that of channel 1 strictly
below `adj4 * pi / 2`, with `adj3`, `adj4` as `updateCoefficients` set them
for the sample. -/
theorem saturation_bounded (m : Libm ℝ) (hm : m.IsReal) (c : Controls ℝ)
    (s : RubidiumDistortion ℝ) (in0 in1 : ℝ) :
    |(saturation m c (updateCoefficients m c s) in0 in1).1| <
        (updateCoefficients m c s).adj3 * (Real.pi / 2) ∧
      |(saturation m c (updateCoefficients m c s) in0 in1).2.1| <
        (updateCoefficients m c s).adj4 * (Real.pi / 2) :=
  saturation_abs_lt m hm c s in0 in1

end Saturation

end Rubidium

namespace Rubidium

section DelayLine

variable {K : Type} [LinearOrderedField K]

theorem wrap_eq_emod (pos : Int) (L : Nat) (len : K) (hlen : len = (L : K))
    (h0 : 0 ≤ pos) (h1 : pos ≤ (L : Int)) :
    (if ((pos + 1 : Int) : K) > len then (0 : Int) else pos + 1) =
      (pos + 1) % ((L : Int) + 1) := by
  have hcast : len = (((L : Int)) : K) := by rw [hlen]; simp
  have hiff : ((pos + 1 : Int) : K) > len ↔ (L : Int) < pos + 1 := by
    rw [hcast, gt_iff_lt, Int.cast_lt]
  by_cases h : (L : Int) < pos + 1
  · have : pos + 1 = (L : Int) + 1 := by omega
    rw [if_pos (hiff.mpr h), this, Int.emod_self]
  · rw [if_neg (fun hk => h (hiff.mp hk)), Int.emod_eq_of_lt (by omega) (by omega)]

/-- C6: in a state with `cDenorm = 1e-30`, integer lengths `buf_length0 = L0`,
`buf_length1 = L1` and positions with `0 <= pos <= length`, one per-sample step
runs the specification's recurrence on each of the six regions in turn:
regions 0 and 1 (inputs `ap1_y`, `ap1_z`, length `L0`) in the low level
hysteresis, regions 2 to 5 (inputs `spl0`, `spl1`, `delta0`, `delta1`, length
`L1`) in the nested allpass; each region reads `stored = buffer[base + pos]`,
writes `v_n` there, outputs `v_n * g + stored` and leaves
`pos = (pos + 1) mod (length + 1)`. -/
theorem delay_regions_follow_spec (s : RubidiumDistortion K) (L0 L1 : Nat) (spl0 spl1 : K)
    (hc : s.cDenorm = 1e-30) (hL0 : s.buf_length0 = (L0 : K)) (hL1 : s.buf_length1 = (L1 : K))
    (h0 : 0 ≤ s.pos0 ∧ s.pos0 ≤ (L0 : Int)) (h1 : 0 ≤ s.pos1 ∧ s.pos1 ≤ (L0 : Int))
    (h2 : 0 ≤ s.pos2 ∧ s.pos2 ≤ (L1 : Int)) (h3 : 0 ≤ s.pos3 ∧ s.pos3 ≤ (L1 : Int))
    (h4 : 0 ≤ s.pos4 ∧ s.pos4 ≤ (L1 : Int)) (h5 : 0 ≤ s.pos5 ∧ s.pos5 ≤ (L1 : Int)) :
    (let r0 := delayLineSpec s.g s.v_n_buf0 L0 s.dataBuffer s.pos0 s.ap1_y
     let r1 := delayLineSpec s.g s.v_n_buf1 L0 r0.1 s.pos1 s.ap1_z
     lowLevelHysteresis s =
       ({ s with dataBuffer := r1.1, pos0 := r0.2.1, pos1 := r1.2.1 }, r0.2.2, r1.2.2)) ∧
    (let r2 := delayLineSpec s.g s.v_n_buf2 L1 s.dataBuffer s.pos2 spl0
     let r3 := delayLineSpec s.g s.v_n_buf3 L1 r2.1 s.pos3 spl1
     let r4 := delayLineSpec s.g s.v_n_buf4 L1 r3.1 s.pos4 s.delta0
     let r5 := delayLineSpec s.g s.v_n_buf5 L1 r4.1 s.pos5 s.delta1
     nestedAllpass s spl0 spl1 =
       ({ s with
           dataBuffer := r5.1, pos2 := r2.2.1, pos3 := r3.2.1, pos4 := r4.2.1, pos5 := r5.2.1
           delta0 := r4.2.2, delta1 := r5.2.2 }, r2.2.2, r3.2.2)) := by
  constructor
  · simp only [lowLevelHysteresis, delayLineSpec, hc,
      wrap_eq_emod s.pos0 L0 s.buf_length0 hL0 h0.1 h0.2,
      wrap_eq_emod s.pos1 L0 s.buf_length0 hL0 h1.1 h1.2]
  · simp only [nestedAllpass, delayLineSpec, hc,
      wrap_eq_emod s.pos2 L1 s.buf_length1 hL1 h2.1 h2.2,
      wrap_eq_emod s.pos3 L1 s.buf_length1 hL1 h3.1 h3.2,
      wrap_eq_emod s.pos4 L1 s.buf_length1 hL1 h4.1 h4.2,
      wrap_eq_emod s.pos5 L1 s.buf_length1 hL1 h5.1 h5.2]

end DelayLine

end Rubidium

namespace Rubidium

section Wraparound

variable {K : Type} [LinearOrderedField K]

theorem processSample_pos0 (m : Libm K) (s : RubidiumDistortion K) (f : Frame K) :
    (processSample m s f).1.pos0 =
      if ((s.pos0 + 1 : Int) : K) > s.buf_length0 then 0 else s.pos0 + 1 := rfl

theorem processSample_pos1 (m : Libm K) (s : RubidiumDistortion K) (f : Frame K) :
    (processSample m s f).1.pos1 =
      if ((s.pos1 + 1 : Int) : K) > s.buf_length0 then 0 else s.pos1 + 1 := rfl

theorem processSample_pos2 (m : Libm K) (s : RubidiumDistortion K) (f : Frame K) :
    (processSample m s f).1.pos2 =
      if ((s.pos2 + 1 : Int) : K) > s.buf_length1 then 0 else s.pos2 + 1 := rfl

theorem processSample_pos3 (m : Libm K) (s : RubidiumDistortion K) (f : Frame K) :
    (processSample m s f).1.pos3 =
      if ((s.pos3 + 1 : Int) : K) > s.buf_length1 then 0 else s.pos3 + 1 := rfl

theorem processSample_pos4 (m : Libm K) (s : RubidiumDistortion K) (f : Frame K) :
    (processSample m s f).1.pos4 =
      if ((s.pos4 + 1 : Int) : K) > s.buf_length1 then 0 else s.pos4 + 1 := rfl

theorem processSample_pos5 (m : Libm K) (s : RubidiumDistortion K) (f : Frame K) :
    (processSample m s f).1.pos5 =
      if ((s.pos5 + 1 : Int) : K) > s.buf_length1 then 0 else s.pos5 + 1 := rfl

theorem processSample_buf_length0 (m : Libm K) (s : RubidiumDistortion K) (f : Frame K) :
    (processSample m s f).1.buf_length0 = s.buf_length0 := rfl

theorem processSample_buf_length1 (m : Libm K) (s : RubidiumDistortion K) (f : Frame K) :
    (processSample m s f).1.buf_length1 = s.buf_length1 := rfl

/-- The wrap test keeps a position within `[0, len]`. -/
theorem wrap_in_range (pos : Int) (len : K) (h : 0 ≤ pos ∧ (pos : K) ≤ len) :
    0 ≤ (if ((pos + 1 : Int) : K) > len then (0 : Int) else pos + 1) ∧
      (((if ((pos + 1 : Int) : K) > len then (0 : Int) else pos + 1 : Int)) : K) ≤ len := by
  have hlen : (0 : K) ≤ len := le_trans (by exact_mod_cast h.1) h.2
  by_cases hk : ((pos + 1 : Int) : K) > len
  · rw [if_pos hk]
    exact ⟨le_refl 0, by simpa using hlen⟩
  · rw [if_neg hk]
    exact ⟨by omega, not_lt.mp hk⟩

theorem processSample_positionsInRange (m : Libm K) (s : RubidiumDistortion K) (f : Frame K)
    (h : positionsInRange s) : positionsInRange (processSample m s f).1 := by
  obtain ⟨h0, h1, h2, h3, h4, h5⟩ := h
  unfold positionsInRange
  rw [processSample_pos0, processSample_pos1, processSample_pos2, processSample_pos3,
    processSample_pos4, processSample_pos5, processSample_buf_length0,
    processSample_buf_length1]
  exact ⟨wrap_in_range _ _ h0, wrap_in_range _ _ h1, wrap_in_range _ _ h2,
    wrap_in_range _ _ h3, wrap_in_range _ _ h4, wrap_in_range _ _ h5⟩

theorem processBlock_positionsInRange (m : Libm K) (s : RubidiumDistortion K)
    (fs : List (Frame K)) (h : positionsInRange s) :
    positionsInRange (processBlock m s fs).1 := by
  induction fs generalizing s with
  | nil => exact h
  | cons f fs ih => exact ih _ (processSample_positionsInRange m s f h)

theorem processBlock_buf_lengths (m : Libm K) (s : RubidiumDistortion K)
    (fs : List (Frame K)) :
    (processBlock m s fs).1.buf_length0 = s.buf_length0 ∧
      (processBlock m s fs).1.buf_length1 = s.buf_length1 := by
  induction fs generalizing s with
  | nil => exact ⟨rfl, rfl⟩
  | cons f fs ih =>
    have h := ih (processSample m s f).1
    rw [processSample_buf_length0, processSample_buf_length1] at h
    exact h

theorem bufLengths_nonneg (stepRatio : K) :
    0 ≤ (bufLengths stepRatio).1 ∧ 0 ≤ (bufLengths stepRatio).2 := by
  simp only [bufLengths]
  constructor
  · split_ifs
    all_goals first
      | exact le_trans zero_le_one (le_max_right _ _)
      | norm_num
  · split_ifs
    · norm_num
    · exact mul_nonneg (le_max_right _ _) (by norm_num)

/-- C2: for the delay lengths `prepare`'s rules give for any step ratio, starting
from positions 0, after any number of processed samples (any inputs, any
control values) the positions satisfy `0 <= pos0, pos1 <= buf_length0` and
`0 <= pos2, pos3, pos4, pos5 <= buf_length1`; the lengths are still those of
the step ratio. The state after `n` samples is the one the arena reads and writes
of sample `n + 1` index with. -/
theorem positions_within_lengths (stepRatio : K) (m : Libm K) (s : RubidiumDistortion K)
    (fs : List (Frame K))
    (hlen : s.buf_length0 = (bufLengths stepRatio).1 ∧ s.buf_length1 = (bufLengths stepRatio).2)
    (hpos : s.pos0 = 0 ∧ s.pos1 = 0 ∧ s.pos2 = 0 ∧ s.pos3 = 0 ∧ s.pos4 = 0 ∧ s.pos5 = 0) :
    positionsInRange (processBlock m s fs).1 ∧
      (processBlock m s fs).1.buf_length0 = (bufLengths stepRatio).1 ∧
      (processBlock m s fs).1.buf_length1 = (bufLengths stepRatio).2 := by
  obtain ⟨hp0, hp1, hp2, hp3, hp4, hp5⟩ := hpos
  have hn := bufLengths_nonneg stepRatio
  have hinit : positionsInRange s := by
    unfold positionsInRange
    rw [hp0, hp1, hp2, hp3, hp4, hp5, hlen.1, hlen.2]
    simp [hn.1, hn.2]
  refine ⟨processBlock_positionsInRange m s fs hinit, ?_, ?_⟩
  · rw [(processBlock_buf_lengths m s fs).1, hlen.1]
  · rw [(processBlock_buf_lengths m s fs).2, hlen.2]

end Wraparound

end Rubidium

namespace Rubidium

section PrepareState

variable {K : Type} [LinearOrderedField K]

/-- C2, at the prepared instance over `ℚ` (step ratio 11) and one frame. -/
theorem positions_within_lengths_witness :
    (preparedRat.buf_length0 = (bufLengths (11 : ℚ)).1 ∧
      preparedRat.buf_length1 = (bufLengths (11 : ℚ)).2) ∧
    (preparedRat.pos0 = 0 ∧ preparedRat.pos1 = 0 ∧ preparedRat.pos2 = 0 ∧
      preparedRat.pos3 = 0 ∧ preparedRat.pos4 = 0 ∧ preparedRat.pos5 = 0) ∧
    positionsInRange (processBlock Libm.rational preparedRat [frameRat]).1 :=
  ⟨⟨rfl, rfl⟩, ⟨rfl, rfl, rfl, rfl, rfl, rfl⟩,
    (positions_within_lengths 11 Libm.rational preparedRat [frameRat] ⟨rfl, rfl⟩
      ⟨rfl, rfl, rfl, rfl, rfl, rfl⟩).1⟩

theorem preparedRat_cDenorm : preparedRat.cDenorm = 1e-30 := rfl

theorem preparedRat_buf_length0 : preparedRat.buf_length0 = ((882 : Nat) : ℚ) := by
  rw [preparedRat, prepare_buf_length0_eq]; norm_num

theorem preparedRat_buf_length1 : preparedRat.buf_length1 = ((42 : Nat) : ℚ) := by
  rw [preparedRat, prepare_buf_length1_eq]; norm_num

/-- C6, at the prepared instance over `ℚ` (lengths 882 and 42, positions 0):
the low level hysteresis step is the specification's recurrence on regions 0
and 1. -/
theorem delay_regions_follow_spec_witness :
    (preparedRat.cDenorm = 1e-30 ∧ preparedRat.buf_length0 = ((882 : Nat) : ℚ) ∧
      preparedRat.buf_length1 = ((42 : Nat) : ℚ)) ∧
    (lowLevelHysteresis preparedRat =
       ({ preparedRat with
           dataBuffer := (delayLineSpec preparedRat.g preparedRat.v_n_buf1 882
             (delayLineSpec preparedRat.g preparedRat.v_n_buf0 882 preparedRat.dataBuffer
               preparedRat.pos0 preparedRat.ap1_y).1 preparedRat.pos1 preparedRat.ap1_z).1
           pos0 := (delayLineSpec preparedRat.g preparedRat.v_n_buf0 882 preparedRat.dataBuffer
               preparedRat.pos0 preparedRat.ap1_y).2.1
           pos1 := (delayLineSpec preparedRat.g preparedRat.v_n_buf1 882
             (delayLineSpec preparedRat.g preparedRat.v_n_buf0 882 preparedRat.dataBuffer
               preparedRat.pos0 preparedRat.ap1_y).1 preparedRat.pos1 preparedRat.ap1_z).2.1 },
        (delayLineSpec preparedRat.g preparedRat.v_n_buf0 882 preparedRat.dataBuffer
               preparedRat.pos0 preparedRat.ap1_y).2.2,
        (delayLineSpec preparedRat.g preparedRat.v_n_buf1 882
             (delayLineSpec preparedRat.g preparedRat.v_n_buf0 882 preparedRat.dataBuffer
               preparedRat.pos0 preparedRat.ap1_y).1 preparedRat.pos1 preparedRat.ap1_z).2.2)) :=
  ⟨⟨preparedRat_cDenorm, preparedRat_buf_length0, preparedRat_buf_length1⟩,
    (delay_regions_follow_spec preparedRat 882 42 1 1 preparedRat_cDenorm
      preparedRat_buf_length0 preparedRat_buf_length1
      ⟨le_refl 0, by decide⟩ ⟨le_refl 0, by decide⟩ ⟨le_refl 0, by decide⟩
      ⟨le_refl 0, by decide⟩ ⟨le_refl 0, by decide⟩ ⟨le_refl 0, by decide⟩).1⟩

/-- The real-valued routines form a real math library. -/
theorem isReal_mk :
    (Libm.mk Real.rpow Real.exp (fun x => Real.log x / Real.log 10) Real.arctan
      Real.sqrt (2 * Real.pi)
      (fun dB => if dB > -100 then Real.rpow 10 (dB * 0.05) else 0)).IsReal :=
  ⟨fun _ _ => rfl, fun _ => rfl, fun _ => rfl, fun _ => rfl, fun _ => rfl, rfl, fun _ => rfl⟩

/-- C8, at the real-valued routines, all controls 0, input sample 1 on channel 0. -/
theorem saturation_bounded_witness :
    (Libm.mk Real.rpow Real.exp (fun x => Real.log x / Real.log 10) Real.arctan
      Real.sqrt (2 * Real.pi)
      (fun dB => if dB > -100 then Real.rpow 10 (dB * 0.05) else 0)).IsReal ∧
    |(saturation (Libm.mk Real.rpow Real.exp (fun x => Real.log x / Real.log 10) Real.arctan
        Real.sqrt (2 * Real.pi)
        (fun dB => if dB > -100 then Real.rpow 10 (dB * 0.05) else 0)) ⟨0, 0, 0, 0, 0⟩
      (updateCoefficients (Libm.mk Real.rpow Real.exp (fun x => Real.log x / Real.log 10)
        Real.arctan Real.sqrt (2 * Real.pi)
        (fun dB => if dB > -100 then Real.rpow 10 (dB * 0.05) else 0)) ⟨0, 0, 0, 0, 0⟩
        RubidiumDistortion.allZero) 1 1).1| <
      (updateCoefficients (Libm.mk Real.rpow Real.exp (fun x => Real.log x / Real.log 10)
        Real.arctan Real.sqrt (2 * Real.pi)
        (fun dB => if dB > -100 then Real.rpow 10 (dB * 0.05) else 0)) ⟨0, 0, 0, 0, 0⟩
        RubidiumDistortion.allZero).adj3 * (Real.pi / 2) :=
  ⟨isReal_mk, (saturation_bounded _ isReal_mk ⟨0, 0, 0, 0, 0⟩ RubidiumDistortion.allZero 1 1).1⟩

end PrepareState

end Rubidium

namespace Rubidium

section PrepareZero

variable {K : Type} [LinearOrderedField K]

theorem zeroFill_succ (n : Nat) (b : AudioBuffer K) :
    zeroFill (n + 1) b = (zeroFill n b).setSample (n : Int) 0 := by
  simp [zeroFill, List.range_succ, List.foldl_append]

theorem zeroFill_numSamples (n : Nat) (b : AudioBuffer K) :
    (zeroFill n b).numSamples = b.numSamples := by
  induction n with
  | zero => rfl
  | succ n ih => rw [zeroFill_succ]; exact ih

theorem zeroFill_getSample (n : Nat) (b : AudioBuffer K) (i : Int) (h0 : 0 ≤ i)
    (hn : i < (n : Int)) : (zeroFill n b).getSample i = 0 := by
  induction n with
  | zero => omega
  | succ n ih =>
    rw [zeroFill_succ]
    by_cases h : i = (n : Int)
    · simp [AudioBuffer.getSample, AudioBuffer.setSample, h]
    · have hlt : i < (n : Int) := by push_cast at hn; omega
      have := ih hlt
      simp only [AudioBuffer.getSample, AudioBuffer.setSample] at this ⊢
      rw [Function.update_noteq h]
      exact this

theorem prepare_dataBuffer (m : Libm K) (spec : ProcessSpec K) (c : Controls K)
    (s : RubidiumDistortion K) :
    (prepare m spec c s).dataBuffer = zeroFill 70000 (s.dataBuffer.setSize 70000) := by
  simp only [prepare, prepareWith, updateCoefficients]

theorem prepare_pos0 (m : Libm K) (spec : ProcessSpec K) (c : Controls K)
    (s : RubidiumDistortion K) : (prepare m spec c s).pos0 = s.pos0 := by
  simp only [prepare, prepareWith, updateCoefficients]

/-- C4 (as the code has it): for every instance state, after `prepare` the
arena has 70000 slots and every one of them is zero; on a freshly constructed
instance the highpass states `h0..h3`, lowpass states `l0..l3`, allpass states
`ap1_y0`/`ap1_y1` and positions `pos0..pos5` are zero after `prepare` as well. -/
theorem prepare_zero_state (m : Libm K) (spec : ProcessSpec K) (c : Controls K)
    (s : RubidiumDistortion K) :
    ((prepare m spec c s).dataBuffer.numSamples = 70000 ∧
      ∀ i : Int, 0 ≤ i → i < 70000 → (prepare m spec c s).dataBuffer.getSample i = 0) ∧
    ((prepare m spec c s.construct).h0 = 0 ∧ (prepare m spec c s.construct).h1 = 0 ∧
      (prepare m spec c s.construct).h2 = 0 ∧ (prepare m spec c s.construct).h3 = 0 ∧
      (prepare m spec c s.construct).l0 = 0 ∧ (prepare m spec c s.construct).l1 = 0 ∧
      (prepare m spec c s.construct).l2 = 0 ∧ (prepare m spec c s.construct).l3 = 0 ∧
      (prepare m spec c s.construct).ap1_y0 = 0 ∧ (prepare m spec c s.construct).ap1_y1 = 0 ∧
      (prepare m spec c s.construct).pos0 = 0 ∧ (prepare m spec c s.construct).pos1 = 0 ∧
      (prepare m spec c s.construct).pos2 = 0 ∧ (prepare m spec c s.construct).pos3 = 0 ∧
      (prepare m spec c s.construct).pos4 = 0 ∧ (prepare m spec c s.construct).pos5 = 0) := by
  refine ⟨⟨?_, ?_⟩, rfl, rfl, rfl, rfl, rfl, rfl, rfl, rfl, rfl, rfl, rfl, rfl, rfl, rfl, rfl, rfl⟩
  · rw [prepare_dataBuffer, zeroFill_numSamples]; rfl
  · intro i h0 hn
    rw [prepare_dataBuffer]
    exact zeroFill_getSample 70000 _ i h0 (by exact_mod_cast hn)

theorem processSample_preparedRat_pos0 :
    (processSample Libm.rational preparedRat frameRat).1.pos0 = 1 := by
  rw [processSample_pos0, preparedRat_buf_length0]
  have hp : preparedRat.pos0 = 0 := rfl
  rw [hp]
  norm_num

/-- C4, refuted as stated: take the prepared instance over `ℚ`, process one
frame and call `prepare` again; `pos0` is then 1, not 0. -/
theorem prepare_keeps_pos0 :
    (prepare Libm.rational ⟨44100, 128⟩ ⟨0, 0, 0, 0, 0⟩
      (processSample Libm.rational preparedRat frameRat).1).pos0 ≠ 0 := by
  rw [prepare_pos0, processSample_preparedRat_pos0]
  decide

end PrepareZero

end Rubidium

namespace Rubidium

section RecombinationBound

variable {K : Type} [LinearOrderedField K]

theorem abs_tanh_le (x : K) : |FastMathApproximations.tanh x| ≤ |x| := by
  have hx2 : 0 ≤ x * x := mul_self_nonneg x
  have hN : 0 ≤ 135135 + x * x * (17325 + x * x * (378 + x * x)) := by positivity
  have hD : 0 < 135135 + x * x * (62370 + x * x * (3150 + 28 * (x * x))) := by positivity
  have hND : 135135 + x * x * (17325 + x * x * (378 + x * x)) ≤
      135135 + x * x * (62370 + x * x * (3150 + 28 * (x * x))) := by
    have h1 : x * x * (17325 + x * x * (378 + x * x)) ≤
        x * x * (62370 + x * x * (3150 + 28 * (x * x))) := by
      apply mul_le_mul_of_nonneg_left _ hx2
      have h2 : x * x * (378 + x * x) ≤ x * x * (3150 + 28 * (x * x)) := by
        apply mul_le_mul_of_nonneg_left _ hx2
        linarith
      linarith
    linarith
  simp only [FastMathApproximations.tanh]
  rw [abs_div, abs_mul, abs_of_pos hD, abs_of_nonneg hN, div_le_iff₀ hD]
  exact mul_le_mul_of_nonneg_left hND (abs_nonneg x)

theorem abs_atanApprox_le (v : K) : |atanApprox v| ≤ 1.08 * |v| := by
  have h1 := abs_tanh_le v
  have h2 : |v * 0.08| = 0.08 * |v| := by
    rw [abs_mul, abs_of_pos (by norm_num : (0 : K) < 0.08), mul_comm]
  calc |atanApprox v| ≤ |FastMathApproximations.tanh v| + |v * 0.08| := abs_add _ _
    _ ≤ |v| + 0.08 * |v| := by rw [h2]; linarith
    _ = 1.08 * |v| := by ring

theorem abs_recombineSpec_le (x delta : K) : |recombineSpec x delta| ≤ 1.08 * |x| := by
  unfold recombineSpec
  rw [← atanApprox_eq_spec]
  by_cases hx : x = 0
  · simp [hx, atanApprox_zero]
  · by_cases hd : delta = 0
    · simp [hx, hd, atanApprox_zero]
      positivity
    · rw [if_neg hx, if_neg hd, abs_div, div_le_iff₀ (abs_pos.mpr hd)]
      calc |atanApprox (x * delta)| ≤ 1.08 * |x * delta| := abs_atanApprox_le _
        _ = 1.08 * |x| * |delta| := by rw [abs_mul]; ring

end RecombinationBound

section FrontBack

variable {K : Type} [LinearOrderedField K]

theorem processSample_eq_front_back (m : Libm K) (s : RubidiumDistortion K) (f : Frame K) :
    processSample m s f =
      processSampleBack (processSampleFront m s f).1 (processSampleFront m s f).2.1
        (processSampleFront m s f).2.2.1 (processSampleFront m s f).2.2.2 := rfl

theorem processSampleBack_out (s : RubidiumDistortion K) (spl0 spl1 driveVal : K) (hg : s.g = 0)
    (hc2 : s.cut2 = 0) (hh2 : s.h2 = 0) (hh3 : s.h3 = 0)
    (h32 : s.v_n_buf3 + s.pos3 ≠ s.v_n_buf2 + s.pos2) :
    ∃ d0 d1 : K,
      (processSampleBack s spl0 spl1 driveVal).2.1 =
        recombineSpec (s.dataBuffer.data (s.v_n_buf2 + s.pos2)) d0 /
          (s.adj3 * (driveVal * 0.1 + 1.0)) * s.vol ∧
      (processSampleBack s spl0 spl1 driveVal).2.2 =
        recombineSpec (s.dataBuffer.data (s.v_n_buf3 + s.pos3)) d1 /
          (s.adj4 * (driveVal * 0.1 + 1.0)) * s.vol := by
  exact ⟨_, _, by
    simp only [processSampleBack, signalHighpassSecond, deltaLowpassSecond, nestedAllpass,
      hg, hc2, hh2, hh3, recombineSecond, recombineSpec_second, outputGain,
      AudioBuffer.setSample, AudioBuffer.getSample, neg_zero, mul_zero, add_zero, zero_add,
      sub_zero, zero_mul, Function.update_noteq h32,
      ne_eq, not_false_eq_true]
    exact ⟨rfl, rfl⟩⟩

theorem processSampleBack_data (s : RubidiumDistortion K) (spl0 spl1 driveVal : K)
    (hg : s.g = 0) :
    ∃ e e2 : K, (processSampleBack s spl0 spl1 driveVal).1.dataBuffer.data =
      Function.update (Function.update (Function.update (Function.update s.dataBuffer.data
        (s.v_n_buf2 + s.pos2) (spl0 + s.cDenorm)) (s.v_n_buf3 + s.pos3) (spl1 + s.cDenorm))
        (s.v_n_buf4 + s.pos4) e) (s.v_n_buf5 + s.pos5) e2 := by
  exact ⟨_, _, by
    simp only [processSampleBack, signalHighpassSecond, deltaLowpassSecond, nestedAllpass,
      hg, AudioBuffer.setSample, AudioBuffer.getSample, neg_zero, mul_zero, add_zero]
    rfl⟩

theorem processSampleBack_h (s : RubidiumDistortion K) (spl0 spl1 driveVal : K)
    (hc2 : s.cut2 = 0) :
    (processSampleBack s spl0 spl1 driveVal).1.h0 = s.h0 ∧
    (processSampleBack s spl0 spl1 driveVal).1.h1 = s.h1 ∧
    (processSampleBack s spl0 spl1 driveVal).1.h2 = s.h2 ∧
    (processSampleBack s spl0 spl1 driveVal).1.h3 = s.h3 := by
  simp only [processSampleBack, signalHighpassSecond, deltaLowpassSecond, nestedAllpass,
      hc2, mul_zero, add_zero, and_self]

theorem processSampleFront_data (m : Libm K) (s : RubidiumDistortion K) (f : Frame K) :
    ∃ a b : K, (processSampleFront m s f).1.dataBuffer.data =
      Function.update (Function.update s.dataBuffer.data (s.v_n_buf0 + s.pos0) a)
        (s.v_n_buf1 + s.pos1) b :=
  ⟨_, _, rfl⟩

theorem processSampleFront_h0 (m : Libm K) (s : RubidiumDistortion K) (f : Frame K) :
    (processSampleFront m s f).1.h0 =
      s.h0 + ((saturation m f.controls (updateCoefficients m f.controls s) f.in0 f.in1).1 -
        s.h0) * (updateCoefficients m f.controls s).cut0 := rfl

theorem processSampleFront_h1 (m : Libm K) (s : RubidiumDistortion K) (f : Frame K) :
    (processSampleFront m s f).1.h1 =
      s.h1 + ((saturation m f.controls (updateCoefficients m f.controls s) f.in0 f.in1).2.1 -
        s.h1) * (updateCoefficients m f.controls s).cut1 := rfl

theorem processSampleFront_spl0 (m : Libm K) (s : RubidiumDistortion K) (f : Frame K) :
    (processSampleFront m s f).2.1 =
      recombineSpec
        ((saturation m f.controls (updateCoefficients m f.controls s) f.in0 f.in1).1 -
          (processSampleFront m s f).1.h0) (processSampleFront m s f).1.delta0 := by
  rw [← recombineSpec_first]
  rfl

theorem processSampleFront_spl1 (m : Libm K) (s : RubidiumDistortion K) (f : Frame K) :
    (processSampleFront m s f).2.2.1 =
      recombineSpec
        ((saturation m f.controls (updateCoefficients m f.controls s) f.in0 f.in1).2.1 -
          (processSampleFront m s f).1.h1) (processSampleFront m s f).1.delta1 := by
  rw [← recombineSpec_first]
  rfl

theorem processSampleFront_cut2 (m : Libm K) (s : RubidiumDistortion K) (f : Frame K) :
    (processSampleFront m s f).1.cut2 = 0 := by
  show m.twoPi * 0 * s.dt = 0
  simp

end FrontBack

end Rubidium

namespace Rubidium

section BoundedStep

variable {K : Type} [LinearOrderedField K]

theorem abs_onePole_le (h x c M : K) (hh : |h| ≤ M) (hx : |x| ≤ M) (hc0 : 0 ≤ c)
    (hc1 : c ≤ 1) : |h + (x - h) * c| ≤ M := by
  obtain ⟨h1, h2⟩ := abs_le.mp hh
  obtain ⟨x1, x2⟩ := abs_le.mp hx
  have hc1' : 0 ≤ 1 - c := by linarith
  rw [abs_le]
  constructor
  · nlinarith [mul_nonneg hc1' (by linarith : 0 ≤ h + M), mul_nonneg hc0 (by linarith : 0 ≤ x + M)]
  · nlinarith [mul_nonneg hc1' (by linarith : 0 ≤ M - h), mul_nonneg hc0 (by linarith : 0 ≤ M - x)]

theorem Bounded.coefficients {s0 s : RubidiumDistortion K} {M B : K} (hb : Bounded s0 M B s)
    (m : Libm K) (c : Controls K) :
    (updateCoefficients m c s).cut0 = (updateCoefficients m c s0).cut0 ∧
    (updateCoefficients m c s).cut1 = (updateCoefficients m c s0).cut1 ∧
    (updateCoefficients m c s).adj3 = (updateCoefficients m c s0).adj3 ∧
    (updateCoefficients m c s).adj4 = (updateCoefficients m c s0).adj4 := by
  simp only [updateCoefficients, hb.rand0_eq, hb.rand1_eq, hb.dt_eq, hb.shape_eq, and_self]

theorem Bounded.saturation_eq {s0 s : RubidiumDistortion K} {M B : K} (hb : Bounded s0 M B s)
    (m : Libm K) (c : Controls K) (x y : K) :
    saturation m c (updateCoefficients m c s) x y =
      saturation m c (updateCoefficients m c s0) x y := by
  have h := hb.coefficients m c
  simp only [saturation, h.2.2.1, h.2.2.2]

theorem Bounded.pos_int {s0 s : RubidiumDistortion K} {M B : K} (hb : Bounded s0 M B s) :
    (0 ≤ s.pos0 ∧ s.pos0 ≤ 882) ∧ (0 ≤ s.pos1 ∧ s.pos1 ≤ 882) ∧
    (0 ≤ s.pos2 ∧ s.pos2 ≤ 42) ∧ (0 ≤ s.pos3 ∧ s.pos3 ≤ 42) ∧
    (0 ≤ s.pos4 ∧ s.pos4 ≤ 42) ∧ (0 ≤ s.pos5 ∧ s.pos5 ≤ 42) := by
  obtain ⟨h0, h1, h2, h3, h4, h5⟩ := hb.pos
  rw [hb.len0] at h0 h1
  rw [hb.len1] at h2 h3 h4 h5
  refine ⟨⟨h0.1, ?_⟩, ⟨h1.1, ?_⟩, ⟨h2.1, ?_⟩, ⟨h3.1, ?_⟩, ⟨h4.1, ?_⟩, ⟨h5.1, ?_⟩⟩
  · exact_mod_cast h0.2
  · exact_mod_cast h1.2
  · exact_mod_cast h2.2
  · exact_mod_cast h3.2
  · exact_mod_cast h4.2
  · exact_mod_cast h5.2

theorem abs_sub_le_two (x h M : K) (hx : |x| ≤ M) (hh : |h| ≤ M) : |x - h| ≤ 2 * M := by
  have := abs_sub x h
  linarith

theorem processSample_data (m : Libm K) (s0 s : RubidiumDistortion K) (M B : K) (f : Frame K)
    (hb : Bounded s0 M B s) :
    ∃ a b e e2 : K, (processSample m s f).1.dataBuffer.data =
      Function.update (Function.update (Function.update (Function.update
        (Function.update (Function.update s.dataBuffer.data (1000 + s.pos0) a)
          (2000 + s.pos1) b)
          (3000 + s.pos2) ((processSampleFront m s f).2.1 + 1e-30))
          (4000 + s.pos3) ((processSampleFront m s f).2.2.1 + 1e-30))
          (5000 + s.pos4) e) (6000 + s.pos5) e2 := by
  obtain ⟨a, b, hFd⟩ := processSampleFront_data m s f
  have hFg : (processSampleFront m s f).1.g = 0 := hb.g_eq
  obtain ⟨e, e2, hPd⟩ := processSampleBack_data (processSampleFront m s f).1
    (processSampleFront m s f).2.1 (processSampleFront m s f).2.2.1
    (processSampleFront m s f).2.2.2 hFg
  refine ⟨a, b, e, e2, ?_⟩
  rw [processSample_eq_front_back, hPd, hFd]
  show Function.update (Function.update (Function.update (Function.update
        (Function.update (Function.update s.dataBuffer.data (s.v_n_buf0 + s.pos0) a)
          (s.v_n_buf1 + s.pos1) b)
          (s.v_n_buf2 + s.pos2) ((processSampleFront m s f).2.1 + s.cDenorm))
          (s.v_n_buf3 + s.pos3) ((processSampleFront m s f).2.2.1 + s.cDenorm))
          (s.v_n_buf4 + s.pos4) e) (s.v_n_buf5 + s.pos5) e2 = _
  rw [hb.base0, hb.base1, hb.base2, hb.base3, hb.base4, hb.base5, hb.cDenorm_eq]

theorem processSampleFront_spl_le (m : Libm K) (s0 s : RubidiumDistortion K) (M B A : K)
    (f : Frame K) (hb : Bounded s0 M B s) (hf : FrameOK m s0 M A f) :
    |(processSampleFront m s f).1.h0| ≤ M ∧ |(processSampleFront m s f).1.h1| ≤ M ∧
    |(processSampleFront m s f).2.1| ≤ 1.08 * (2 * M) ∧
    |(processSampleFront m s f).2.2.1| ≤ 1.08 * (2 * M) := by
  have hco := hb.coefficients m f.controls
  have hsat := hb.saturation_eq m f.controls f.in0 f.in1
  have hh0 : |(processSampleFront m s f).1.h0| ≤ M := by
    rw [processSampleFront_h0, hsat, hco.1]
    exact abs_onePole_le _ _ _ _ hb.h0_le hf.sat0 hf.cut0_nonneg hf.cut0_le
  have hh1 : |(processSampleFront m s f).1.h1| ≤ M := by
    rw [processSampleFront_h1, hsat, hco.2.1]
    exact abs_onePole_le _ _ _ _ hb.h1_le hf.sat1 hf.cut1_nonneg hf.cut1_le
  refine ⟨hh0, hh1, ?_, ?_⟩
  · rw [processSampleFront_spl0, hsat]
    have h1 := abs_recombineSpec_le
      ((saturation m f.controls (updateCoefficients m f.controls s0) f.in0 f.in1).1 -
          (processSampleFront m s f).1.h0) (processSampleFront m s f).1.delta0
    have h2 := abs_sub_le_two _ _ M hf.sat0 hh0
    linarith
  · rw [processSampleFront_spl1, hsat]
    have h1 := abs_recombineSpec_le
      ((saturation m f.controls (updateCoefficients m f.controls s0) f.in0 f.in1).2.1 -
          (processSampleFront m s f).1.h1) (processSampleFront m s f).1.delta1
    have h2 := abs_sub_le_two _ _ M hf.sat1 hh1
    linarith

theorem processSample_bounded_state (m : Libm K) (s0 s : RubidiumDistortion K) (M B A : K)
    (f : Frame K) (hb : Bounded s0 M B s) (hf : FrameOK m s0 M A f)
    (hB : 1.08 * (2 * M) + 1e-30 ≤ B) : Bounded s0 M B (processSample m s f).1 := by
  obtain ⟨hh0, hh1, hs0, hs1⟩ := processSampleFront_spl_le m s0 s M B A f hb hf
  obtain ⟨p0, p1, p2, p3, p4, p5⟩ := hb.pos_int
  have hPh := processSampleBack_h (processSampleFront m s f).1
    (processSampleFront m s f).2.1 (processSampleFront m s f).2.2.1
    (processSampleFront m s f).2.2.2 (processSampleFront_cut2 m s f)
  rw [← processSample_eq_front_back] at hPh
  have heps : (0 : K) < 1e-30 := by norm_num
  refine ⟨hb.g_eq, hb.cDenorm_eq, hb.vol_eq, hb.rand0_eq, hb.rand1_eq, hb.dt_eq, hb.shape_eq,
    hb.base0, hb.base1, hb.base2, hb.base3, hb.base4, hb.base5, hb.len0, hb.len1,
    processSample_positionsInRange m s f hb.pos, ?_, ?_, ?_, ?_, ?_⟩
  · rw [hPh.1]; exact hh0
  · rw [hPh.2.1]; exact hh1
  · rw [hPh.2.2.1]; exact hb.h2_eq
  · rw [hPh.2.2.2]; exact hb.h3_eq
  · intro i hi
    obtain ⟨a, b, e, e2, hd⟩ := processSample_data m s0 s M B f hb
    rw [hd]
    have hc : |(processSampleFront m s f).2.1 + 1e-30| ≤ B := by
      have := abs_add (processSampleFront m s f).2.1 (1e-30 : K)
      rw [abs_of_pos heps] at this
      linarith
    have hd1 : |(processSampleFront m s f).2.2.1 + 1e-30| ≤ B := by
      have := abs_add (processSampleFront m s f).2.2.1 (1e-30 : K)
      rw [abs_of_pos heps] at this
      linarith
    rw [Function.update_noteq (by omega), Function.update_noteq (by omega)]
    by_cases h3 : i = 4000 + s.pos3
    · rw [h3, Function.update_same]; exact hd1
    · rw [Function.update_noteq h3]
      by_cases h2 : i = 3000 + s.pos2
      · rw [h2, Function.update_same]; exact hc
      · rw [Function.update_noteq h2, Function.update_noteq (by omega),
          Function.update_noteq (by omega)]
        exact hb.data_le i hi

theorem abs_div_mul_le (r D B A : K) (hr : |r| ≤ 1.08 * B) (hA : 0 < A) (hD : A ≤ D) :
    |r / D * 0.9| ≤ 1.08 * B / A * 0.9 := by
  have hDpos : 0 < D := lt_of_lt_of_le hA hD
  have hB : 0 ≤ 1.08 * B := le_trans (abs_nonneg r) hr
  rw [abs_mul, abs_div, abs_of_pos hDpos, abs_of_pos (by norm_num : (0 : K) < 0.9)]
  apply mul_le_mul_of_nonneg_right _ (by norm_num)
  exact div_le_div₀ hB hr hA hD

theorem processSample_bounded_out (m : Libm K) (s0 s : RubidiumDistortion K) (M B A : K)
    (f : Frame K) (hb : Bounded s0 M B s) (hf : FrameOK m s0 M A f) (hA : 0 < A) :
    |(processSample m s f).2.1| ≤ 1.08 * B / A * 0.9 ∧
      |(processSample m s f).2.2| ≤ 1.08 * B / A * 0.9 := by
  have hco := hb.coefficients m f.controls
  have hsat := hb.saturation_eq m f.controls f.in0 f.in1
  obtain ⟨p0, p1, p2, p3, p4, p5⟩ := hb.pos_int
  have hFg : (processSampleFront m s f).1.g = 0 := hb.g_eq
  have hne32 : (processSampleFront m s f).1.v_n_buf3 + (processSampleFront m s f).1.pos3 ≠
      (processSampleFront m s f).1.v_n_buf2 + (processSampleFront m s f).1.pos2 := by
    show s.v_n_buf3 + s.pos3 ≠ s.v_n_buf2 + s.pos2
    rw [hb.base3, hb.base2]; omega
  obtain ⟨d0, d1, ho0, ho1⟩ := processSampleBack_out (processSampleFront m s f).1
    (processSampleFront m s f).2.1 (processSampleFront m s f).2.2.1
    (processSampleFront m s f).2.2.2 hFg (processSampleFront_cut2 m s f) hb.h2_eq hb.h3_eq hne32
  rw [← processSample_eq_front_back] at ho0 ho1
  obtain ⟨a, b, hFd⟩ := processSampleFront_data m s f
  have hvol : (processSampleFront m s f).1.vol = 0.9 := hb.vol_eq
  have hX2 : |(processSampleFront m s f).1.dataBuffer.data
      ((processSampleFront m s f).1.v_n_buf2 + (processSampleFront m s f).1.pos2)| ≤ B := by
    rw [hFd]
    show |Function.update (Function.update s.dataBuffer.data (s.v_n_buf0 + s.pos0) a)
        (s.v_n_buf1 + s.pos1) b (s.v_n_buf2 + s.pos2)| ≤ B
    rw [hb.base0, hb.base1, hb.base2, Function.update_noteq (by omega),
      Function.update_noteq (by omega)]
    exact hb.data_le _ (Or.inl ⟨by omega, by omega⟩)
  have hX3 : |(processSampleFront m s f).1.dataBuffer.data
      ((processSampleFront m s f).1.v_n_buf3 + (processSampleFront m s f).1.pos3)| ≤ B := by
    rw [hFd]
    show |Function.update (Function.update s.dataBuffer.data (s.v_n_buf0 + s.pos0) a)
        (s.v_n_buf1 + s.pos1) b (s.v_n_buf3 + s.pos3)| ≤ B
    rw [hb.base0, hb.base1, hb.base3, Function.update_noteq (by omega),
      Function.update_noteq (by omega)]
    exact hb.data_le _ (Or.inr ⟨by omega, by omega⟩)
  have hD0 : A ≤ (processSampleFront m s f).1.adj3 *
      ((processSampleFront m s f).2.2.2 * 0.1 + 1.0) := by
    have := hf.div0
    rw [← hco.2.2.1, ← hsat] at this
    exact this
  have hD1 : A ≤ (processSampleFront m s f).1.adj4 *
      ((processSampleFront m s f).2.2.2 * 0.1 + 1.0) := by
    have := hf.div1
    rw [← hco.2.2.2, ← hsat] at this
    exact this
  have hB : 0 ≤ B := le_trans (abs_nonneg _) hX2
  constructor
  · rw [ho0, hvol]
    apply abs_div_mul_le _ _ _ _ _ hA hD0
    have := abs_recombineSpec_le ((processSampleFront m s f).1.dataBuffer.data
      ((processSampleFront m s f).1.v_n_buf2 + (processSampleFront m s f).1.pos2)) d0
    nlinarith
  · rw [ho1, hvol]
    apply abs_div_mul_le _ _ _ _ _ hA hD1
    have := abs_recombineSpec_le ((processSampleFront m s f).1.dataBuffer.data
      ((processSampleFront m s f).1.v_n_buf3 + (processSampleFront m s f).1.pos3)) d1
    nlinarith

theorem processBlock_bounded (m : Libm K) (s0 s : RubidiumDistortion K) (M B A : K)
    (fs : List (Frame K)) (hb : Bounded s0 M B s) (hf : ∀ f ∈ fs, FrameOK m s0 M A f)
    (hB : 1.08 * (2 * M) + 1e-30 ≤ B) (hA : 0 < A) :
    ∀ o ∈ (processBlock m s fs).2, |o.1| ≤ 1.08 * B / A * 0.9 ∧ |o.2| ≤ 1.08 * B / A * 0.9 := by
  induction fs generalizing s with
  | nil => intro o ho; simp [processBlock] at ho
  | cons f fs ih =>
    intro o ho
    have hf0 := hf f (List.mem_cons_self f fs)
    simp only [processBlock, List.mem_cons] at ho
    rcases ho with ho | ho
    · rw [ho]
      exact processSample_bounded_out m s0 s M B A f hb hf0 hA
    · exact ih _ (processSample_bounded_state m s0 s M B A f hb hf0 hB)
        (fun g hg => hf g (List.mem_cons_of_mem f hg)) o ho

theorem processBlock_length (m : Libm K) (s : RubidiumDistortion K) (fs : List (Frame K)) :
    (processBlock m s fs).2.length = fs.length := by
  induction fs generalizing s with
  | nil => rfl
  | cons f fs ih => simp [processBlock, ih]

end BoundedStep

end Rubidium

namespace Rubidium

section RealCoefficients

theorem updateCoefficients_adj3_ge (m : Libm ℝ) (hexp : ∀ x, m.exp x = Real.exp x)
    (c : Controls ℝ) (s : RubidiumDistortion ℝ) :
    0.00000001 ≤ (updateCoefficients m c s).adj3 := by
  simp only [updateCoefficients]
  split_ifs
  · norm_num
  · rw [hexp]
    have := Real.exp_pos
      (s.shape * m.log10 (0.125 + (m.powf (c.mojo * 0.01) 1.2 * 100 + 5) * 0.06666666))
    linarith

theorem decibelsToGain_nonneg (m : Libm ℝ) (hm : m.IsReal) (x : ℝ) :
    0 ≤ m.decibelsToGain x := by
  rw [hm.decibelsToGain_eq]
  split_ifs
  · exact le_of_lt (Real.rpow_pos_of_pos (by norm_num) _)
  · exact le_refl 0

theorem output_divisor_ge (m : Libm ℝ) (hm : m.IsReal) (c : Controls ℝ)
    (s : RubidiumDistortion ℝ) (x y : ℝ) :
    0.00000001 ≤ (updateCoefficients m c s).adj3 *
        ((saturation m c (updateCoefficients m c s) x y).2.2 * 0.1 + 1.0) ∧
      0.00000001 ≤ (updateCoefficients m c s).adj4 *
        ((saturation m c (updateCoefficients m c s) x y).2.2 * 0.1 + 1.0) := by
  have h3 := updateCoefficients_adj3_ge m hm.exp_eq c s
  have hd : 0 ≤ (saturation m c (updateCoefficients m c s) x y).2.2 :=
    decibelsToGain_nonneg m hm _
  rw [updateCoefficients_adj4_eq]
  have : 0.00000001 ≤ (updateCoefficients m c s).adj3 *
      ((saturation m c (updateCoefficients m c s) x y).2.2 * 0.1 + 1.0) := by
    nlinarith
  exact ⟨this, this⟩

theorem updateCoefficients_adj3_le (m : Libm ℝ) (hm : m.IsReal) (c : Controls ℝ)
    (s : RubidiumDistortion ℝ) (hshape : s.shape = 4) (h0 : 0 ≤ c.mojo) (h1 : c.mojo ≤ 100) :
    (updateCoefficients m c s).adj3 ≤ Real.exp 4 + 0.00000001 := by
  have he : (1 : ℝ) ≤ Real.exp 4 := Real.one_le_exp (by norm_num)
  simp only [updateCoefficients]
  split_ifs with hg
  · linarith
  · rw [hm.exp_eq, hm.log10_eq, hm.powf_eq, hshape]
    have hp : Real.rpow (c.mojo * 1e-2) 1.2 ≤ 1 :=
      Real.rpow_le_one (by nlinarith) (by nlinarith) (by norm_num)
    rw [hm.powf_eq] at hg
    have hgpos : 0 < 0.125 + (Real.rpow (c.mojo * 1e-2) 1.2 * 100 + 5) * 6.666666e-2 :=
      not_le.mp hg
    have hlog10 : 0 < Real.log 10 := Real.log_pos (by norm_num)
    have hlog : Real.log (0.125 + (Real.rpow (c.mojo * 1e-2) 1.2 * 100 + 5) * 6.666666e-2) ≤
        Real.log 10 := Real.log_le_log hgpos (by linarith)
    have hq : Real.log (0.125 + (Real.rpow (c.mojo * 1e-2) 1.2 * 100 + 5) * 6.666666e-2) /
        Real.log 10 ≤ 1 := (div_le_one hlog10).mpr hlog
    have := Real.exp_le_exp.mpr (by linarith :
      4 * (Real.log (0.125 + (Real.rpow (c.mojo * 1e-2) 1.2 * 100 + 5) * 6.666666e-2) /
        Real.log 10) ≤ 4)
    linarith

end RealCoefficients

end Rubidium

namespace Rubidium

section PreparedBounded

variable {K : Type} [LinearOrderedField K]

omit [LinearOrderedField K] in
theorem getSample_eq_data (b : AudioBuffer K) (i : Int) : b.getSample i = b.data i := rfl

theorem prepare_bounded (m : Libm K) (spec : ProcessSpec K) (cp : Controls K)
    (u : RubidiumDistortion K) (M B : K) (hM : 0 ≤ M) (hB : 0 ≤ B) :
    Bounded (prepare m spec cp u.construct) M B (prepare m spec cp u.construct) := by
  have hl0 := prepare_buf_length0_eq m spec cp u.construct
  have hl1 := prepare_buf_length1_eq m spec cp u.construct
  have hp0 : (prepare m spec cp u.construct).pos0 = 0 := rfl
  have hp1 : (prepare m spec cp u.construct).pos1 = 0 := rfl
  have hp2 : (prepare m spec cp u.construct).pos2 = 0 := rfl
  have hp3 : (prepare m spec cp u.construct).pos3 = 0 := rfl
  have hp4 : (prepare m spec cp u.construct).pos4 = 0 := rfl
  have hp5 : (prepare m spec cp u.construct).pos5 = 0 := rfl
  have hh0 : (prepare m spec cp u.construct).h0 = 0 := rfl
  have hh1 : (prepare m spec cp u.construct).h1 = 0 := rfl
  refine ⟨rfl, rfl, rfl, rfl, rfl, rfl, rfl, rfl, rfl, rfl, rfl, rfl, rfl, hl0, hl1, ?_, ?_, ?_,
    rfl, rfl, ?_⟩
  · unfold positionsInRange
    rw [hp0, hp1, hp2, hp3, hp4, hp5, hl0, hl1]
    norm_num
  · rw [hh0, abs_zero]; exact hM
  · rw [hh1, abs_zero]; exact hM
  · intro i hi
    have hz : (prepare m spec cp u.construct).dataBuffer.getSample i = 0 := by
      rw [prepare_dataBuffer]
      exact zeroFill_getSample 70000 _ i (by omega) (by omega)
    rw [← getSample_eq_data, hz, abs_zero]; exact hB

end PreparedBounded

end Rubidium

namespace Rubidium

section Boundedness

theorem prepare_cut0 (m : Libm ℝ) (spec : ProcessSpec ℝ) (cp c : Controls ℝ)
    (u : RubidiumDistortion ℝ) :
    (updateCoefficients m c (prepare m spec cp u.construct)).cut0 =
      m.twoPi * (c.tone + 0.02) * (1 / spec.sampleRate) := rfl

theorem prepare_cut1 (m : Libm ℝ) (spec : ProcessSpec ℝ) (cp c : Controls ℝ)
    (u : RubidiumDistortion ℝ) :
    (updateCoefficients m c (prepare m spec cp u.construct)).cut1 =
      m.twoPi * (c.tone + 0.09) * (1 / spec.sampleRate) := rfl

theorem prepare_shape (m : Libm ℝ) (spec : ProcessSpec ℝ) (cp : Controls ℝ)
    (u : RubidiumDistortion ℝ) : (prepare m spec cp u.construct).shape = 4 := rfl

/-- With every control at 0, an input frame of silence is in range at 44100 Hz. -/
theorem silence_inRange (m : Libm ℝ) (hm : m.IsReal) (maxBlock : Nat) (cp : Controls ℝ)
    (u : RubidiumDistortion ℝ) :
    Frame.InRange m (prepare m ⟨44100, maxBlock⟩ cp u.construct) ⟨⟨0, 0, 0, 0, 0⟩, 0, 0⟩ := by
  have hpi := Real.pi_pos
  have hpi4 := Real.pi_le_four
  unfold Frame.InRange
  rw [prepare_cut0, prepare_cut1, hm.twoPi_eq]
  norm_num
  refine ⟨⟨?_, ?_⟩, ?_, ?_⟩
  · positivity
  · nlinarith
  · positivity
  · nlinarith

theorem inRange_frameOK (m : Libm ℝ) (hm : m.IsReal) (spec : ProcessSpec ℝ) (cp : Controls ℝ)
    (u : RubidiumDistortion ℝ) (f : Frame ℝ)
    (hf : f.InRange m (prepare m spec cp u.construct)) :
    FrameOK m (prepare m spec cp u.construct) ((Real.exp 4 + 0.00000001) * (Real.pi / 2))
      0.00000001 f := by
  obtain ⟨-, -, -, hmojo, -, -, hc0, hc1⟩ := hf
  have hle := updateCoefficients_adj3_le m hm f.controls (prepare m spec cp u.construct)
    (prepare_shape m spec cp u) hmojo.1 hmojo.2
  have hsat := saturation_abs_lt m hm f.controls (prepare m spec cp u.construct) f.in0 f.in1
  have hdiv := output_divisor_ge m hm f.controls (prepare m spec cp u.construct) f.in0 f.in1
  have hpi := Real.pi_pos
  have hle4 : (updateCoefficients m f.controls (prepare m spec cp u.construct)).adj4 ≤
      Real.exp 4 + 0.00000001 := by rw [updateCoefficients_adj4_eq]; exact hle
  refine ⟨?_, ?_, hc0.1, hc0.2, hc1.1, hc1.2, hdiv.1, hdiv.2⟩
  · have := hsat.1
    nlinarith
  · have := hsat.2
    nlinarith

theorem silence_frameOK (m : Libm ℝ) (hm : m.IsReal) (maxBlock : Nat) (cp : Controls ℝ)
    (u : RubidiumDistortion ℝ) :
    FrameOK m (prepare m ⟨44100, maxBlock⟩ cp u.construct) 0 0.00000001
      ⟨⟨0, 0, 0, 0, 0⟩, 0, 0⟩ := by
  obtain ⟨-, -, -, -, -, -, hc0, hc1⟩ := silence_inRange m hm maxBlock cp u
  have hdiv := output_divisor_ge m hm ⟨0, 0, 0, 0, 0⟩ (prepare m ⟨44100, maxBlock⟩ cp u.construct)
    0 0
  have hz : Real.rpow 0 3 = 0 := Real.zero_rpow (by norm_num)
  refine ⟨?_, ?_, hc0.1, hc0.2, hc1.1, hc1.2, hdiv.1, hdiv.2⟩
  · simp only [saturation, hm.atan_eq, hm.powf_eq, hz]
    simp
  · simp only [saturation, hm.atan_eq, hm.powf_eq, hz]
    simp

/-- C5: from the freshly constructed state prepared at sample rate 44100, with
drive, asym, tone, mojo and bias at 0, a block of 1000 zero samples on both
channels gives 1000 output samples, each of magnitude at most `1e-6` on both
channels (over the reals). -/
theorem silence_output_small (m : Libm ℝ) (hm : m.IsReal) (maxBlock : Nat) (cp : Controls ℝ)
    (u : RubidiumDistortion ℝ) :
    (processBlockConst m ⟨0, 0, 0, 0, 0⟩ (prepare m ⟨44100, maxBlock⟩ cp u.construct)
        (List.replicate 1000 (0, 0))).2.length = 1000 ∧
      ∀ o ∈ (processBlockConst m ⟨0, 0, 0, 0, 0⟩ (prepare m ⟨44100, maxBlock⟩ cp u.construct)
        (List.replicate 1000 (0, 0))).2, |o.1| ≤ 1e-6 ∧ |o.2| ≤ 1e-6 := by
  constructor
  · rw [processBlockConst, processBlock_length, List.length_map, List.length_replicate]
  · intro o ho
    have hfs : ∀ f ∈ (List.replicate 1000 ((0 : ℝ), (0 : ℝ))).map
        (fun x => (⟨⟨0, 0, 0, 0, 0⟩, x.1, x.2⟩ : Frame ℝ)),
        FrameOK m (prepare m ⟨44100, maxBlock⟩ cp u.construct) 0 0.00000001 f := by
      intro f hf
      rw [List.map_replicate] at hf
      rw [List.eq_of_mem_replicate hf]
      exact silence_frameOK m hm maxBlock cp u
    have h := processBlock_bounded m _ _ 0 1e-30 0.00000001 _
      (prepare_bounded m ⟨44100, maxBlock⟩ cp u 0 1e-30 (le_refl 0) (by norm_num))
      hfs (by norm_num) (by norm_num) o ho
    constructor
    · exact le_trans h.1 (by norm_num)
    · exact le_trans h.2 (by norm_num)

/-- C5, at the real-valued routines, block size 128, every control at 0 at
`prepare`. -/
theorem silence_output_small_witness :
    (Libm.mk Real.rpow Real.exp (fun x => Real.log x / Real.log 10) Real.arctan
        Real.sqrt (2 * Real.pi)
        (fun dB => if dB > -100 then Real.rpow 10 (dB * 0.05) else 0)).IsReal ∧
    ∀ o ∈ (processBlockConst (Libm.mk Real.rpow Real.exp (fun x => Real.log x / Real.log 10) Real.arctan
        Real.sqrt (2 * Real.pi)
        (fun dB => if dB > -100 then Real.rpow 10 (dB * 0.05) else 0)) ⟨0, 0, 0, 0, 0⟩
        (prepare (Libm.mk Real.rpow Real.exp (fun x => Real.log x / Real.log 10) Real.arctan
        Real.sqrt (2 * Real.pi)
        (fun dB => if dB > -100 then Real.rpow 10 (dB * 0.05) else 0)) ⟨44100, 128⟩ ⟨0, 0, 0, 0, 0⟩ RubidiumDistortion.allZero.construct)
        (List.replicate 1000 (0, 0))).2, |o.1| ≤ 1e-6 ∧ |o.2| ≤ 1e-6 :=
  ⟨isReal_mk, (silence_output_small _ isReal_mk 128 ⟨0, 0, 0, 0, 0⟩
    RubidiumDistortion.allZero).2⟩

end Boundedness

end Rubidium

namespace Rubidium

section ContractionAndCoefficients

variable {K : Type} [LinearOrderedField K]

theorem recombineSpec_eq_zero (x delta : K) (h : x = 0 ∨ delta = 0) :
    recombineSpec x delta = 0 := by
  unfold recombineSpec
  rw [← atanApprox_eq_spec]
  rcases h with h | h
  · simp [h, atanApprox_zero]
  · simp [h, atanApprox_zero]

end ContractionAndCoefficients

section Hysteresis

theorem rectify_increment (hys0 hys1 out : ℝ) (h0 : 0 ≤ hys0) (h1 : 0 ≤ hys1) :
    (0 ≤ hys1 * max (hys0 - Real.sqrt (out * (if out < 0 then 0 else 1)) *
        (if out < 0 then 0 else 1)) 0 ∧
      hys1 * max (hys0 - Real.sqrt (out * (if out < 0 then 0 else 1)) *
        (if out < 0 then 0 else 1)) 0 ≤ hys1 * hys0) ∧
    (out ≤ 0 → hys1 * max (hys0 - Real.sqrt (out * (if out < 0 then 0 else 1)) *
        (if out < 0 then 0 else 1)) 0 = hys1 * hys0) ∧
    (hys0 ^ 2 ≤ out → hys1 * max (hys0 - Real.sqrt (out * (if out < 0 then 0 else 1)) *
        (if out < 0 then 0 else 1)) 0 = 0) := by
  by_cases hneg : out < 0
  · have hv : hys1 * max (hys0 - Real.sqrt (out * (if out < 0 then 0 else 1)) *
        (if out < 0 then 0 else 1)) 0 = hys1 * hys0 := by
      simp only [if_pos hneg, mul_zero, Real.sqrt_zero, sub_zero, max_eq_left h0]
    rw [hv]
    refine ⟨⟨mul_nonneg h1 h0, le_refl _⟩, fun _ => rfl, ?_⟩
    intro h
    have : 0 ≤ hys0 ^ 2 := sq_nonneg _
    linarith
  · simp only [if_neg hneg, mul_one]
    have hs : 0 ≤ Real.sqrt out := Real.sqrt_nonneg out
    have hmax0 : 0 ≤ max (hys0 - Real.sqrt out) 0 := le_max_right _ _
    have hmax1 : max (hys0 - Real.sqrt out) 0 ≤ hys0 := max_le (by linarith) h0
    refine ⟨⟨mul_nonneg h1 hmax0, mul_le_mul_of_nonneg_left hmax1 h1⟩, ?_, ?_⟩
    · intro hle
      have h0' : out = 0 := le_antisymm hle (not_lt.mp hneg)
      rw [h0', Real.sqrt_zero, sub_zero, max_eq_left h0]
    · intro hge
      have : hys0 ≤ Real.sqrt out := Real.le_sqrt_of_sq_le hge
      rw [max_eq_right (by linarith), mul_zero]

/-- C14: for every delay output and every `hys0 >= 0`, `hys1 >= 0`, the amount
the rectified nonlinearity adds to `delta0` (and to `delta1`),
`hys1 * max(hys0 - sqrt(out * sign) * sign, 0)` with `sign = 0` if `out < 0`
else `1`, lies in `[0, hys1 * hys0]`; it equals `hys1 * hys0` whenever
`out <= 0` and `0` whenever `out >= hys0^2`. -/
theorem hysteresis_increment_range (m : Libm ℝ) (hsqrt : ∀ x, m.sqrt x = Real.sqrt x)
    (s : RubidiumDistortion ℝ) (out0 out1 : ℝ) (h0 : 0 ≤ s.hys0) (h1 : 0 ≤ s.hys1) :
    ((0 ≤ (hysteresisRectify m s out0 out1).delta0 - s.delta0 ∧
        (hysteresisRectify m s out0 out1).delta0 - s.delta0 ≤ s.hys1 * s.hys0) ∧
      (out0 ≤ 0 → (hysteresisRectify m s out0 out1).delta0 - s.delta0 = s.hys1 * s.hys0) ∧
      (s.hys0 ^ 2 ≤ out0 → (hysteresisRectify m s out0 out1).delta0 - s.delta0 = 0)) ∧
    ((0 ≤ (hysteresisRectify m s out0 out1).delta1 - s.delta1 ∧
        (hysteresisRectify m s out0 out1).delta1 - s.delta1 ≤ s.hys1 * s.hys0) ∧
      (out1 ≤ 0 → (hysteresisRectify m s out0 out1).delta1 - s.delta1 = s.hys1 * s.hys0) ∧
      (s.hys0 ^ 2 ≤ out1 → (hysteresisRectify m s out0 out1).delta1 - s.delta1 = 0)) := by
  simp only [hysteresisRectify, hsqrt, add_sub_cancel_left]
  exact ⟨rectify_increment s.hys0 s.hys1 out0 h0 h1, rectify_increment s.hys0 s.hys1 out1 h0 h1⟩

end Hysteresis

end Rubidium

namespace Rubidium

section CoefficientValues

/-- C15: for every asym, tone and sample period `dt`, with the detuning
constants `rand0 = 0.02`, `rand1 = 0.09` of the member initializers,
`updateCoefficients` sets `hys0 = 0.015625 * (1 + hystAmt * 0.08)`,
`hys1 = hystAmt * 0.01` with `hystAmt = (asym * 0.1)^2 * 300`,
`cut0 = 2 pi (tone + 0.02) dt`, `cut1 = 2 pi (tone + 0.09) dt` and `cut2 = 0`
(over the reals). -/
theorem hysteresis_cutoff_coefficients (m : Libm ℝ) (hm : m.IsReal) (c : Controls ℝ)
    (s : RubidiumDistortion ℝ) (hr0 : s.rand0 = 0.02) (hr1 : s.rand1 = 0.09) :
    (updateCoefficients m c s).hys0 =
        0.015625 * (1 + ((c.hysteresis * 0.1) ^ 2 * 300) * 0.08) ∧
      (updateCoefficients m c s).hys1 = ((c.hysteresis * 0.1) ^ 2 * 300) * 0.01 ∧
      (updateCoefficients m c s).cut0 = 2 * Real.pi * (c.tone + 0.02) * s.dt ∧
      (updateCoefficients m c s).cut1 = 2 * Real.pi * (c.tone + 0.09) * s.dt ∧
      (updateCoefficients m c s).cut2 = 0 := by
  have hp : m.powf (c.hysteresis * 0.1) 2 = (c.hysteresis * 0.1) ^ 2 := by
    rw [hm.powf_eq]
    exact Real.rpow_two _
  simp only [updateCoefficients, hp, hm.twoPi_eq, hr0, hr1]
  refine ⟨by ring, trivial, trivial, trivial, by ring⟩

theorem rpow_mojo_bounds (x : ℝ) (h0 : 0 ≤ x) (h1 : x ≤ 100) :
    0 ≤ Real.rpow (x * 0.01) 1.2 ∧ Real.rpow (x * 0.01) 1.2 ≤ 1 :=
  ⟨Real.rpow_nonneg (by nlinarith) _,
    Real.rpow_le_one (by nlinarith) (by nlinarith) (by norm_num)⟩

/-- C18: for every mojo in `[0, 100]`, `satAmt = (mojo * 0.01)^1.2 * 100 + 5`
lies in `[5, 105]`, `gain = 0.125 + satAmt * 0.06666666` is strictly positive
and non-decreasing in mojo, and `updateCoefficients` sets `adj3` and `adj4` to
`exp(shape * log10(gain)) + 1e-8`, never to the `1e-7` floor. -/
theorem gain_floor_unreachable (m : Libm ℝ) (hm : m.IsReal) (c : Controls ℝ)
    (s : RubidiumDistortion ℝ) (h0 : 0 ≤ c.mojo) (h1 : c.mojo ≤ 100) :
    (5 ≤ Real.rpow (c.mojo * 0.01) 1.2 * 100 + 5 ∧
      Real.rpow (c.mojo * 0.01) 1.2 * 100 + 5 ≤ 105) ∧
    (updateCoefficients m c s).gain =
      0.125 + (Real.rpow (c.mojo * 0.01) 1.2 * 100 + 5) * 0.06666666 ∧
    0 < (updateCoefficients m c s).gain ∧
    (∀ (c2 : Controls ℝ) (s2 : RubidiumDistortion ℝ), c.mojo ≤ c2.mojo → c2.mojo ≤ 100 →
      (updateCoefficients m c s).gain ≤ (updateCoefficients m c2 s2).gain) ∧
    (updateCoefficients m c s).adj3 =
      m.exp (s.shape * m.log10 (updateCoefficients m c s).gain) + 0.00000001 ∧
    (updateCoefficients m c s).adj4 =
      m.exp (s.shape * m.log10 (updateCoefficients m c s).gain) + 0.00000001 := by
  obtain ⟨hp0, hp1⟩ := rpow_mojo_bounds c.mojo h0 h1
  have hgain : (updateCoefficients m c s).gain =
      0.125 + (Real.rpow (c.mojo * 0.01) 1.2 * 100 + 5) * 0.06666666 := by
    simp only [updateCoefficients, hm.powf_eq]
  have hpos : 0 < (updateCoefficients m c s).gain := by rw [hgain]; nlinarith
  have hadj : (updateCoefficients m c s).adj3 =
      m.exp (s.shape * m.log10 (updateCoefficients m c s).gain) + 0.00000001 := by
    have hn : ¬ (updateCoefficients m c s).gain ≤ 0 := not_le.mpr hpos
    simp only [updateCoefficients] at hn ⊢
    rw [if_neg hn]
  refine ⟨⟨by linarith, by linarith⟩, hgain, hpos, ?_, hadj, ?_⟩
  · intro c2 s2 hle h2
    have hmono : Real.rpow (c.mojo * 0.01) 1.2 ≤ Real.rpow (c2.mojo * 0.01) 1.2 :=
      Real.rpow_le_rpow (by nlinarith) (by nlinarith) (by norm_num)
    have hgain2 : (updateCoefficients m c2 s2).gain =
        0.125 + (Real.rpow (c2.mojo * 0.01) 1.2 * 100 + 5) * 0.06666666 := by
      simp only [updateCoefficients, hm.powf_eq]
    rw [hgain, hgain2]
    nlinarith
  · rw [updateCoefficients_adj4_eq]; exact hadj

end CoefficientValues

end Rubidium

namespace Rubidium



section SecondPass

variable {K : Type} [LinearOrderedField K]

theorem updateCoefficients_cut2 (m : Libm K) (c : Controls K) (s : RubidiumDistortion K) :
    (updateCoefficients m c s).cut2 = 0 := by
  simp [updateCoefficients]

theorem signalHighpassSecond_id (s : RubidiumDistortion K) (a b : K) (hc : s.cut2 = 0)
    (h2 : s.h2 = 0) (h3 : s.h3 = 0) : signalHighpassSecond s a b = (s, a, b) := by
  cases s
  simp only at hc h2 h3
  subst hc h2 h3
  simp [signalHighpassSecond]

theorem deltaLowpassSecond_id (s : RubidiumDistortion K) (hc : s.cut2 = 0)
    (h2 : s.l2 = 0) (h3 : s.l3 = 0) : deltaLowpassSecond s = s := by
  cases s
  simp only at hc h2 h3
  subst hc h2 h3
  simp [deltaLowpassSecond]

theorem processSample_second_states (m : Libm K) (s : RubidiumDistortion K) (f : Frame K) :
    (processSample m s f).1.h2 = s.h2 ∧ (processSample m s f).1.h3 = s.h3 ∧
      (processSample m s f).1.l2 = s.l2 ∧ (processSample m s f).1.l3 = s.l3 := by
  have hc := processSampleFront_cut2 m s f
  rw [processSample_eq_front_back]
  simp only [processSampleBack, signalHighpassSecond, deltaLowpassSecond, nestedAllpass, hc,
    mul_zero, add_zero]
  exact ⟨rfl, rfl, rfl, rfl⟩

theorem processBlock_second_states (m : Libm K) (s : RubidiumDistortion K)
    (fs : List (Frame K)) :
    (processBlock m s fs).1.h2 = s.h2 ∧ (processBlock m s fs).1.h3 = s.h3 ∧
      (processBlock m s fs).1.l2 = s.l2 ∧ (processBlock m s fs).1.l3 = s.l3 := by
  induction fs generalizing s with
  | nil => exact ⟨rfl, rfl, rfl, rfl⟩
  | cons f fs ih =>
    obtain ⟨a, b, c, d⟩ := ih (processSample m s f).1
    obtain ⟨a1, b1, c1, d1⟩ := processSample_second_states m s f
    exact ⟨a.trans a1, b.trans b1, c.trans c1, d.trans d1⟩

end SecondPass

end Rubidium

namespace Rubidium

section RegionVectors

theorem regionBase_zero {K : Type} (s : RubidiumDistortion K) : regionBase s 0 = s.v_n_buf0 := rfl

theorem regionBase_one {K : Type} (s : RubidiumDistortion K) : regionBase s 1 = s.v_n_buf1 := rfl

theorem regionBase_two {K : Type} (s : RubidiumDistortion K) : regionBase s 2 = s.v_n_buf2 := rfl

theorem regionBase_three {K : Type} (s : RubidiumDistortion K) : regionBase s 3 = s.v_n_buf3 := rfl

theorem regionBase_four {K : Type} (s : RubidiumDistortion K) : regionBase s 4 = s.v_n_buf4 := rfl

theorem regionBase_five {K : Type} (s : RubidiumDistortion K) : regionBase s 5 = s.v_n_buf5 := rfl

theorem regionPos_zero {K : Type} (s : RubidiumDistortion K) : regionPos s 0 = s.pos0 := rfl

theorem regionPos_one {K : Type} (s : RubidiumDistortion K) : regionPos s 1 = s.pos1 := rfl

theorem regionPos_two {K : Type} (s : RubidiumDistortion K) : regionPos s 2 = s.pos2 := rfl

theorem regionPos_three {K : Type} (s : RubidiumDistortion K) : regionPos s 3 = s.pos3 := rfl

theorem regionPos_four {K : Type} (s : RubidiumDistortion K) : regionPos s 4 = s.pos4 := rfl

theorem regionPos_five {K : Type} (s : RubidiumDistortion K) : regionPos s 5 = s.pos5 := rfl

theorem regionLength_zero (L0 L1 : Nat) : regionLength L0 L1 0 = L0 := rfl

theorem regionLength_one (L0 L1 : Nat) : regionLength L0 L1 1 = L0 := rfl

theorem regionLength_two (L0 L1 : Nat) : regionLength L0 L1 2 = L1 := rfl

theorem regionLength_three (L0 L1 : Nat) : regionLength L0 L1 3 = L1 := rfl

theorem regionLength_four (L0 L1 : Nat) : regionLength L0 L1 4 = L1 := rfl

theorem regionLength_five (L0 L1 : Nat) : regionLength L0 L1 5 = L1 := rfl

end RegionVectors

end Rubidium

namespace Rubidium

section RegionIndependence

variable {K : Type} [LinearOrderedField K]

theorem processSample_bases (m : Libm K) (s : RubidiumDistortion K) (f : Frame K) :
    (processSample m s f).1.v_n_buf0 = s.v_n_buf0 ∧ (processSample m s f).1.v_n_buf1 = s.v_n_buf1 ∧
    (processSample m s f).1.v_n_buf2 = s.v_n_buf2 ∧ (processSample m s f).1.v_n_buf3 = s.v_n_buf3 ∧
    (processSample m s f).1.v_n_buf4 = s.v_n_buf4 ∧ (processSample m s f).1.v_n_buf5 = s.v_n_buf5 :=
  ⟨rfl, rfl, rfl, rfl, rfl, rfl⟩

theorem processBlock_bases (m : Libm K) (s : RubidiumDistortion K) (fs : List (Frame K)) :
    (processBlock m s fs).1.v_n_buf0 = s.v_n_buf0 ∧ (processBlock m s fs).1.v_n_buf1 = s.v_n_buf1 ∧
    (processBlock m s fs).1.v_n_buf2 = s.v_n_buf2 ∧ (processBlock m s fs).1.v_n_buf3 = s.v_n_buf3 ∧
    (processBlock m s fs).1.v_n_buf4 = s.v_n_buf4 ∧ (processBlock m s fs).1.v_n_buf5 = s.v_n_buf5 := by
  induction fs generalizing s with
  | nil => exact ⟨rfl, rfl, rfl, rfl, rfl, rfl⟩
  | cons f fs ih => exact ih (processSample m s f).1

theorem processSample_numSamples (m : Libm K) (s : RubidiumDistortion K) (f : Frame K) :
    (processSample m s f).1.dataBuffer.numSamples = s.dataBuffer.numSamples := rfl

theorem processBlock_numSamples (m : Libm K) (s : RubidiumDistortion K) (fs : List (Frame K)) :
    (processBlock m s fs).1.dataBuffer.numSamples = s.dataBuffer.numSamples := by
  induction fs generalizing s with
  | nil => rfl
  | cons f fs ih => exact (ih (processSample m s f).1).trans (processSample_numSamples m s f)

theorem prepare_numSamples (m : Libm K) (spec : ProcessSpec K) (c : Controls K)
    (s : RubidiumDistortion K) : (prepare m spec c s).dataBuffer.numSamples = 70000 := by
  rw [prepare_dataBuffer, zeroFill_numSamples]; rfl

/-- The positions reached from the prepared state, as integer bounds. -/
theorem reachable_positions (m : Libm K) (spec : ProcessSpec K) (cp : Controls K)
    (u : RubidiumDistortion K) (fs : List (Frame K)) :
    (0 ≤ (processBlock m (prepare m spec cp u.construct) fs).1.pos0 ∧
      (processBlock m (prepare m spec cp u.construct) fs).1.pos0 ≤ 882) ∧
    (0 ≤ (processBlock m (prepare m spec cp u.construct) fs).1.pos1 ∧
      (processBlock m (prepare m spec cp u.construct) fs).1.pos1 ≤ 882) ∧
    (0 ≤ (processBlock m (prepare m spec cp u.construct) fs).1.pos2 ∧
      (processBlock m (prepare m spec cp u.construct) fs).1.pos2 ≤ 42) ∧
    (0 ≤ (processBlock m (prepare m spec cp u.construct) fs).1.pos3 ∧
      (processBlock m (prepare m spec cp u.construct) fs).1.pos3 ≤ 42) ∧
    (0 ≤ (processBlock m (prepare m spec cp u.construct) fs).1.pos4 ∧
      (processBlock m (prepare m spec cp u.construct) fs).1.pos4 ≤ 42) ∧
    (0 ≤ (processBlock m (prepare m spec cp u.construct) fs).1.pos5 ∧
      (processBlock m (prepare m spec cp u.construct) fs).1.pos5 ≤ 42) := by
  have hb := prepare_bounded m spec cp u 0 0 (le_refl 0) (le_refl 0)
  obtain ⟨h0, h1, h2, h3, h4, h5⟩ := processBlock_positionsInRange m _ fs hb.pos
  obtain ⟨hl0, hl1⟩ := processBlock_buf_lengths m (prepare m spec cp u.construct) fs
  rw [hl0, hb.len0] at h0 h1
  rw [hl1, hb.len1] at h2 h3 h4 h5
  refine ⟨⟨h0.1, ?_⟩, ⟨h1.1, ?_⟩, ⟨h2.1, ?_⟩, ⟨h3.1, ?_⟩, ⟨h4.1, ?_⟩, ⟨h5.1, ?_⟩⟩
  · exact_mod_cast h0.2
  · exact_mod_cast h1.2
  · exact_mod_cast h2.2
  · exact_mod_cast h3.2
  · exact_mod_cast h4.2
  · exact_mod_cast h5.2

/-- C12: after `prepare` on a constructed instance (step ratio 11) and any
number of processed samples, the arena has 70000 slots, the base offsets are
1000, 2000, ..., 6000, the index `base_i + pos_i` that region `i` accesses
lies in `[base_i, base_i + 1000)` and below 70000, and two different regions
never access the same slot. -/
theorem regions_disjoint_in_arena (m : Libm K) (spec : ProcessSpec K) (cp : Controls K)
    (u : RubidiumDistortion K) (fs : List (Frame K)) :
    (processBlock m (prepare m spec cp u.construct) fs).1.dataBuffer.numSamples = 70000 ∧
    (∀ i : Fin 6,
      regionBase (processBlock m (prepare m spec cp u.construct) fs).1 i =
        1000 * ((i : Nat) + 1 : Int) ∧
      regionBase (processBlock m (prepare m spec cp u.construct) fs).1 i ≤
        regionIndex (processBlock m (prepare m spec cp u.construct) fs).1 i ∧
      regionIndex (processBlock m (prepare m spec cp u.construct) fs).1 i <
        regionBase (processBlock m (prepare m spec cp u.construct) fs).1 i + 1000 ∧
      regionIndex (processBlock m (prepare m spec cp u.construct) fs).1 i < 70000) ∧
    ∀ i j : Fin 6, i ≠ j →
      regionIndex (processBlock m (prepare m spec cp u.construct) fs).1 i ≠
        regionIndex (processBlock m (prepare m spec cp u.construct) fs).1 j := by
  obtain ⟨p0, p1, p2, p3, p4, p5⟩ := reachable_positions m spec cp u fs
  obtain ⟨b0, b1, b2, b3, b4, b5⟩ := processBlock_bases m (prepare m spec cp u.construct) fs
  have c0 : (prepare m spec cp u.construct).v_n_buf0 = 1000 := rfl
  have c1 : (prepare m spec cp u.construct).v_n_buf1 = 2000 := rfl
  have c2 : (prepare m spec cp u.construct).v_n_buf2 = 3000 := rfl
  have c3 : (prepare m spec cp u.construct).v_n_buf3 = 4000 := rfl
  have c4 : (prepare m spec cp u.construct).v_n_buf4 = 5000 := rfl
  have c5 : (prepare m spec cp u.construct).v_n_buf5 = 6000 := rfl
  rw [c0] at b0; rw [c1] at b1; rw [c2] at b2; rw [c3] at b3; rw [c4] at b4; rw [c5] at b5
  refine ⟨?_, ?_, ?_⟩
  · rw [processBlock_numSamples, prepare_numSamples]
  · intro i
    fin_cases i <;>
      simp [regionIndex, regionBase_zero, regionBase_one, regionBase_two, regionBase_three,
        regionBase_four, regionBase_five, regionPos_zero, regionPos_one, regionPos_two,
        regionPos_three, regionPos_four, regionPos_five, b0, b1, b2, b3, b4, b5] <;> omega
  · intro i j hij
    fin_cases i <;> fin_cases j <;>
      simp [regionIndex, regionBase_zero, regionBase_one, regionBase_two, regionBase_three,
        regionBase_four, regionBase_five, regionPos_zero, regionPos_one, regionPos_two,
        regionPos_three, regionPos_four, regionPos_five, b0, b1, b2, b3, b4, b5] at hij ⊢ <;>
      omega

end RegionIndependence

end Rubidium

namespace Rubidium

section PureDelay

variable {K : Type}

theorem cells_untouched [Zero K] (L : Nat) (C : Nat → Int → K) (w : Nat → K)
    (h0 : ∀ j : Int, 0 ≤ j → j ≤ (L : Int) → C 0 j = 0)
    (hstep : ∀ (n : Nat) (j : Int), 0 ≤ j → j ≤ (L : Int) →
      C (n + 1) j = if j = (n : Int) % ((L : Int) + 1) then w n else C n j)
    (n : Nat) (j : Int) (hn : (n : Int) ≤ j) (hj : j ≤ (L : Int)) : C n j = 0 := by
  induction n with
  | zero => exact h0 j (by simpa using hn) hj
  | succ n ih =>
    have hnj : (n : Int) < j := by push_cast at hn; omega
    have hmod : (n : Int) % ((L : Int) + 1) = n := Int.emod_eq_of_lt (by omega) (by omega)
    rw [hstep n j (by omega) hj, hmod, if_neg (by omega)]
    exact ih (by omega)

theorem cell_keeps_write (L : Nat) (C : Nat → Int → K) (w : Nat → K)
    (hstep : ∀ (n : Nat) (j : Int), 0 ≤ j → j ≤ (L : Int) →
      C (n + 1) j = if j = (n : Int) % ((L : Int) + 1) then w n else C n j)
    (k d : Nat) (hd : d ≤ L) :
    C (k + d + 1) ((k : Int) % ((L : Int) + 1)) = w k := by
  have hpos : (0 : Int) < (L : Int) + 1 := by omega
  have hr0 : 0 ≤ (k : Int) % ((L : Int) + 1) := Int.emod_nonneg _ (by omega)
  have hr1 : (k : Int) % ((L : Int) + 1) ≤ (L : Int) := by
    have := Int.emod_lt_of_pos (k : Int) hpos
    omega
  induction d with
  | zero => rw [Nat.add_zero, hstep k _ hr0 hr1, if_pos rfl]
  | succ d ih =>
    have hne : (k : Int) % ((L : Int) + 1) ≠ ((k + (d + 1) : Nat) : Int) % ((L : Int) + 1) := by
      intro h
      have h3 : (((k + (d + 1) : Nat) : Int) - (k : Int)) % ((L : Int) + 1) = 0 :=
        Int.emod_eq_emod_iff_emod_sub_eq_zero.mp h.symm
      have h4 : ((L : Int) + 1) ∣ ((d : Int) + 1) := by
        have := Int.dvd_of_emod_eq_zero h3
        push_cast at this
        have h5 : (k : Int) + ((d : Int) + 1) - (k : Int) = (d : Int) + 1 := by ring
        rwa [h5] at this
      have := Int.le_of_dvd (by omega) h4
      omega
    rw [show k + (d + 1) + 1 = (k + (d + 1)) + 1 from rfl, hstep (k + (d + 1)) _ hr0 hr1,
      if_neg hne]
    exact ih (by omega)

/-- A circular buffer of `L + 1` cells that starts from zero and at step `n`
overwrites cell `n mod (L + 1)` with `w n` holds, in the cell it is about to
overwrite, 0 during the first `L + 1` steps and `w (n - (L + 1))` afterwards. -/
theorem circular_buffer_delay [Zero K] (L : Nat) (C : Nat → Int → K) (w : Nat → K)
    (h0 : ∀ j : Int, 0 ≤ j → j ≤ (L : Int) → C 0 j = 0)
    (hstep : ∀ (n : Nat) (j : Int), 0 ≤ j → j ≤ (L : Int) →
      C (n + 1) j = if j = (n : Int) % ((L : Int) + 1) then w n else C n j)
    (n : Nat) :
    (n < L + 1 → C n ((n : Int) % ((L : Int) + 1)) = 0) ∧
      (L + 1 ≤ n → C n ((n : Int) % ((L : Int) + 1)) = w (n - (L + 1))) := by
  constructor
  · intro hn
    have hmod : (n : Int) % ((L : Int) + 1) = n := Int.emod_eq_of_lt (by omega) (by omega)
    rw [hmod]
    exact cells_untouched L C w h0 hstep n n (le_refl _) (by omega)
  · intro hn
    obtain ⟨k, rfl⟩ : ∃ k, n = k + L + 1 := ⟨n - (L + 1), by omega⟩
    have hmod : ((k + L + 1 : Nat) : Int) % ((L : Int) + 1) = (k : Int) % ((L : Int) + 1) := by
      push_cast
      rw [add_assoc, Int.add_emod_self]
    rw [hmod, cell_keeps_write L C w hstep k L (le_refl _)]
    congr 1
    omega

end PureDelay

end Rubidium

namespace Rubidium

section DelayStep

variable {K : Type} [LinearOrderedField K]

theorem lowLevelHysteresis_g0 (s : RubidiumDistortion K) (hg : s.g = 0) :
    (lowLevelHysteresis s).1.dataBuffer.data =
        Function.update (Function.update s.dataBuffer.data (s.v_n_buf0 + s.pos0)
          (s.ap1_y + s.cDenorm)) (s.v_n_buf1 + s.pos1) (s.ap1_z + s.cDenorm) ∧
      (lowLevelHysteresis s).2.1 = s.dataBuffer.data (s.v_n_buf0 + s.pos0) ∧
      (lowLevelHysteresis s).2.2 =
        Function.update s.dataBuffer.data (s.v_n_buf0 + s.pos0) (s.ap1_y + s.cDenorm)
          (s.v_n_buf1 + s.pos1) := by
  simp only [lowLevelHysteresis, hg, AudioBuffer.setSample, AudioBuffer.getSample, neg_zero,
    mul_zero, add_zero, zero_add, and_self]

theorem nestedAllpass_g0 (s : RubidiumDistortion K) (a b : K) (hg : s.g = 0) :
    (nestedAllpass s a b).1.dataBuffer.data =
        Function.update (Function.update (Function.update (Function.update s.dataBuffer.data
          (s.v_n_buf2 + s.pos2) (a + s.cDenorm)) (s.v_n_buf3 + s.pos3) (b + s.cDenorm))
          (s.v_n_buf4 + s.pos4) (s.delta0 + s.cDenorm))
          (s.v_n_buf5 + s.pos5) (s.delta1 + s.cDenorm) ∧
      (nestedAllpass s a b).2.1 = s.dataBuffer.data (s.v_n_buf2 + s.pos2) ∧
      (nestedAllpass s a b).2.2 =
        Function.update s.dataBuffer.data (s.v_n_buf2 + s.pos2) (a + s.cDenorm)
          (s.v_n_buf3 + s.pos3) ∧
      (nestedAllpass s a b).1.delta0 =
        Function.update (Function.update s.dataBuffer.data (s.v_n_buf2 + s.pos2)
          (a + s.cDenorm)) (s.v_n_buf3 + s.pos3) (b + s.cDenorm) (s.v_n_buf4 + s.pos4) ∧
      (nestedAllpass s a b).1.delta1 =
        Function.update (Function.update (Function.update s.dataBuffer.data
          (s.v_n_buf2 + s.pos2) (a + s.cDenorm)) (s.v_n_buf3 + s.pos3) (b + s.cDenorm))
          (s.v_n_buf4 + s.pos4) (s.delta0 + s.cDenorm) (s.v_n_buf5 + s.pos5) := by
  simp only [nestedAllpass, hg, AudioBuffer.setSample, AudioBuffer.getSample, neg_zero,
    mul_zero, add_zero, zero_add, and_self]

/-- With `g = 0` and the prepared constants one sample applies six writes to
the arena, one per region, each storing the region's input plus `1e-30`. -/
theorem processSample_data_g0 (m : Libm K) (s : RubidiumDistortion K) (f : Frame K)
    (L0 L1 : Nat) (hc : DelayConsts L0 L1 s) :
    (processSample m s f).1.dataBuffer.data =
      Function.update (Function.update (Function.update (Function.update (Function.update
        (Function.update s.dataBuffer.data (1000 + s.pos0) (delayIn m s f 0 + 1e-30))
          (2000 + s.pos1) (delayIn m s f 1 + 1e-30))
          (3000 + s.pos2) (delayIn m s f 2 + 1e-30))
          (4000 + s.pos3) (delayIn m s f 3 + 1e-30))
          (5000 + s.pos4) (delayIn m s f 4 + 1e-30))
          (6000 + s.pos5) (delayIn m s f 5 + 1e-30) := by
  have hlow := (lowLevelHysteresis_g0
    (deltaHysteresis (updateCoefficients m f.controls s)
      (saturation m f.controls (updateCoefficients m f.controls s) f.in0 f.in1).1
      (saturation m f.controls (updateCoefficients m f.controls s) f.in0 f.in1).2.1) hc.g_eq).1
  have hfront : (processSampleFront m s f).1.dataBuffer.data =
      Function.update (Function.update s.dataBuffer.data (s.v_n_buf0 + s.pos0)
          ((processSampleFront m s f).1.ap1_y + s.cDenorm)) (s.v_n_buf1 + s.pos1)
          ((processSampleFront m s f).1.ap1_z + s.cDenorm) := hlow
  have hap := (nestedAllpass_g0 (processSampleFront m s f).1 (processSampleFront m s f).2.1
    (processSampleFront m s f).2.2.1 hc.g_eq).1
  have hfin : (processSample m s f).1.dataBuffer.data =
      (nestedAllpass (processSampleFront m s f).1 (processSampleFront m s f).2.1
        (processSampleFront m s f).2.2.1).1.dataBuffer.data := rfl
  rw [hfin, hap, hfront]
  show Function.update (Function.update (Function.update (Function.update (Function.update
        (Function.update s.dataBuffer.data (s.v_n_buf0 + s.pos0) (delayIn m s f 0 + s.cDenorm))
          (s.v_n_buf1 + s.pos1) (delayIn m s f 1 + s.cDenorm))
          (s.v_n_buf2 + s.pos2) (delayIn m s f 2 + s.cDenorm))
          (s.v_n_buf3 + s.pos3) (delayIn m s f 3 + s.cDenorm))
          (s.v_n_buf4 + s.pos4) (delayIn m s f 4 + s.cDenorm))
          (s.v_n_buf5 + s.pos5) (delayIn m s f 5 + s.cDenorm) = _
  rw [hc.base0, hc.base1, hc.base2, hc.base3, hc.base4, hc.base5, hc.cDenorm_eq]

theorem regionLength_lt (L0 L1 : Nat) (h0 : L0 < 1000) (h1 : L1 < 1000) (i : Fin 6) :
    regionLength L0 L1 i < 1000 := by
  fin_cases i <;> simp [regionLength] <;> assumption

/-- After one sample from a state whose positions are in range, a slot of
region `i` holds the region's input plus `1e-30` if it is the slot at the
region's position, and its old content otherwise. -/
theorem processSample_region_data (m : Libm K) (s : RubidiumDistortion K) (f : Frame K)
    (L0 L1 : Nat) (hc : DelayConsts L0 L1 s)
    (hr : ∀ i : Fin 6, 0 ≤ regionPos s i ∧ regionPos s i ≤ (regionLength L0 L1 i : Int))
    (i : Fin 6) (j : Int) (hj0 : 0 ≤ j) (hj1 : j ≤ (regionLength L0 L1 i : Int)) :
    (processSample m s f).1.dataBuffer.data (regionBase s i + j) =
      if j = regionPos s i then delayIn m s f i + 1e-30
      else s.dataBuffer.data (regionBase s i + j) := by
  have hl0 := hc.len0_lt
  have hl1 := hc.len1_lt
  have r0 := hr 0
  have r1 := hr 1
  have r2 := hr 2
  have r3 := hr 3
  have r4 := hr 4
  have r5 := hr 5
  simp only [regionPos_zero, regionPos_one, regionPos_two, regionPos_three, regionPos_four,
    regionPos_five, regionLength_zero, regionLength_one, regionLength_two, regionLength_three,
    regionLength_four, regionLength_five] at r0 r1 r2 r3 r4 r5
  have hd := processSample_data_g0 m s f L0 L1 hc
  fin_cases i
  · simp only [Fin.zero_eta, regionBase_zero, regionPos_zero, regionLength_zero, hc.base0] at hj1 ⊢
    rw [hd]
    rw [Function.update_noteq (by omega), Function.update_noteq (by omega),
      Function.update_noteq (by omega), Function.update_noteq (by omega),
      Function.update_noteq (by omega), Function.update_apply]
    simp only [add_right_inj]
  · simp only [Fin.mk_one, regionBase_one, regionPos_one, regionLength_one, hc.base1] at hj1 ⊢
    rw [hd]
    rw [Function.update_noteq (by omega), Function.update_noteq (by omega),
      Function.update_noteq (by omega), Function.update_noteq (by omega),
      Function.update_apply]
    simp only [add_right_inj]
    split_ifs
    · rfl
    · rw [Function.update_noteq (by omega)]
  · simp only [Fin.reduceFinMk, regionBase_two, regionPos_two, regionLength_two, hc.base2] at hj1 ⊢
    rw [hd]
    rw [Function.update_noteq (by omega), Function.update_noteq (by omega),
      Function.update_noteq (by omega), Function.update_apply]
    simp only [add_right_inj]
    split_ifs
    · rfl
    · rw [Function.update_noteq (by omega), Function.update_noteq (by omega)]
  · simp only [Fin.reduceFinMk, regionBase_three, regionPos_three, regionLength_three,
      hc.base3] at hj1 ⊢
    rw [hd]
    rw [Function.update_noteq (by omega), Function.update_noteq (by omega),
      Function.update_apply]
    simp only [add_right_inj]
    split_ifs
    · rfl
    · rw [Function.update_noteq (by omega), Function.update_noteq (by omega),
        Function.update_noteq (by omega)]
  · simp only [Fin.reduceFinMk, regionBase_four, regionPos_four, regionLength_four,
      hc.base4] at hj1 ⊢
    rw [hd]
    rw [Function.update_noteq (by omega), Function.update_apply]
    simp only [add_right_inj]
    split_ifs
    · rfl
    · rw [Function.update_noteq (by omega), Function.update_noteq (by omega),
        Function.update_noteq (by omega), Function.update_noteq (by omega)]
  · simp only [Fin.reduceFinMk, regionBase_five, regionPos_five, regionLength_five,
      hc.base5] at hj1 ⊢
    rw [hd]
    rw [Function.update_apply]
    simp only [add_right_inj]
    split_ifs
    · rfl
    · rw [Function.update_noteq (by omega), Function.update_noteq (by omega),
        Function.update_noteq (by omega), Function.update_noteq (by omega),
        Function.update_noteq (by omega)]

/-- With `g = 0` the output of region `i` is the content of the slot at the
region's position when the sample starts. -/
theorem delayOut_eq_stored (m : Libm K) (s : RubidiumDistortion K) (f : Frame K)
    (L0 L1 : Nat) (hc : DelayConsts L0 L1 s)
    (hr : ∀ i : Fin 6, 0 ≤ regionPos s i ∧ regionPos s i ≤ (regionLength L0 L1 i : Int))
    (i : Fin 6) : delayOut m s f i = s.dataBuffer.data (regionIndex s i) := by
  have hl0 := hc.len0_lt
  have hl1 := hc.len1_lt
  have r0 := hr 0
  have r1 := hr 1
  have r2 := hr 2
  have r3 := hr 3
  have r4 := hr 4
  have r5 := hr 5
  simp only [regionPos_zero, regionPos_one, regionPos_two, regionPos_three, regionPos_four,
    regionPos_five, regionLength_zero, regionLength_one, regionLength_two, regionLength_three,
    regionLength_four, regionLength_five] at r0 r1 r2 r3 r4 r5
  obtain ⟨hlow, hout0, hout1⟩ := lowLevelHysteresis_g0
    (deltaHysteresis (updateCoefficients m f.controls s)
      (saturation m f.controls (updateCoefficients m f.controls s) f.in0 f.in1).1
      (saturation m f.controls (updateCoefficients m f.controls s) f.in0 f.in1).2.1) hc.g_eq
  have hfront : (processSampleFront m s f).1.dataBuffer.data =
      Function.update (Function.update s.dataBuffer.data (s.v_n_buf0 + s.pos0)
          ((processSampleFront m s f).1.ap1_y + s.cDenorm)) (s.v_n_buf1 + s.pos1)
          ((processSampleFront m s f).1.ap1_z + s.cDenorm) := hlow
  obtain ⟨-, hout2, hout3, hout4, hout5⟩ := nestedAllpass_g0 (processSampleFront m s f).1
    (processSampleFront m s f).2.1 (processSampleFront m s f).2.2.1 hc.g_eq
  rw [hfront] at hout2 hout3 hout4 hout5
  fin_cases i
  · exact hout0
  · refine Eq.trans hout1 ?_
    show Function.update s.dataBuffer.data (s.v_n_buf0 + s.pos0) _ (s.v_n_buf1 + s.pos1) =
      s.dataBuffer.data (s.v_n_buf1 + s.pos1)
    rw [hc.base0, hc.base1, Function.update_noteq (by omega)]
  · refine Eq.trans hout2 ?_
    show Function.update (Function.update s.dataBuffer.data (s.v_n_buf0 + s.pos0) _)
      (s.v_n_buf1 + s.pos1) _ (s.v_n_buf2 + s.pos2) = s.dataBuffer.data (s.v_n_buf2 + s.pos2)
    rw [hc.base0, hc.base1, hc.base2, Function.update_noteq (by omega),
      Function.update_noteq (by omega)]
  · refine Eq.trans hout3 ?_
    show Function.update (Function.update (Function.update s.dataBuffer.data
      (s.v_n_buf0 + s.pos0) _) (s.v_n_buf1 + s.pos1) _) (s.v_n_buf2 + s.pos2) _
      (s.v_n_buf3 + s.pos3) = s.dataBuffer.data (s.v_n_buf3 + s.pos3)
    rw [hc.base0, hc.base1, hc.base2, hc.base3, Function.update_noteq (by omega),
      Function.update_noteq (by omega), Function.update_noteq (by omega)]
  · refine Eq.trans hout4 ?_
    show Function.update (Function.update (Function.update (Function.update s.dataBuffer.data
      (s.v_n_buf0 + s.pos0) _) (s.v_n_buf1 + s.pos1) _) (s.v_n_buf2 + s.pos2) _)
      (s.v_n_buf3 + s.pos3) _ (s.v_n_buf4 + s.pos4) = s.dataBuffer.data (s.v_n_buf4 + s.pos4)
    rw [hc.base0, hc.base1, hc.base2, hc.base3, hc.base4, Function.update_noteq (by omega),
      Function.update_noteq (by omega), Function.update_noteq (by omega),
      Function.update_noteq (by omega)]
  · refine Eq.trans hout5 ?_
    show Function.update (Function.update (Function.update (Function.update (Function.update
      s.dataBuffer.data (s.v_n_buf0 + s.pos0) _) (s.v_n_buf1 + s.pos1) _)
      (s.v_n_buf2 + s.pos2) _) (s.v_n_buf3 + s.pos3) _) (s.v_n_buf4 + s.pos4) _
      (s.v_n_buf5 + s.pos5) = s.dataBuffer.data (s.v_n_buf5 + s.pos5)
    rw [hc.base0, hc.base1, hc.base2, hc.base3, hc.base4, hc.base5,
      Function.update_noteq (by omega), Function.update_noteq (by omega),
      Function.update_noteq (by omega), Function.update_noteq (by omega),
      Function.update_noteq (by omega)]

theorem processSample_delayConsts (m : Libm K) (s : RubidiumDistortion K) (f : Frame K)
    (L0 L1 : Nat) (hc : DelayConsts L0 L1 s) : DelayConsts L0 L1 (processSample m s f).1 :=
  ⟨hc.g_eq, hc.cDenorm_eq, hc.base0, hc.base1, hc.base2, hc.base3, hc.base4, hc.base5, hc.len0,
    hc.len1, hc.len0_lt, hc.len1_lt⟩

/-- One sample advances every in-range position by one modulo `length + 1`. -/
theorem processSample_regionPos (m : Libm K) (s : RubidiumDistortion K) (f : Frame K)
    (L0 L1 : Nat) (hc : DelayConsts L0 L1 s)
    (hr : ∀ i : Fin 6, 0 ≤ regionPos s i ∧ regionPos s i ≤ (regionLength L0 L1 i : Int))
    (i : Fin 6) :
    regionPos (processSample m s f).1 i =
      (regionPos s i + 1) % ((regionLength L0 L1 i : Int) + 1) := by
  have hi := hr i
  fin_cases i
  · exact (processSample_pos0 m s f).trans (wrap_eq_emod _ L0 _ hc.len0 hi.1 hi.2)
  · exact (processSample_pos1 m s f).trans (wrap_eq_emod _ L0 _ hc.len0 hi.1 hi.2)
  · exact (processSample_pos2 m s f).trans (wrap_eq_emod _ L1 _ hc.len1 hi.1 hi.2)
  · exact (processSample_pos3 m s f).trans (wrap_eq_emod _ L1 _ hc.len1 hi.1 hi.2)
  · exact (processSample_pos4 m s f).trans (wrap_eq_emod _ L1 _ hc.len1 hi.1 hi.2)
  · exact (processSample_pos5 m s f).trans (wrap_eq_emod _ L1 _ hc.len1 hi.1 hi.2)

end DelayStep

end Rubidium

namespace Rubidium

section PureDelayRegions

variable {K : Type} [LinearOrderedField K]

theorem stateAt_eq_processBlock (m : Libm K) (s : RubidiumDistortion K) (fr : Nat → Frame K)
    (n : Nat) : stateAt m s fr n = (processBlock m s ((List.range n).map fr)).1 := by
  induction n with
  | zero => rfl
  | succ n ih =>
    rw [List.range_succ, List.map_append, processBlock_append, ← ih]
    rfl

theorem DelayConsts.regionBase_eq {L0 L1 : Nat} {s : RubidiumDistortion K}
    (hc : DelayConsts L0 L1 s) (i : Fin 6) : regionBase s i = 1000 * ((i : Nat) + 1 : Int) := by
  fin_cases i
  · exact hc.base0
  · exact hc.base1
  · exact hc.base2
  · exact hc.base3
  · exact hc.base4
  · exact hc.base5

/-- Along the run from a ready state the constants persist and every position
is the sample count modulo `length + 1`. -/
theorem stateAt_delay_invariant (m : Libm K) (s : RubidiumDistortion K) (fr : Nat → Frame K)
    (L0 L1 : Nat) (hs : DelayReady L0 L1 s) (n : Nat) :
    DelayConsts L0 L1 (stateAt m s fr n) ∧
      ∀ i : Fin 6, regionPos (stateAt m s fr n) i =
        (n : Int) % ((regionLength L0 L1 i : Int) + 1) := by
  induction n with
  | zero =>
    refine ⟨hs.consts, fun i => ?_⟩
    rw [show stateAt m s fr 0 = s from rfl, hs.pos_eq i]
    simp
  | succ n ih =>
    obtain ⟨hc, hp⟩ := ih
    have hr : ∀ i : Fin 6, 0 ≤ regionPos (stateAt m s fr n) i ∧
        regionPos (stateAt m s fr n) i ≤ (regionLength L0 L1 i : Int) := by
      intro i
      rw [hp i]
      have h1 := Int.emod_nonneg (n : Int) (by omega : (regionLength L0 L1 i : Int) + 1 ≠ 0)
      have h2 := Int.emod_lt_of_pos (n : Int) (by omega : (0 : Int) < (regionLength L0 L1 i : Int) + 1)
      exact ⟨h1, by omega⟩
    refine ⟨processSample_delayConsts m _ (fr n) L0 L1 hc, fun i => ?_⟩
    rw [show stateAt m s fr (n + 1) = (processSample m (stateAt m s fr n) (fr n)).1 from rfl,
      processSample_regionPos m _ (fr n) L0 L1 hc hr i, hp i, Int.emod_add_emod]
    push_cast
    rfl

/-- With `g = 0`, from a ready state, region `i` outputs 0 during its first
`length + 1` samples and afterwards its input of `length + 1` samples earlier
plus `1e-30`. -/
theorem delayOut_pure_delay (m : Libm K) (s : RubidiumDistortion K) (fr : Nat → Frame K)
    (L0 L1 : Nat) (hs : DelayReady L0 L1 s) (i : Fin 6) (n : Nat) :
    (n < regionLength L0 L1 i + 1 → delayOut m (stateAt m s fr n) (fr n) i = 0) ∧
      (regionLength L0 L1 i + 1 ≤ n →
        delayOut m (stateAt m s fr n) (fr n) i =
          delayIn m (stateAt m s fr (n - (regionLength L0 L1 i + 1)))
            (fr (n - (regionLength L0 L1 i + 1))) i + 1e-30) := by
  have hinv := stateAt_delay_invariant m s fr L0 L1 hs
  have hbase : ∀ k, regionBase (stateAt m s fr k) i = regionBase s i := fun k =>
    ((hinv k).1.regionBase_eq i).trans (hs.consts.regionBase_eq i).symm
  have hrange : ∀ k (i : Fin 6), 0 ≤ regionPos (stateAt m s fr k) i ∧
      regionPos (stateAt m s fr k) i ≤ (regionLength L0 L1 i : Int) := by
    intro k i
    rw [(hinv k).2 i]
    have h1 := Int.emod_nonneg (k : Int) (by omega : (regionLength L0 L1 i : Int) + 1 ≠ 0)
    have h2 := Int.emod_lt_of_pos (k : Int) (by omega : (0 : Int) < (regionLength L0 L1 i : Int) + 1)
    exact ⟨h1, by omega⟩
  have hout : delayOut m (stateAt m s fr n) (fr n) i =
      (stateAt m s fr n).dataBuffer.data
        (regionBase s i + (n : Int) % ((regionLength L0 L1 i : Int) + 1)) := by
    rw [delayOut_eq_stored m _ (fr n) L0 L1 (hinv n).1 (hrange n) i, regionIndex, hbase n,
      (hinv n).2 i]
  rw [hout]
  exact circular_buffer_delay (regionLength L0 L1 i)
    (fun k j => (stateAt m s fr k).dataBuffer.data (regionBase s i + j))
    (fun k => delayIn m (stateAt m s fr k) (fr k) i + 1e-30)
    (fun j h0 h1 => hs.zero i j h0 h1)
    (fun k j h0 h1 => by
      show (processSample m (stateAt m s fr k) (fr k)).1.dataBuffer.data (regionBase s i + j) = _
      rw [← hbase k, processSample_region_data m _ (fr k) L0 L1 (hinv k).1 (hrange k) i j h0 h1,
        (hinv k).2 i]) n

theorem prepare_delayReady (m : Libm K) (spec : ProcessSpec K) (cp : Controls K)
    (u : RubidiumDistortion K) : DelayReady 882 42 (prepare m spec cp u.construct) := by
  have hl0 : (prepare m spec cp u.construct).buf_length0 = ((882 : Nat) : K) := by
    rw [prepare_buf_length0_eq]; norm_num
  have hl1 : (prepare m spec cp u.construct).buf_length1 = ((42 : Nat) : K) := by
    rw [prepare_buf_length1_eq]; norm_num
  have hc : DelayConsts 882 42 (prepare m spec cp u.construct) :=
    ⟨rfl, rfl, rfl, rfl, rfl, rfl, rfl, rfl, hl0, hl1, by norm_num, by norm_num⟩
  refine ⟨hc, ?_, ?_⟩
  · intro i
    fin_cases i <;> rfl
  · intro i j h0 h1
    have hL := regionLength_lt 882 42 (by norm_num) (by norm_num) i
    have hi := i.isLt
    rw [hc.regionBase_eq i, prepare_dataBuffer]
    exact zeroFill_getSample 70000 _ _ (by omega) (by omega)

theorem stateAt_second_states (m : Libm K) (s : RubidiumDistortion K) (fr : Nat → Frame K)
    (h : s.h2 = 0 ∧ s.h3 = 0 ∧ s.l2 = 0 ∧ s.l3 = 0) (n : Nat) :
    (stateAt m s fr n).h2 = 0 ∧ (stateAt m s fr n).h3 = 0 ∧
      (stateAt m s fr n).l2 = 0 ∧ (stateAt m s fr n).l3 = 0 := by
  obtain ⟨e2, e3, e4, e5⟩ := processBlock_second_states m s ((List.range n).map fr)
  rw [stateAt_eq_processBlock]
  exact ⟨e2.trans h.1, e3.trans h.2.1, e4.trans h.2.2.1, e5.trans h.2.2.2⟩

end PureDelayRegions

end Rubidium

namespace Rubidium

section CoefficientWitnesses

/-- C14, at the real-valued routines with `hys0 = 0.5`, `hys1 = 2`: a negative
delay output adds `hys1 * hys0`, a delay output of 1 adds nothing. -/
theorem hysteresis_increment_range_witness :
    (∀ x, (Libm.mk Real.rpow Real.exp (fun x => Real.log x / Real.log 10) Real.arctan
        Real.sqrt (2 * Real.pi)
        (fun dB => if dB > -100 then Real.rpow 10 (dB * 0.05) else 0)).sqrt x = Real.sqrt x) ∧
    ((0 : ℝ) ≤ 0.5 ∧ (0 : ℝ) ≤ 2) ∧
    ((hysteresisRectify (Libm.mk Real.rpow Real.exp (fun x => Real.log x / Real.log 10) Real.arctan
        Real.sqrt (2 * Real.pi)
        (fun dB => if dB > -100 then Real.rpow 10 (dB * 0.05) else 0))
        { (RubidiumDistortion.allZero : RubidiumDistortion ℝ) with hys0 := 0.5, hys1 := 2 }
        (-1) 1).delta0 - 0 = 2 * 0.5 ∧
      (hysteresisRectify (Libm.mk Real.rpow Real.exp (fun x => Real.log x / Real.log 10) Real.arctan
        Real.sqrt (2 * Real.pi)
        (fun dB => if dB > -100 then Real.rpow 10 (dB * 0.05) else 0))
        { (RubidiumDistortion.allZero : RubidiumDistortion ℝ) with hys0 := 0.5, hys1 := 2 }
        (-1) 1).delta1 - 0 = 0) :=
  ⟨fun _ => rfl, ⟨by norm_num, by norm_num⟩,
    ⟨(hysteresis_increment_range (Libm.mk Real.rpow Real.exp (fun x => Real.log x / Real.log 10) Real.arctan
        Real.sqrt (2 * Real.pi)
        (fun dB => if dB > -100 then Real.rpow 10 (dB * 0.05) else 0)) (fun _ => rfl)
      { (RubidiumDistortion.allZero : RubidiumDistortion ℝ) with hys0 := 0.5, hys1 := 2 }
      (-1) 1 (by norm_num) (by norm_num)).1.2.1 (by norm_num),
     (hysteresis_increment_range (Libm.mk Real.rpow Real.exp (fun x => Real.log x / Real.log 10) Real.arctan
        Real.sqrt (2 * Real.pi)
        (fun dB => if dB > -100 then Real.rpow 10 (dB * 0.05) else 0)) (fun _ => rfl)
      { (RubidiumDistortion.allZero : RubidiumDistortion ℝ) with hys0 := 0.5, hys1 := 2 }
      (-1) 1 (by norm_num) (by norm_num)).2.2.2 (by norm_num)⟩⟩

/-- C15, at the real-valued routines on the constructed instance with every
control at 0. -/
theorem hysteresis_cutoff_coefficients_witness :
    (Libm.mk Real.rpow Real.exp (fun x => Real.log x / Real.log 10) Real.arctan
        Real.sqrt (2 * Real.pi)
        (fun dB => if dB > -100 then Real.rpow 10 (dB * 0.05) else 0)).IsReal ∧
    ((RubidiumDistortion.allZero : RubidiumDistortion ℝ).construct.rand0 = 0.02 ∧
      (RubidiumDistortion.allZero : RubidiumDistortion ℝ).construct.rand1 = 0.09) ∧
    (updateCoefficients (Libm.mk Real.rpow Real.exp (fun x => Real.log x / Real.log 10) Real.arctan
        Real.sqrt (2 * Real.pi)
        (fun dB => if dB > -100 then Real.rpow 10 (dB * 0.05) else 0)) ⟨0, 0, 0, 0, 0⟩
        (RubidiumDistortion.allZero : RubidiumDistortion ℝ).construct).cut0 =
      2 * Real.pi * (0 + 0.02) *
        (RubidiumDistortion.allZero : RubidiumDistortion ℝ).construct.dt :=
  ⟨isReal_mk, ⟨rfl, rfl⟩,
    (hysteresis_cutoff_coefficients (Libm.mk Real.rpow Real.exp (fun x => Real.log x / Real.log 10) Real.arctan
        Real.sqrt (2 * Real.pi)
        (fun dB => if dB > -100 then Real.rpow 10 (dB * 0.05) else 0)) isReal_mk ⟨0, 0, 0, 0, 0⟩
      (RubidiumDistortion.allZero : RubidiumDistortion ℝ).construct rfl rfl).2.2.1⟩

/-- C18, at the real-valued routines with mojo 50. -/
theorem gain_floor_unreachable_witness :
    (Libm.mk Real.rpow Real.exp (fun x => Real.log x / Real.log 10) Real.arctan
        Real.sqrt (2 * Real.pi)
        (fun dB => if dB > -100 then Real.rpow 10 (dB * 0.05) else 0)).IsReal ∧ ((0 : ℝ) ≤ 50 ∧ (50 : ℝ) ≤ 100) ∧
    0 < (updateCoefficients (Libm.mk Real.rpow Real.exp (fun x => Real.log x / Real.log 10) Real.arctan
        Real.sqrt (2 * Real.pi)
        (fun dB => if dB > -100 then Real.rpow 10 (dB * 0.05) else 0)) ⟨0, 0, 0, 50, 0⟩
      (RubidiumDistortion.allZero : RubidiumDistortion ℝ)).gain :=
  ⟨isReal_mk, ⟨by norm_num, by norm_num⟩,
    (gain_floor_unreachable (Libm.mk Real.rpow Real.exp (fun x => Real.log x / Real.log 10) Real.arctan
        Real.sqrt (2 * Real.pi)
        (fun dB => if dB > -100 then Real.rpow 10 (dB * 0.05) else 0)) isReal_mk ⟨0, 0, 0, 50, 0⟩
      (RubidiumDistortion.allZero : RubidiumDistortion ℝ) (by norm_num) (by norm_num)).2.2.1⟩

end CoefficientWitnesses

end Rubidium

namespace Rubidium

section FloatingArithmetic

variable {K : Type} [LinearOrderedField K]

@[simp] theorem Fp.fin_add_fin (x y : K) : (Fp.fin x + Fp.fin y : Fp K) = Fp.fin (x + y) := rfl

@[simp] theorem Fp.fin_mul_fin (x y : K) : (Fp.fin x * Fp.fin y : Fp K) = Fp.fin (x * y) := rfl

@[simp] theorem Fp.neg_fin (x : K) : (-(Fp.fin x) : Fp K) = Fp.fin (-x) := rfl

@[simp] theorem Fp.fin_sub_fin (x y : K) : (Fp.fin x - Fp.fin y : Fp K) = Fp.fin (x - y) := rfl

theorem Fp.fin_div_fin (x y : K) (h : y ≠ 0) : (Fp.fin x / Fp.fin y : Fp K) = Fp.fin (x / y) := by
  show Fp.div (Fp.fin x) (Fp.fin y) = _
  rw [Fp.div, if_neg h]

@[simp] theorem Fp.nan_add (a : Fp K) : (Fp.nan + a : Fp K) = Fp.nan := by
  cases a <;> rfl

@[simp] theorem Fp.add_nan (a : Fp K) : (a + Fp.nan : Fp K) = Fp.nan := by
  cases a <;> rfl

@[simp] theorem Fp.nan_sub (a : Fp K) : (Fp.nan - a : Fp K) = Fp.nan := by
  cases a <;> rfl

@[simp] theorem Fp.sub_nan (a : Fp K) : (a - Fp.nan : Fp K) = Fp.nan := by
  cases a <;> rfl

@[simp] theorem Fp.nan_mul (a : Fp K) : (Fp.nan * a : Fp K) = Fp.nan := by
  cases a <;> rfl

@[simp] theorem Fp.mul_nan (a : Fp K) : (a * Fp.nan : Fp K) = Fp.nan := by
  cases a <;> rfl

@[simp] theorem Fp.nan_div (a : Fp K) : (Fp.nan / a : Fp K) = Fp.nan := by
  cases a <;> rfl

@[simp] theorem Fp.div_nan (a : Fp K) : (a / Fp.nan : Fp K) = Fp.nan := by
  cases a <;> rfl

@[simp] theorem Fp.toFloat_nan : Fp.toFloat (Fp.nan : Fp K) = Fp.nan := rfl

@[simp] theorem Fp.toFloat_posInf : Fp.toFloat (Fp.posInf : Fp K) = Fp.posInf := rfl

@[simp] theorem Fp.toFloat_negInf : Fp.toFloat (Fp.negInf : Fp K) = Fp.negInf := rfl

@[simp] theorem Fp.lt_fin_fin (x y : K) : Fp.lt (Fp.fin x) (Fp.fin y) = decide (x < y) := rfl

@[simp] theorem Fp.le_fin_fin (x y : K) : Fp.le (Fp.fin x) (Fp.fin y) = decide (x ≤ y) := rfl

@[simp] theorem Fp.eq_fin_fin (x y : K) : Fp.eq (Fp.fin x) (Fp.fin y) = decide (x = y) := rfl

theorem floatMax_pos : (0 : K) < floatMax := by
  unfold floatMax
  norm_num

theorem Fp.toFloat_fin (x : K) (h : |x| ≤ floatMax) : Fp.toFloat (Fp.fin x) = Fp.fin x := by
  have h1 := (abs_le.mp h).1
  have h2 := (abs_le.mp h).2
  rw [Fp.toFloat, if_neg (not_lt.mpr h2), if_neg (not_lt.mpr h1)]

theorem Fp.toFloat_fin_of_lt (x : K) (h : floatMax < x) : Fp.toFloat (Fp.fin x) = Fp.posInf := by
  rw [Fp.toFloat, if_pos h]

theorem Fp.toFloat_fin_of_lt_neg (x : K) (h : x < -floatMax) :
    Fp.toFloat (Fp.fin x) = Fp.negInf := by
  have h0 : ¬ floatMax < x := by
    have := floatMax_pos (K := K)
    intro h1
    linarith
  rw [Fp.toFloat, if_neg h0, if_pos h]

@[simp] theorem Fp.toFloat_zero : Fp.toFloat (Fp.fin (0 : K)) = Fp.fin 0 :=
  Fp.toFloat_fin 0 (by rw [abs_zero]; exact floatMax_pos.le)

end FloatingArithmetic

section Agreement

variable {K : Type} [LinearOrderedField K]

theorem deltaHysteresis_toFp (s : RubidiumDistortion K) (spl0 spl1 : K) :
    Ieee.deltaHysteresis s.toFp (.fin spl0) (.fin spl1) = (deltaHysteresis s spl0 spl1).toFp := rfl

theorem deltaLowpass_toFp (s : RubidiumDistortion K) :
    Ieee.deltaLowpass s.toFp = (deltaLowpass s).toFp := rfl

theorem signalHighpass_toFp (s : RubidiumDistortion K) (spl0 spl1 : K) :
    Ieee.signalHighpass s.toFp (.fin spl0) (.fin spl1) =
      ((signalHighpass s spl0 spl1).1.toFp, .fin (signalHighpass s spl0 spl1).2.1,
        .fin (signalHighpass s spl0 spl1).2.2) := rfl

theorem signalHighpassSecond_toFp (s : RubidiumDistortion K) (spl0 spl1 : K) :
    Ieee.signalHighpassSecond s.toFp (.fin spl0) (.fin spl1) =
      ((signalHighpassSecond s spl0 spl1).1.toFp, .fin (signalHighpassSecond s spl0 spl1).2.1,
        .fin (signalHighpassSecond s spl0 spl1).2.2) := rfl

theorem deltaLowpassSecond_toFp (s : RubidiumDistortion K) :
    Ieee.deltaLowpassSecond s.toFp = (deltaLowpassSecond s).toFp := rfl

omit [LinearOrderedField K] in
theorem setSample_toFp (b : AudioBuffer K) (i : Int) (v : K) :
    Ieee.setSample b.toFp i (.fin v) = (b.setSample i v).toFp := by
  simp only [Ieee.setSample, AudioBuffer.toFp, AudioBuffer.setSample, AudioBuffer.mk.injEq,
    true_and]
  funext j
  by_cases h : j = i
  · rw [h, Function.update_same, Function.update_same]
  · rw [Function.update_noteq h, Function.update_noteq h]

omit [LinearOrderedField K] in
theorem getSample_toFp (b : AudioBuffer K) (i : Int) :
    Ieee.getSample b.toFp i = .fin (b.getSample i) := rfl

omit [LinearOrderedField K] in
theorem toFp_dataBuffer (s : RubidiumDistortion K) : s.toFp.dataBuffer = s.dataBuffer.toFp := rfl

/-- The delay regions 0 and 1 compute on finite floating values the values of
the embedding over the field. -/
theorem lowLevelHysteresis_toFp (s : RubidiumDistortion K) :
    Ieee.lowLevelHysteresis s.toFp =
      ((lowLevelHysteresis s).1.toFp, .fin (lowLevelHysteresis s).2.1,
        .fin (lowLevelHysteresis s).2.2) := by
  simp only [Ieee.lowLevelHysteresis, lowLevelHysteresis, RubidiumDistortion.toFp, getSample_toFp,
    Fp.fin_add_fin, Fp.fin_mul_fin, Fp.neg_fin, setSample_toFp,
    Fp.lt_fin_fin, decide_eq_true_eq, gt_iff_lt]

/-- The delay regions 2 to 5 compute on finite floating values the values of
the embedding over the field. -/
theorem nestedAllpass_toFp (s : RubidiumDistortion K) (spl0 spl1 : K) :
    Ieee.nestedAllpass s.toFp (.fin spl0) (.fin spl1) =
      ((nestedAllpass s spl0 spl1).1.toFp, .fin (nestedAllpass s spl0 spl1).2.1,
        .fin (nestedAllpass s spl0 spl1).2.2) := by
  simp only [Ieee.nestedAllpass, nestedAllpass, RubidiumDistortion.toFp, getSample_toFp,
    Fp.fin_add_fin, Fp.fin_mul_fin, Fp.neg_fin, setSample_toFp,
    Fp.lt_fin_fin, decide_eq_true_eq, gt_iff_lt]

theorem Fp.fmax_fin_fin (a b : K) : Fp.fmax (Fp.fin a) (Fp.fin b) = Fp.fin (max a b) := by
  simp only [Fp.fmax, Fp.lt_fin_fin, decide_eq_true_eq]
  by_cases h : a < b
  · rw [if_pos h, max_eq_right h.le]
  · rw [if_neg h, max_eq_left (not_lt.mp h)]

theorem rectify_toFp (m : Libm K) (mx : Libm (Fp K)) (hx : mx.Extends m) (hys0 hys1 out : K) :
    (Fp.fin hys1 * Fp.fmax (Fp.fin hys0 -
        mx.sqrt (Fp.fin out * (if Fp.lt (Fp.fin out) (Fp.fin 0) then Fp.fin 0 else Fp.fin 1)) *
          (if Fp.lt (Fp.fin out) (Fp.fin 0) then Fp.fin 0 else Fp.fin 1)) (Fp.fin 0) : Fp K) =
      Fp.fin (hys1 * max (hys0 - m.sqrt (out * (if out < 0 then 0 else 1)) *
        (if out < 0 then 0 else 1)) 0) := by
  by_cases h : out < 0
  · simp only [Fp.lt_fin_fin, decide_eq_true_eq, if_pos h, Fp.fin_mul_fin, mul_zero,
      hx.sqrt_fin 0 (le_refl 0), Fp.fin_sub_fin, Fp.fmax_fin_fin]
  · simp only [Fp.lt_fin_fin, decide_eq_true_eq, if_neg h, Fp.fin_mul_fin, mul_one,
      hx.sqrt_fin out (not_lt.mp h), Fp.fin_sub_fin, Fp.fmax_fin_fin]

theorem hysteresisRectify_toFp (m : Libm K) (mx : Libm (Fp K)) (hx : mx.Extends m)
    (s : RubidiumDistortion K) (out0 out1 : K) :
    Ieee.hysteresisRectify mx s.toFp (.fin out0) (.fin out1) =
      (hysteresisRectify m s out0 out1).toFp := by
  simp only [Ieee.hysteresisRectify, hysteresisRectify, RubidiumDistortion.toFp,
    rectify_toFp m mx hx, Fp.fin_add_fin]

/-- With controls whose `float` computations stay in range,
`updateCoefficients` computes on floating values the finite coefficients of the
embedding over the field. -/
theorem updateCoefficients_toFp (m : Libm K) (mx : Libm (Fp K)) (hx : mx.Extends m)
    (c : Controls K) (hc : CoeffFinite m c) (s : RubidiumDistortion K) :
    Ieee.updateCoefficients mx c.toFp s.toFp = (updateCoefficients m c s).toFp := by
  have h0 : Fp.toFloat (Fp.fin (m.twoPi * 0)) = Fp.fin (m.twoPi * 0) := by
    rw [mul_zero]; exact Fp.toFloat_zero
  by_cases hg : 0.125 + (m.powf (c.mojo * 0.01) 1.2 * 100 + 5) * 0.06666666 ≤ 0
  · simp only [Ieee.updateCoefficients, updateCoefficients, Controls.toFp, RubidiumDistortion.toFp,
      Fp.fin_mul_fin, Fp.fin_add_fin, Fp.toFloat_fin _ hc.mojo_arg,
      hx.powf_fin _ 1.2 hc.mojo_nonneg (by norm_num), Fp.toFloat_fin _ hc.mojo_pow,
      Fp.toFloat_fin _ hc.mojo_mul,
      Fp.toFloat_fin _ hc.satAmt, Fp.toFloat_fin _ hc.satAmt_mul, Fp.toFloat_fin _ hc.hyst_arg,
      hx.powf_fin _ 2 hc.hyst_nonneg (by norm_num), Fp.toFloat_fin _ hc.hyst_pow,
      Fp.toFloat_fin _ hc.hystAmt,
      Fp.toFloat_fin _ hc.hys0_mul, Fp.toFloat_fin _ hc.hys1_mul, Fp.toFloat_fin _ hc.tone,
      hx.twoPi_fin, h0, Fp.le_fin_fin, decide_eq_true_eq, if_pos hg]
  · simp only [Ieee.updateCoefficients, updateCoefficients, Controls.toFp, RubidiumDistortion.toFp,
      Fp.fin_mul_fin, Fp.fin_add_fin, Fp.toFloat_fin _ hc.mojo_arg,
      hx.powf_fin _ 1.2 hc.mojo_nonneg (by norm_num), Fp.toFloat_fin _ hc.mojo_pow,
      Fp.toFloat_fin _ hc.mojo_mul,
      Fp.toFloat_fin _ hc.satAmt, Fp.toFloat_fin _ hc.satAmt_mul, Fp.toFloat_fin _ hc.hyst_arg,
      hx.powf_fin _ 2 hc.hyst_nonneg (by norm_num), Fp.toFloat_fin _ hc.hyst_pow,
      Fp.toFloat_fin _ hc.hystAmt,
      Fp.toFloat_fin _ hc.hys0_mul, Fp.toFloat_fin _ hc.hys1_mul, Fp.toFloat_fin _ hc.tone,
      hx.twoPi_fin, h0, Fp.le_fin_fin, decide_eq_true_eq, if_neg hg,
      hx.log10_fin _ (not_le.mp hg), hx.exp_fin]

/-- With a bias whose `float` computation stays in range, the saturation
computes on floating values the finite values of the embedding over the field. -/
theorem saturation_toFp (m : Libm K) (mx : Libm (Fp K)) (hx : mx.Extends m)
    (c : Controls K) (hc : CoeffFinite m c) (s : RubidiumDistortion K) (in0 in1 : K) :
    Ieee.saturation mx c.toFp s.toFp (.fin in0) (.fin in1) =
      (.fin (saturation m c s in0 in1).1, .fin (saturation m c s in0 in1).2.1,
        .fin (saturation m c s in0 in1).2.2) := by
  simp only [Ieee.saturation, saturation, Controls.toFp, RubidiumDistortion.toFp,
    Fp.fin_mul_fin, Fp.fin_sub_fin, Fp.toFloat_fin _ hc.bias_arg,
    hx.powf_fin _ 3 hc.bias_nonneg (by norm_num),
    Fp.toFloat_fin _ hc.bias_pow, Fp.toFloat_fin _ hc.bias_mul, hx.decibelsToGain_fin,
    hx.atan_fin]

theorem Fp.toFloat_fin_of_nonneg (x B : K) (h0 : 0 ≤ x) (hB : x ≤ B)
    (hm : B ≤ 340282346638528859811704183484516925440) : Fp.toFloat (Fp.fin x) = Fp.fin x := by
  apply Fp.toFloat_fin
  rw [abs_of_nonneg h0]
  unfold floatMax
  exact le_trans hB hm

/-- Below `300000` in magnitude the `float` evaluation of `atanApprox` stays
finite and returns the value of the rational function. -/
theorem atanApprox_toFp (x : K) (h : |x| ≤ 300000) :
    Ieee.atanApprox (Fp.fin x) = Fp.fin (atanApprox x) := by
  have hx := abs_le.mp h
  have hxm : |x| ≤ floatMax := le_trans h (by unfold floatMax; norm_num)
  have ht0 : 0 ≤ x * x := mul_self_nonneg x
  have ht : x * x ≤ 90000000000 := by nlinarith [hx.1, hx.2]
  have a1 : 0 ≤ 378 + x * x := by positivity
  have a1' : 378 + x * x ≤ 90000000378 := by linarith
  have a2 : 0 ≤ x * x * (378 + x * x) := by positivity
  have a2' : x * x * (378 + x * x) ≤ 90000000000 * 90000000378 :=
    mul_le_mul ht a1' a1 (by norm_num)
  have a3 : 0 ≤ 17325 + x * x * (378 + x * x) := by positivity
  have a3' : 17325 + x * x * (378 + x * x) ≤ 17325 + 90000000000 * 90000000378 := by linarith
  have a4 : 0 ≤ x * x * (17325 + x * x * (378 + x * x)) := by positivity
  have a4' : x * x * (17325 + x * x * (378 + x * x)) ≤
      90000000000 * (17325 + 90000000000 * 90000000378) :=
    mul_le_mul ht a3' a3 (by norm_num)
  have a5 : 0 ≤ 135135 + x * x * (17325 + x * x * (378 + x * x)) := by positivity
  have a5' : 135135 + x * x * (17325 + x * x * (378 + x * x)) ≤
      135135 + 90000000000 * (17325 + 90000000000 * 90000000378) := by linarith
  have hN : |x * (135135 + x * x * (17325 + x * x * (378 + x * x)))| ≤ floatMax := by
    rw [abs_mul, abs_of_nonneg a5]
    calc |x| * (135135 + x * x * (17325 + x * x * (378 + x * x)))
        ≤ 300000 * (135135 + 90000000000 * (17325 + 90000000000 * 90000000378)) :=
          mul_le_mul h a5' a5 (by norm_num)
      _ ≤ floatMax := by unfold floatMax; norm_num
  have b1 : 0 ≤ 28 * (x * x) := by positivity
  have b1' : 28 * (x * x) ≤ 28 * 90000000000 := by linarith
  have b2 : 0 ≤ 3150 + 28 * (x * x) := by positivity
  have b2' : 3150 + 28 * (x * x) ≤ 3150 + 28 * 90000000000 := by linarith
  have b3 : 0 ≤ x * x * (3150 + 28 * (x * x)) := by positivity
  have b3' : x * x * (3150 + 28 * (x * x)) ≤ 90000000000 * (3150 + 28 * 90000000000) :=
    mul_le_mul ht b2' b2 (by norm_num)
  have b4 : 0 ≤ 62370 + x * x * (3150 + 28 * (x * x)) := by positivity
  have b4' : 62370 + x * x * (3150 + 28 * (x * x)) ≤
      62370 + 90000000000 * (3150 + 28 * 90000000000) := by linarith
  have b5 : 0 ≤ x * x * (62370 + x * x * (3150 + 28 * (x * x))) := by positivity
  have b5' : x * x * (62370 + x * x * (3150 + 28 * (x * x))) ≤
      90000000000 * (62370 + 90000000000 * (3150 + 28 * 90000000000)) :=
    mul_le_mul ht b4' b4 (by norm_num)
  have b6 : 0 < 135135 + x * x * (62370 + x * x * (3150 + 28 * (x * x))) := by positivity
  have b6' : 135135 + x * x * (62370 + x * x * (3150 + 28 * (x * x))) ≤
      135135 + 90000000000 * (62370 + 90000000000 * (3150 + 28 * 90000000000)) := by linarith
  have hT : |x * (135135 + x * x * (17325 + x * x * (378 + x * x))) /
      (135135 + x * x * (62370 + x * x * (3150 + 28 * (x * x))))| ≤ floatMax :=
    le_trans (abs_tanh_le x) hxm
  have hL : |x * 0.08| ≤ floatMax := by
    rw [abs_mul, abs_of_pos (by norm_num : (0 : K) < 0.08)]
    unfold floatMax
    linarith [abs_nonneg x]
  have hS : |x * (135135 + x * x * (17325 + x * x * (378 + x * x))) /
      (135135 + x * x * (62370 + x * x * (3150 + 28 * (x * x)))) + x * 0.08| ≤ floatMax := by
    have := abs_atanApprox_le x
    simp only [atanApprox, FastMathApproximations.tanh] at this
    refine le_trans this ?_
    unfold floatMax
    linarith
  simp only [Ieee.atanApprox, Ieee.FastMathApproximations.tanh, atanApprox,
    FastMathApproximations.tanh, Fp.toFloat_fin x hxm, Fp.fin_mul_fin, Fp.fin_add_fin,
    Fp.toFloat_fin_of_nonneg _ _ ht0 ht (by norm_num),
    Fp.toFloat_fin_of_nonneg _ _ a1 a1' (by norm_num),
    Fp.toFloat_fin_of_nonneg _ _ a2 a2' (by norm_num),
    Fp.toFloat_fin_of_nonneg _ _ a3 a3' (by norm_num),
    Fp.toFloat_fin_of_nonneg _ _ a4 a4' (by norm_num),
    Fp.toFloat_fin_of_nonneg _ _ a5 a5' (by norm_num), Fp.toFloat_fin _ hN,
    Fp.toFloat_fin_of_nonneg _ _ b1 b1' (by norm_num),
    Fp.toFloat_fin_of_nonneg _ _ b2 b2' (by norm_num),
    Fp.toFloat_fin_of_nonneg _ _ b3 b3' (by norm_num),
    Fp.toFloat_fin_of_nonneg _ _ b4 b4' (by norm_num),
    Fp.toFloat_fin_of_nonneg _ _ b5 b5' (by norm_num),
    Fp.toFloat_fin_of_nonneg _ _ b6.le b6' (by norm_num),
    Fp.fin_div_fin _ _ b6.ne', Fp.toFloat_fin _ hT, Fp.toFloat_fin _ hL, Fp.toFloat_fin _ hS]

theorem Fp.negInf_div_fin (y : K) (h : 0 ≤ y) : (Fp.negInf / Fp.fin y : Fp K) = Fp.negInf := by
  show Fp.div Fp.negInf (Fp.fin y) = _
  rw [Fp.div, if_neg (not_lt.mpr h)]

theorem Fp.negInf_add_fin (y : K) : (Fp.negInf + Fp.fin y : Fp K) = Fp.negInf := rfl

/-- Between `-1000000` and `-319600` the numerator of the `float` evaluation of
`tanh` exceeds `FLT_MAX` in magnitude and `atanApprox` returns `-inf`. -/
theorem atanApprox_overflow (x : K) (h1 : -1000000 ≤ x) (h2 : x ≤ -319600) :
    Ieee.atanApprox (Fp.fin x) = Fp.negInf := by
  have hxm : |x| ≤ floatMax := by
    rw [abs_of_nonpos (by linarith)]
    unfold floatMax
    linarith
  have ht0 : 0 ≤ x * x := mul_self_nonneg x
  have ht : x * x ≤ 1000000000000 := by nlinarith
  have hl : 319600 * 319600 ≤ x * x := by nlinarith
  have a1 : 0 ≤ 378 + x * x := by positivity
  have a1' : 378 + x * x ≤ 378 + 1000000000000 := by linarith
  have a1l : 378 + 319600 * 319600 ≤ 378 + x * x := by linarith
  have a2 : 0 ≤ x * x * (378 + x * x) := by positivity
  have a2' : x * x * (378 + x * x) ≤ 1000000000000 * (378 + 1000000000000) :=
    mul_le_mul ht a1' a1 (by norm_num)
  have a2l : 319600 * 319600 * (378 + 319600 * 319600) ≤ x * x * (378 + x * x) :=
    mul_le_mul hl a1l (by norm_num) ht0
  have a3 : 0 ≤ 17325 + x * x * (378 + x * x) := by positivity
  have a3' : 17325 + x * x * (378 + x * x) ≤ 17325 + 1000000000000 * (378 + 1000000000000) := by
    linarith
  have a3l : 17325 + 319600 * 319600 * (378 + 319600 * 319600) ≤
      17325 + x * x * (378 + x * x) := by linarith
  have a4 : 0 ≤ x * x * (17325 + x * x * (378 + x * x)) := by positivity
  have a4' : x * x * (17325 + x * x * (378 + x * x)) ≤
      1000000000000 * (17325 + 1000000000000 * (378 + 1000000000000)) :=
    mul_le_mul ht a3' a3 (by norm_num)
  have a4l : 319600 * 319600 * (17325 + 319600 * 319600 * (378 + 319600 * 319600)) ≤
      x * x * (17325 + x * x * (378 + x * x)) :=
    mul_le_mul hl a3l (by norm_num) ht0
  have a5 : 0 ≤ 135135 + x * x * (17325 + x * x * (378 + x * x)) := by positivity
  have a5' : 135135 + x * x * (17325 + x * x * (378 + x * x)) ≤
      135135 + 1000000000000 * (17325 + 1000000000000 * (378 + 1000000000000)) := by linarith
  have a5l : 135135 + 319600 * 319600 * (17325 + 319600 * 319600 * (378 + 319600 * 319600)) ≤
      135135 + x * x * (17325 + x * x * (378 + x * x)) := by linarith
  have hN : x * (135135 + x * x * (17325 + x * x * (378 + x * x))) < -floatMax := by
    have hneg : 319600 * (135135 + 319600 * 319600 * (17325 + 319600 * 319600 *
        (378 + 319600 * 319600))) ≤
        -x * (135135 + x * x * (17325 + x * x * (378 + x * x))) :=
      mul_le_mul (by linarith) a5l (by norm_num) (by linarith)
    have hbig : (floatMax : K) < 319600 * (135135 + 319600 * 319600 * (17325 + 319600 * 319600 *
        (378 + 319600 * 319600))) := by
      unfold floatMax
      norm_num
    linarith
  have b1 : 0 ≤ 28 * (x * x) := by positivity
  have b1' : 28 * (x * x) ≤ 28 * 1000000000000 := by linarith
  have b2 : 0 ≤ 3150 + 28 * (x * x) := by positivity
  have b2' : 3150 + 28 * (x * x) ≤ 3150 + 28 * 1000000000000 := by linarith
  have b3 : 0 ≤ x * x * (3150 + 28 * (x * x)) := by positivity
  have b3' : x * x * (3150 + 28 * (x * x)) ≤ 1000000000000 * (3150 + 28 * 1000000000000) :=
    mul_le_mul ht b2' b2 (by norm_num)
  have b4 : 0 ≤ 62370 + x * x * (3150 + 28 * (x * x)) := by positivity
  have b4' : 62370 + x * x * (3150 + 28 * (x * x)) ≤
      62370 + 1000000000000 * (3150 + 28 * 1000000000000) := by linarith
  have b5 : 0 ≤ x * x * (62370 + x * x * (3150 + 28 * (x * x))) := by positivity
  have b5' : x * x * (62370 + x * x * (3150 + 28 * (x * x))) ≤
      1000000000000 * (62370 + 1000000000000 * (3150 + 28 * 1000000000000)) :=
    mul_le_mul ht b4' b4 (by norm_num)
  have b6 : 0 < 135135 + x * x * (62370 + x * x * (3150 + 28 * (x * x))) := by positivity
  have b6' : 135135 + x * x * (62370 + x * x * (3150 + 28 * (x * x))) ≤
      135135 + 1000000000000 * (62370 + 1000000000000 * (3150 + 28 * 1000000000000)) := by
    linarith
  have hL : |x * 0.08| ≤ floatMax := by
    rw [abs_mul, abs_of_pos (by norm_num : (0 : K) < 0.08), abs_of_nonpos (by linarith)]
    unfold floatMax
    linarith
  simp only [Ieee.atanApprox, Ieee.FastMathApproximations.tanh, Fp.toFloat_fin x hxm,
    Fp.fin_mul_fin, Fp.fin_add_fin,
    Fp.toFloat_fin_of_nonneg _ _ ht0 ht (by norm_num),
    Fp.toFloat_fin_of_nonneg _ _ a1 a1' (by norm_num),
    Fp.toFloat_fin_of_nonneg _ _ a2 a2' (by norm_num),
    Fp.toFloat_fin_of_nonneg _ _ a3 a3' (by norm_num),
    Fp.toFloat_fin_of_nonneg _ _ a4 a4' (by norm_num),
    Fp.toFloat_fin_of_nonneg _ _ a5 a5' (by norm_num), Fp.toFloat_fin_of_lt_neg _ hN,
    Fp.toFloat_fin_of_nonneg _ _ b1 b1' (by norm_num),
    Fp.toFloat_fin_of_nonneg _ _ b2 b2' (by norm_num),
    Fp.toFloat_fin_of_nonneg _ _ b3 b3' (by norm_num),
    Fp.toFloat_fin_of_nonneg _ _ b4 b4' (by norm_num),
    Fp.toFloat_fin_of_nonneg _ _ b5 b5' (by norm_num),
    Fp.toFloat_fin_of_nonneg _ _ b6.le b6' (by norm_num),
    Fp.negInf_div_fin _ b6.le, Fp.toFloat_negInf, Fp.toFloat_fin _ hL, Fp.negInf_add_fin]

end Agreement

section BlockAgreement

variable {K : Type} [LinearOrderedField K]

theorem recombine_toFp (x delta c : K) (hc : c ≠ 0) (h : AtanFinite (x * delta)) :
    Ieee.atanApprox (Fp.fin x * Fp.fin delta) /
        (if Fp.eq (Fp.fin x) (Fp.fin 0) then Fp.fin 1
          else (if Fp.eq (Fp.fin delta) (Fp.fin 0) then Fp.fin c else Fp.fin delta)) =
      Fp.fin (atanApprox (x * delta) / (if x = 0 then 1 else (if delta = 0 then c else delta))) := by
  unfold AtanFinite at h
  rw [Fp.fin_mul_fin, h]
  simp only [Fp.eq_fin_fin, decide_eq_true_eq]
  by_cases hx : x = 0
  · rw [if_pos hx, if_pos hx, Fp.fin_div_fin _ _ one_ne_zero]
  · rw [if_neg hx, if_neg hx]
    by_cases hd : delta = 0
    · rw [if_pos hd, if_pos hd, Fp.fin_div_fin _ _ hc]
    · rw [if_neg hd, if_neg hd, Fp.fin_div_fin _ _ hd]

theorem recombineFirst_toFp (s : RubidiumDistortion K) (spl0 spl1 : K)
    (h0 : AtanFinite (spl0 * s.delta0)) (h1 : AtanFinite (spl1 * s.delta1)) :
    Ieee.recombineFirst s.toFp (.fin spl0) (.fin spl1) =
      (.fin (recombineFirst s spl0 spl1).1, .fin (recombineFirst s spl0 spl1).2) := by
  simp only [Ieee.recombineFirst, recombineFirst, RubidiumDistortion.toFp,
    recombine_toFp spl0 s.delta0 0.00000000000001 (by norm_num) h0,
    recombine_toFp spl1 s.delta1 0.00000000000001 (by norm_num) h1]

theorem recombineSecond_toFp (s : RubidiumDistortion K) (spl0 spl1 : K)
    (h0 : AtanFinite (spl0 * s.delta0)) (h1 : AtanFinite (spl1 * s.delta1)) :
    Ieee.recombineSecond s.toFp (.fin spl0) (.fin spl1) =
      (.fin (recombineSecond s spl0 spl1).1, .fin (recombineSecond s spl0 spl1).2) := by
  simp only [Ieee.recombineSecond, recombineSecond, RubidiumDistortion.toFp,
    recombine_toFp spl0 s.delta0 0.0000000000001 (by norm_num) h0,
    recombine_toFp spl1 s.delta1 0.0000000000001 (by norm_num) h1]

theorem outputGain_toFp (s : RubidiumDistortion K) (driveVal spl0 spl1 : K)
    (d0 : s.adj3 * (driveVal * 0.1 + 1.0) ≠ 0) (d1 : s.adj4 * (driveVal * 0.1 + 1.0) ≠ 0)
    (o0 : |(outputGain s driveVal spl0 spl1).1| ≤ floatMax)
    (o1 : |(outputGain s driveVal spl0 spl1).2| ≤ floatMax) :
    Ieee.outputGain s.toFp (.fin driveVal) (.fin spl0) (.fin spl1) =
      (.fin (outputGain s driveVal spl0 spl1).1, .fin (outputGain s driveVal spl0 spl1).2) := by
  simp only [outputGain] at o0 o1
  simp only [Ieee.outputGain, outputGain, RubidiumDistortion.toFp, Fp.fin_mul_fin,
    Fp.fin_add_fin, Fp.fin_div_fin _ _ d0, Fp.fin_div_fin _ _ d1, Fp.toFloat_fin _ o0,
    Fp.toFloat_fin _ o1]

theorem processSamplePre_toFp (m : Libm K) (mx : Libm (Fp K)) (hx : mx.Extends m)
    (s : RubidiumDistortion K) (f : Frame K) (hc : CoeffFinite m f.controls) :
    Ieee.processSamplePre mx s.toFp f.toFp =
      ((processSamplePre m s f).1.toFp, .fin (processSamplePre m s f).2.1,
        .fin (processSamplePre m s f).2.2.1, .fin (processSamplePre m s f).2.2.2) := by
  simp only [Ieee.processSamplePre, Frame.toFp, updateCoefficients_toFp m mx hx _ hc,
    saturation_toFp m mx hx _ hc, deltaHysteresis_toFp, lowLevelHysteresis_toFp,
    hysteresisRectify_toFp m mx hx, deltaLowpass_toFp, signalHighpass_toFp, processSamplePre]

theorem processSampleBack_toFp (s : RubidiumDistortion K) (spl0 spl1 driveVal : K)
    (h : BackFinite s spl0 spl1 driveVal) :
    Ieee.processSampleBack s.toFp (.fin spl0) (.fin spl1) (.fin driveVal) =
      ((processSampleBack s spl0 spl1 driveVal).1.toFp,
        .fin (processSampleBack s spl0 spl1 driveVal).2.1,
        .fin (processSampleBack s spl0 spl1 driveVal).2.2) := by
  obtain ⟨a0, a1, d0, d1, o0, o1⟩ := h
  simp only [processSampleSecond] at a0 a1 d0 d1
  simp only [processSampleBack] at o0 o1
  simp only [Ieee.processSampleBack, processSampleBack, nestedAllpass_toFp,
    signalHighpassSecond_toFp, deltaLowpassSecond_toFp, recombineSecond_toFp _ _ _ a0 a1,
    outputGain_toFp _ _ _ _ d0 d1 o0 o1]

theorem processSample_eq_pre_back (mx : Libm (Fp K)) (s : RubidiumDistortion (Fp K))
    (f : Frame (Fp K)) :
    Ieee.processSample mx s f =
      Ieee.processSampleBack (Ieee.processSamplePre mx s f).1
        (Ieee.recombineFirst (Ieee.processSamplePre mx s f).1 (Ieee.processSamplePre mx s f).2.1
          (Ieee.processSamplePre mx s f).2.2.1).1
        (Ieee.recombineFirst (Ieee.processSamplePre mx s f).1 (Ieee.processSamplePre mx s f).2.1
          (Ieee.processSamplePre mx s f).2.2.1).2
        (Ieee.processSamplePre mx s f).2.2.2 := rfl

/-- On a sample without floating-point exception the loop body computes, on
floating values, the finite values of the embedding over the field. -/
theorem processSample_toFp (m : Libm K) (mx : Libm (Fp K)) (hx : mx.Extends m)
    (s : RubidiumDistortion K) (f : Frame K) (h : NoOverflow m s f) :
    Ieee.processSample mx s.toFp f.toFp =
      ((processSample m s f).1.toFp, .fin (processSample m s f).2.1,
        .fin (processSample m s f).2.2) := by
  rw [processSample_eq_pre_back, processSamplePre_toFp m mx hx s f h.coeff]
  simp only []
  rw [recombineFirst_toFp _ _ _ h.first0 h.first1]
  exact processSampleBack_toFp _ _ _ _ h.back

/-- On a block without floating-point exception `processBlock` computes, on
floating values, the finite values of the embedding over the field. -/
theorem processBlock_toFp (m : Libm K) (mx : Libm (Fp K)) (hx : mx.Extends m)
    (s : RubidiumDistortion K) (fs : List (Frame K)) (h : NoOverflowBlock m s fs) :
    Ieee.processBlock mx s.toFp (fs.map Frame.toFp) =
      ((processBlock m s fs).1.toFp,
        (processBlock m s fs).2.map fun o => (Fp.fin o.1, Fp.fin o.2)) := by
  induction fs generalizing s with
  | nil => rfl
  | cons f fs ih =>
    obtain ⟨h1, h2⟩ := h
    simp only [List.map_cons, Ieee.processBlock, processBlock, processSample_toFp m mx hx s f h1,
      ih _ h2]

end BlockAgreement

section RealBounds

theorem log10_gain_bounds :
    0.85 ≤ Real.log 7.1249993 / Real.log 10 ∧ Real.log 7.1249993 / Real.log 10 ≤ 0.86 := by
  have h10 : 0 < Real.log 10 := Real.log_pos (by norm_num)
  have h1 : 17 * Real.log 10 ≤ 20 * Real.log 7.1249993 := by
    have := Real.log_le_log (by norm_num : (0 : ℝ) < 10 ^ 17)
      (by norm_num : (10 : ℝ) ^ 17 ≤ 7.1249993 ^ 20)
    rw [Real.log_pow, Real.log_pow] at this
    exact_mod_cast this
  have h2 : 50 * Real.log 7.1249993 ≤ 43 * Real.log 10 := by
    have := Real.log_le_log (by norm_num : (0 : ℝ) < 7.1249993 ^ 50)
      (by norm_num : (7.1249993 : ℝ) ^ 50 ≤ 10 ^ 43)
    rw [Real.log_pow, Real.log_pow] at this
    exact_mod_cast this
  constructor
  · rw [le_div_iff₀ h10]; linarith
  · rw [div_le_iff₀ h10]; linarith

theorem exp_gain_bounds :
    29.7 ≤ Real.exp (4 * (Real.log 7.1249993 / Real.log 10)) ∧
      Real.exp (4 * (Real.log 7.1249993 / Real.log 10)) ≤ 35.9 := by
  obtain ⟨hl, hu⟩ := log10_gain_bounds
  have e1 := Real.exp_one_gt_d9
  have e2 := Real.exp_one_lt_d9
  have e0 : 0 < Real.exp 1 := Real.exp_pos 1
  constructor
  · have h3 : Real.exp 3.4 ≤ Real.exp (4 * (Real.log 7.1249993 / Real.log 10)) :=
      Real.exp_le_exp.mpr (by linarith)
    have h4 : Real.exp 3.4 = Real.exp 1 * Real.exp 1 * Real.exp 1 * Real.exp 0.4 := by
      rw [← Real.exp_add, ← Real.exp_add, ← Real.exp_add]; norm_num
    have h5 : (1.48 : ℝ) ≤ Real.exp 0.4 := by
      have := Real.quadratic_le_exp_of_nonneg (by norm_num : (0 : ℝ) ≤ 0.4)
      norm_num at this ⊢
      linarith
    have h6 : (2.7182818283 : ℝ) * 2.7182818283 * 2.7182818283 ≤
        Real.exp 1 * Real.exp 1 * Real.exp 1 := by
      have : (2.7182818283 : ℝ) * 2.7182818283 ≤ Real.exp 1 * Real.exp 1 := by nlinarith
      nlinarith
    have h7 : (2.7182818283 : ℝ) * 2.7182818283 * 2.7182818283 * 1.48 ≤
        Real.exp 1 * Real.exp 1 * Real.exp 1 * Real.exp 0.4 :=
      mul_le_mul h6 h5 (by norm_num) (by positivity)
    rw [h4] at h3
    norm_num at h7
    linarith
  · have h3 : Real.exp (4 * (Real.log 7.1249993 / Real.log 10)) ≤ Real.exp 3.44 :=
      Real.exp_le_exp.mpr (by linarith)
    have h4 : Real.exp 3.44 = Real.exp 1 * Real.exp 1 * Real.exp 1 * Real.exp 0.44 := by
      rw [← Real.exp_add, ← Real.exp_add, ← Real.exp_add]; norm_num
    have h5 : Real.exp 0.44 ≤ 1.7858 := by
      have h := Real.add_one_le_exp (-0.44)
      have hp : 0 < Real.exp (-0.44) := Real.exp_pos _
      have hm : Real.exp 0.44 * Real.exp (-0.44) = 1 := by
        rw [← Real.exp_add]; norm_num
      by_contra hc
      push_neg at hc
      nlinarith
    have h6 : Real.exp 1 * Real.exp 1 * Real.exp 1 ≤
        (2.7182818286 : ℝ) * 2.7182818286 * 2.7182818286 := by
      have : Real.exp 1 * Real.exp 1 ≤ (2.7182818286 : ℝ) * 2.7182818286 := by nlinarith
      nlinarith
    have h7 : Real.exp 1 * Real.exp 1 * Real.exp 1 * Real.exp 0.44 ≤
        (2.7182818286 : ℝ) * 2.7182818286 * 2.7182818286 * 1.7858 :=
      mul_le_mul h6 h5 (Real.exp_pos _).le (by norm_num)
    rw [h4] at h3
    norm_num at h7
    linarith

theorem drive_gain_bounds :
    31 ≤ Real.rpow 10 (100 * 0.3 * 0.05) ∧ Real.rpow 10 (100 * 0.3 * 0.05) ≤ 32 := by
  have hpos : 0 < Real.rpow 10 (100 * 0.3 * 0.05) := Real.rpow_pos_of_pos (by norm_num) _
  have hsq : Real.rpow 10 (100 * 0.3 * 0.05) * Real.rpow 10 (100 * 0.3 * 0.05) = 1000 := by
    show (10 : ℝ) ^ (100 * 0.3 * 0.05 : ℝ) * (10 : ℝ) ^ (100 * 0.3 * 0.05 : ℝ) = 1000
    rw [← Real.rpow_add (by norm_num)]
    have : (100 * 0.3 * 0.05 + 100 * 0.3 * 0.05 : ℝ) = ((3 : ℕ) : ℝ) := by norm_num
    rw [this, Real.rpow_natCast]
    norm_num
  constructor
  · nlinarith
  · nlinarith

theorem arctan_ge (x : ℝ) (hx : 0 < x) : Real.pi / 2 - x⁻¹ ≤ Real.arctan x := by
  have hinv : 0 < x⁻¹ := inv_pos.mpr hx
  have h1 := Real.arctan_inv_of_pos hx
  have hpos : 0 < Real.arctan x⁻¹ := by
    rw [← Real.arctan_zero]
    exact Real.arctan_strictMono hinv
  have h2 := Real.lt_tan hpos (Real.arctan_lt_pi_div_two _)
  rw [Real.tan_arctan] at h2
  linarith

end RealBounds

section RunStep

variable {K : Type} [LinearOrderedField K]

theorem processSample_h0 (m : Libm K) (s : RubidiumDistortion K) (f : Frame K) :
    (processSample m s f).1.h0 =
      s.h0 + ((saturation m f.controls (updateCoefficients m f.controls s) f.in0 f.in1).1 -
        s.h0) * (updateCoefficients m f.controls s).cut0 := rfl

theorem processSample_ap1_y0 (m : Libm K) (s : RubidiumDistortion K) (f : Frame K) :
    (processSample m s f).1.ap1_y0 =
      (saturation m f.controls (updateCoefficients m f.controls s) f.in0 f.in1).1 -
        s.ap1_k0 * (s.ap1_y0 + s.ap1_k0 *
          (saturation m f.controls (updateCoefficients m f.controls s) f.in0 f.in1).1) := rfl

theorem processSample_l0 (m : Libm K) (s : RubidiumDistortion K) (f : Frame K) :
    ∃ t : K, (processSample m s f).1.l0 =
      s.l0 + ((s.ap1_y0 + s.ap1_k0 *
          (saturation m f.controls (updateCoefficients m f.controls s) f.in0 f.in1).1 +
          (updateCoefficients m f.controls s).hys1 * t) - s.l0) *
        (updateCoefficients m f.controls s).cut0 := ⟨_, rfl⟩

theorem processSample_consts (m : Libm K) (s : RubidiumDistortion K) (f : Frame K) :
    (processSample m s f).1.rand0 = s.rand0 ∧ (processSample m s f).1.rand1 = s.rand1 ∧
    (processSample m s f).1.dt = s.dt ∧ (processSample m s f).1.shape = s.shape ∧
    (processSample m s f).1.ap1_k0 = s.ap1_k0 ∧ (processSample m s f).1.ap1_k1 = s.ap1_k1 ∧
    (processSample m s f).1.vol = s.vol :=
  ⟨rfl, rfl, rfl, rfl, rfl, rfl, rfl⟩

end RunStep

section RunStepRight

variable {K : Type} [LinearOrderedField K]

theorem processSample_h1 (m : Libm K) (s : RubidiumDistortion K) (f : Frame K) :
    (processSample m s f).1.h1 =
      s.h1 + ((saturation m f.controls (updateCoefficients m f.controls s) f.in0 f.in1).2.1 -
        s.h1) * (updateCoefficients m f.controls s).cut1 := rfl

theorem processSample_ap1_y1 (m : Libm K) (s : RubidiumDistortion K) (f : Frame K) :
    (processSample m s f).1.ap1_y1 =
      (saturation m f.controls (updateCoefficients m f.controls s) f.in0 f.in1).2.1 -
        s.ap1_k1 * (s.ap1_y1 + s.ap1_k1 *
          (saturation m f.controls (updateCoefficients m f.controls s) f.in0 f.in1).2.1) := rfl

theorem processSample_l1 (m : Libm K) (s : RubidiumDistortion K) (f : Frame K) :
    ∃ t : K, (processSample m s f).1.l1 =
      s.l1 + ((s.ap1_y1 + s.ap1_k1 *
          (saturation m f.controls (updateCoefficients m f.controls s) f.in0 f.in1).2.1 +
          (updateCoefficients m f.controls s).hys1 * t) - s.l1) *
        (updateCoefficients m f.controls s).cut1 := ⟨_, rfl⟩

/-- One sample with saturation output `(A, 0)`, `cut0 = 1/2` and `hys1 = 0`
takes the closed form of the filter states from `n` to `n + 1`. -/
theorem runState_step (m : Libm K) (s : RubidiumDistortion K) (f : Frame K) (A : K) (n : Nat)
    (hs : RunState A n s)
    (hc : (updateCoefficients m f.controls s).cut0 = 1 / 2)
    (hh : (updateCoefficients m f.controls s).hys1 = 0)
    (h0 : (saturation m f.controls (updateCoefficients m f.controls s) f.in0 f.in1).1 = A)
    (h1 : (saturation m f.controls (updateCoefficients m f.controls s) f.in0 f.in1).2.1 = 0) :
    RunState A (n + 1) (processSample m s f).1 := by
  obtain ⟨c1, c2, c3, c4, c5, c6, c7⟩ := processSample_consts m s f
  obtain ⟨t, ht⟩ := processSample_l0 m s f
  obtain ⟨t1, ht1⟩ := processSample_l1 m s f
  refine ⟨c1.trans hs.rand0_eq, c3.trans hs.dt_eq, c4.trans hs.shape_eq, c5.trans hs.k0_eq,
    c6.trans hs.k1_eq, ?_, ?_, ?_, ?_, ?_, ?_⟩
  · rw [processSample_h0, hc, h0, hs.h0_eq, pow_succ]; ring
  · rw [processSample_ap1_y0, h0, hs.y0_eq, hs.k0_eq, pow_succ]; ring
  · rw [ht, hc, hh, h0, hs.l0_eq, hs.y0_eq, hs.k0_eq, pow_succ, pow_succ]; ring
  · rw [processSample_h1, h1, hs.h1_eq]; ring
  · rw [processSample_ap1_y1, h1, hs.y1_eq]; ring
  · rw [ht1, hh, h1, hs.l1_eq, hs.y1_eq]; ring

end RunStepRight

section RunCoefficients

theorem overflow_coefficients (m : Libm ℝ) (hm : m.IsReal) (s : RubidiumDistortion ℝ)
    (hr : s.rand0 = 0.02) (hd : s.dt = 1 / 44100) (hs : s.shape = 4) :
    (updateCoefficients m (overflowControls m) s).cut0 = 1 / 2 ∧
    (updateCoefficients m (overflowControls m) s).hys1 = 0 ∧
    (updateCoefficients m (overflowControls m) s).adj3 =
      Real.exp (4 * (Real.log 7.1249993 / Real.log 10)) + 0.00000001 ∧
    (updateCoefficients m (overflowControls m) s).adj4 =
      Real.exp (4 * (Real.log 7.1249993 / Real.log 10)) + 0.00000001 := by
  have hpi := Real.pi_pos
  have h1 : Real.rpow (100 * 0.01) 1.2 = 1 := by
    rw [show (100 * 0.01 : ℝ) = 1 by norm_num]
    exact Real.one_rpow _
  have h2 : Real.rpow (0 * 0.1) 2 = 0 := by
    rw [zero_mul]
    exact Real.zero_rpow (by norm_num)
  have hg : (0.125 + (1 * 100 + 5) * 0.06666666 : ℝ) = 7.1249993 := by norm_num
  simp only [updateCoefficients, overflowControls, hm.powf_eq, hm.exp_eq, hm.log10_eq,
    hm.twoPi_eq, hr, hd, hs, h1, h2, hg]
  refine ⟨?_, ?_, ?_, ?_⟩
  · field_simp
    ring
  · norm_num
  · rw [if_neg (by norm_num)]
  · rw [if_neg (by norm_num)]

theorem overflow_saturation (m : Libm ℝ) (hm : m.IsReal) (s : RubidiumDistortion ℝ)
    (hr : s.rand0 = 0.02) (hd : s.dt = 1 / 44100) (hs : s.shape = 4) (in0 : ℝ) :
    saturation m (overflowControls m) (updateCoefficients m (overflowControls m) s) in0 0 =
      (Real.arctan (in0 * 1.1 * Real.rpow 10 (100 * 0.3 * 0.05)) *
          (Real.exp (4 * (Real.log 7.1249993 / Real.log 10)) + 0.00000001),
        0, Real.rpow 10 (100 * 0.3 * 0.05)) := by
  obtain ⟨-, -, h3, h4⟩ := overflow_coefficients m hm s hr hd hs
  have hz : Real.rpow 0 3 = 0 := Real.zero_rpow (by norm_num)
  have hdb : m.decibelsToGain (100 * 0.3) = Real.rpow 10 (100 * 0.3 * 0.05) := by
    rw [hm.decibelsToGain_eq, if_pos (by norm_num)]
  simp only [saturation, h3, h4, hm.powf_eq, hm.atan_eq]
  simp only [overflowControls, hz, hdb, zero_mul, sub_zero, Real.arctan_zero]

end RunCoefficients

section RunAmplitude

/-- The saturation output of a full-scale sample with drive 100 and mojo 100
lies between 45.3 and 57. -/
theorem overflow_amplitude_bounds :
    45.3 ≤ Real.arctan (1 * 1.1 * Real.rpow 10 (100 * 0.3 * 0.05)) *
        (Real.exp (4 * (Real.log 7.1249993 / Real.log 10)) + 0.00000001) ∧
      Real.arctan (1 * 1.1 * Real.rpow 10 (100 * 0.3 * 0.05)) *
        (Real.exp (4 * (Real.log 7.1249993 / Real.log 10)) + 0.00000001) ≤ 57 := by
  obtain ⟨g1, g2⟩ := exp_gain_bounds
  obtain ⟨d1, d2⟩ := drive_gain_bounds
  have hx : (0 : ℝ) < 1 * 1.1 * Real.rpow 10 (100 * 0.3 * 0.05) := by linarith
  have ha := arctan_ge _ hx
  have hb := Real.arctan_lt_pi_div_two (1 * 1.1 * Real.rpow 10 (100 * 0.3 * 0.05))
  have hx34 : (34 : ℝ) ≤ 1 * 1.1 * Real.rpow 10 (100 * 0.3 * 0.05) := by linarith
  have hinv : (1 * 1.1 * Real.rpow 10 (100 * 0.3 * 0.05))⁻¹ ≤ 0.03 :=
    le_trans (inv_anti₀ (by norm_num) hx34) (by norm_num)
  have p1 := Real.pi_gt_d4
  have p2 := Real.pi_lt_d4
  have hlo : (1.54 : ℝ) ≤ Real.arctan (1 * 1.1 * Real.rpow 10 (100 * 0.3 * 0.05)) := by linarith
  have hhi : Real.arctan (1 * 1.1 * Real.rpow 10 (100 * 0.3 * 0.05)) ≤ 1.5708 := by linarith
  constructor
  · nlinarith
  · nlinarith

theorem overflow_coeffFinite (m : Libm ℝ) (hm : m.IsReal) : CoeffFinite m (overflowControls m) := by
  have hpi := Real.pi_gt_three
  have h1 : Real.rpow (100 * 0.01) 1.2 = 1 := by
    rw [show (100 * 0.01 : ℝ) = 1 by norm_num]
    exact Real.one_rpow _
  have h2 : Real.rpow (0 * 0.1) 2 = 0 := by
    rw [zero_mul]
    exact Real.zero_rpow (by norm_num)
  have h3 : Real.rpow 0 3 = 0 := Real.zero_rpow (by norm_num)
  have ht : |22050 / (2 * Real.pi) - 0.02| ≤ (floatMax : ℝ) := by
    have hq : 22050 / (2 * Real.pi) ≤ 22050 := by
      rw [div_le_iff₀ (by positivity)]
      nlinarith
    have hq0 : 0 ≤ 22050 / (2 * Real.pi) := by positivity
    rw [abs_le]
    unfold floatMax
    constructor <;> linarith
  refine ⟨?_, ?_, ?_, ?_, ?_, ?_, ?_, ?_, ?_, ?_, ?_, ?_, ?_, ?_, ?_, ?_, ?_⟩ <;>
    simp only [overflowControls, hm.powf_eq, hm.twoPi_eq, h1, h2, h3] <;>
    first
      | exact ht
      | (unfold floatMax; rw [abs_le]; constructor <;> norm_num)
      | norm_num

end RunAmplitude

section OverflowRun

theorem atanFinite_zero {K : Type} [LinearOrderedField K] : AtanFinite (0 : K) :=
  atanApprox_toFp 0 (by norm_num)

theorem prepare_runState (m : Libm ℝ) (maxBlock : Nat) (cp : Controls ℝ)
    (u : RubidiumDistortion ℝ) (A : ℝ) :
    RunState A 0 (prepare m ⟨44100, maxBlock⟩ cp u.construct) := by
  refine ⟨rfl, rfl, rfl, rfl, rfl, ?_, ?_, ?_, rfl, rfl, rfl⟩
  · show (0 : ℝ) = _
    norm_num
  · show (0 : ℝ) = _
    norm_num
  · show (0 : ℝ) = _
    norm_num

theorem overflowFrame_controls {K : Type} [LinearOrderedField K] (m : Libm K) (k : Nat) :
    (overflowFrame m k).controls = overflowControls m := rfl

theorem overflowFrame_in0 {K : Type} [LinearOrderedField K] (m : Libm K) (k : Nat)
    (hk : k < 41) : (overflowFrame m k).in0 = 1 := by
  simp only [overflowFrame, if_pos hk]

theorem overflowFrame_in1 {K : Type} [LinearOrderedField K] (m : Libm K) (k : Nat) :
    (overflowFrame m k).in1 = 0 := rfl

/-- During the first 41 samples of the run the filter states follow the closed
form. -/
theorem overflow_runState (m : Libm ℝ) (hm : m.IsReal) (maxBlock : Nat) (cp : Controls ℝ)
    (u : RubidiumDistortion ℝ) (n : Nat) (hn : n ≤ 41) :
    RunState (Real.arctan (1 * 1.1 * Real.rpow 10 (100 * 0.3 * 0.05)) *
        (Real.exp (4 * (Real.log 7.1249993 / Real.log 10)) + 0.00000001)) n
      (stateAt m (prepare m ⟨44100, maxBlock⟩ cp u.construct) (overflowFrame m) n) := by
  induction n with
  | zero => exact prepare_runState m maxBlock cp u _
  | succ n ih =>
    have hs := ih (by omega)
    have hlt : n < 41 := by omega
    obtain ⟨hc, hh, -, -⟩ := overflow_coefficients m hm _ hs.rand0_eq hs.dt_eq hs.shape_eq
    have hsat := overflow_saturation m hm _ hs.rand0_eq hs.dt_eq hs.shape_eq 1
    refine runState_step m _ (overflowFrame m n) _ n hs ?_ ?_ ?_ ?_
    · rw [overflowFrame_controls]; exact hc
    · rw [overflowFrame_controls]; exact hh
    · rw [overflowFrame_controls, overflowFrame_in0 m n hlt, overflowFrame_in1, hsat]
    · rw [overflowFrame_controls, overflowFrame_in0 m n hlt, overflowFrame_in1, hsat]

end OverflowRun

section LoopBodyParts

variable {K : Type} [LinearOrderedField K]

theorem processSamplePre_spl0 (m : Libm K) (s : RubidiumDistortion K) (f : Frame K) :
    (processSamplePre m s f).2.1 =
      (saturation m f.controls (updateCoefficients m f.controls s) f.in0 f.in1).1 -
        (processSample m s f).1.h0 := rfl

theorem processSamplePre_spl1 (m : Libm K) (s : RubidiumDistortion K) (f : Frame K) :
    (processSamplePre m s f).2.2.1 =
      (saturation m f.controls (updateCoefficients m f.controls s) f.in0 f.in1).2.1 -
        (processSample m s f).1.h1 := rfl

theorem processSamplePre_delta0 (m : Libm K) (s : RubidiumDistortion K) (f : Frame K) :
    (processSamplePre m s f).1.delta0 =
      (processSample m s f).1.l0 * (processSample m s f).1.l0 := rfl

theorem processSamplePre_driveVal (m : Libm K) (s : RubidiumDistortion K) (f : Frame K) :
    (processSampleFront m s f).2.2.2 =
      (saturation m f.controls (updateCoefficients m f.controls s) f.in0 f.in1).2.2 := rfl

/-- With `cut2 = 0` and the second highpass and lowpass states at zero, the
values entering the second recombination are the outputs of the nested
allpass. -/
theorem processSampleSecond_eq (m : Libm K) (s : RubidiumDistortion K) (f : Frame K)
    (h : s.h2 = 0 ∧ s.h3 = 0 ∧ s.l2 = 0 ∧ s.l3 = 0) :
    processSampleSecond (processSampleFront m s f).1 (processSampleFront m s f).2.1
        (processSampleFront m s f).2.2.1 = processSampleAllpass m s f := by
  have hc := processSampleFront_cut2 m s f
  have h1 := signalHighpassSecond_id (processSampleAllpass m s f).1
    (processSampleAllpass m s f).2.1 (processSampleAllpass m s f).2.2 hc h.1 h.2.1
  have h2 := deltaLowpassSecond_id (processSampleAllpass m s f).1 hc h.2.2.1 h.2.2.2
  have h3 : processSampleSecond (processSampleFront m s f).1 (processSampleFront m s f).2.1
      (processSampleFront m s f).2.2.1 =
      (deltaLowpassSecond (signalHighpassSecond (processSampleAllpass m s f).1
        (processSampleAllpass m s f).2.1 (processSampleAllpass m s f).2.2).1,
       (signalHighpassSecond (processSampleAllpass m s f).1
        (processSampleAllpass m s f).2.1 (processSampleAllpass m s f).2.2).2.1,
       (signalHighpassSecond (processSampleAllpass m s f).1
        (processSampleAllpass m s f).2.1 (processSampleAllpass m s f).2.2).2.2) := rfl
  rw [h3, h1, h2]

/-- When both values entering the second recombination are zero, both output
samples are zero. -/
theorem processSampleBack_zero (s : RubidiumDistortion K) (spl0 spl1 driveVal : K)
    (h0 : (processSampleSecond s spl0 spl1).2.1 = 0)
    (h1 : (processSampleSecond s spl0 spl1).2.2 = 0) :
    (processSampleBack s spl0 spl1 driveVal).2.1 = 0 ∧
      (processSampleBack s spl0 spl1 driveVal).2.2 = 0 := by
  have e0 : (processSampleBack s spl0 spl1 driveVal).2.1 =
      (outputGain (processSampleSecond s spl0 spl1).1 driveVal
        (recombineSecond (processSampleSecond s spl0 spl1).1 (processSampleSecond s spl0 spl1).2.1
          (processSampleSecond s spl0 spl1).2.2).1
        (recombineSecond (processSampleSecond s spl0 spl1).1 (processSampleSecond s spl0 spl1).2.1
          (processSampleSecond s spl0 spl1).2.2).2).1 := rfl
  have e1 : (processSampleBack s spl0 spl1 driveVal).2.2 =
      (outputGain (processSampleSecond s spl0 spl1).1 driveVal
        (recombineSecond (processSampleSecond s spl0 spl1).1 (processSampleSecond s spl0 spl1).2.1
          (processSampleSecond s spl0 spl1).2.2).1
        (recombineSecond (processSampleSecond s spl0 spl1).1 (processSampleSecond s spl0 spl1).2.1
          (processSampleSecond s spl0 spl1).2.2).2).2 := rfl
  rw [e0, e1, h0, h1]
  simp [outputGain, recombineSecond, atanApprox_zero]

end LoopBodyParts

section OverflowRunFinite

/-- The closed form of the lowpass state stays between `-1.375 A` and `A`. -/
theorem lowpass_factor_bounds (n : Nat) :
    (-1.375 : ℝ) ≤ 1 - 2.375 * 0.9 ^ n + 1.375 * (1 / 2) ^ n ∧
      (1 - 2.375 * 0.9 ^ n + 1.375 * (1 / 2) ^ n : ℝ) ≤ 1 := by
  have h1 : (0.9 : ℝ) ^ n ≤ 1 := pow_le_one₀ (by norm_num) (by norm_num)
  have h2 : (0 : ℝ) ≤ (1 / 2) ^ n := by positivity
  have h3 : ((1 / 2 : ℝ)) ^ n ≤ 0.9 ^ n := pow_le_pow_left₀ (by norm_num) (by norm_num) n
  have h4 : (0 : ℝ) ≤ 0.9 ^ n := by positivity
  constructor <;> linarith

/-- In the first 41 samples of the run the argument of the first
recombination stays below `300000` in magnitude. -/
theorem overflow_first_arg (A : ℝ) (hA0 : 0 ≤ A) (hA : A ≤ 57) (n : Nat) :
    |(A - A * (1 - (1 / 2) ^ (n + 1))) *
      (A * (1 - 2.375 * 0.9 ^ (n + 1) + 1.375 * (1 / 2) ^ (n + 1)) *
        (A * (1 - 2.375 * 0.9 ^ (n + 1) + 1.375 * (1 / 2) ^ (n + 1))))| ≤ 300000 := by
  obtain ⟨l1, l2⟩ := lowpass_factor_bounds (n + 1)
  have hp0 : (0 : ℝ) ≤ (1 / 2) ^ (n + 1) := by positivity
  have hp1 : ((1 / 2 : ℝ)) ^ (n + 1) ≤ 1 / 2 := by
    rw [pow_succ]
    have : ((1 / 2 : ℝ)) ^ n ≤ 1 := pow_le_one₀ (by norm_num) (by norm_num)
    nlinarith
  have hl : (1 - 2.375 * 0.9 ^ (n + 1) + 1.375 * (1 / 2) ^ (n + 1) : ℝ) *
      (1 - 2.375 * 0.9 ^ (n + 1) + 1.375 * (1 / 2) ^ (n + 1)) ≤ 1.890625 := by nlinarith
  have hl0 : (0 : ℝ) ≤ (1 - 2.375 * 0.9 ^ (n + 1) + 1.375 * (1 / 2) ^ (n + 1)) *
      (1 - 2.375 * 0.9 ^ (n + 1) + 1.375 * (1 / 2) ^ (n + 1)) := mul_self_nonneg _
  have hA2 : A * A ≤ 3249 := by nlinarith
  have hA3 : A * A * A ≤ 185193 := by nlinarith [mul_nonneg hA0 hA0]
  have hA30 : 0 ≤ A * A * A := by positivity
  have hq : (1 / 2 : ℝ) ^ (n + 1) *
      ((1 - 2.375 * 0.9 ^ (n + 1) + 1.375 * (1 / 2) ^ (n + 1)) *
        (1 - 2.375 * 0.9 ^ (n + 1) + 1.375 * (1 / 2) ^ (n + 1))) ≤ 1 / 2 * 1.890625 :=
    mul_le_mul hp1 hl hl0 (by norm_num)
  have hq0 : (0 : ℝ) ≤ (1 / 2 : ℝ) ^ (n + 1) *
      ((1 - 2.375 * 0.9 ^ (n + 1) + 1.375 * (1 / 2) ^ (n + 1)) *
        (1 - 2.375 * 0.9 ^ (n + 1) + 1.375 * (1 / 2) ^ (n + 1))) := mul_nonneg hp0 hl0
  have heq : (A - A * (1 - (1 / 2) ^ (n + 1))) *
      (A * (1 - 2.375 * 0.9 ^ (n + 1) + 1.375 * (1 / 2) ^ (n + 1)) *
        (A * (1 - 2.375 * 0.9 ^ (n + 1) + 1.375 * (1 / 2) ^ (n + 1)))) =
      A * A * A * ((1 / 2 : ℝ) ^ (n + 1) *
        ((1 - 2.375 * 0.9 ^ (n + 1) + 1.375 * (1 / 2) ^ (n + 1)) *
          (1 - 2.375 * 0.9 ^ (n + 1) + 1.375 * (1 / 2) ^ (n + 1)))) := by ring
  rw [heq, abs_of_nonneg (mul_nonneg hA30 hq0)]
  calc A * A * A * ((1 / 2 : ℝ) ^ (n + 1) *
        ((1 - 2.375 * 0.9 ^ (n + 1) + 1.375 * (1 / 2) ^ (n + 1)) *
          (1 - 2.375 * 0.9 ^ (n + 1) + 1.375 * (1 / 2) ^ (n + 1))))
      ≤ 185193 * (1 / 2 * 1.890625) := mul_le_mul hA3 hq hq0 (by norm_num)
    _ ≤ 300000 := by norm_num

/-- No floating-point exception occurs in the first 41 samples of the run,
and both output samples are zero. -/
theorem overflow_noOverflow (m : Libm ℝ) (hm : m.IsReal) (maxBlock : Nat) (cp : Controls ℝ)
    (u : RubidiumDistortion ℝ) (k : Nat) (hk : k < 41) :
    NoOverflow m (stateAt m (prepare m ⟨44100, maxBlock⟩ cp u.construct) (overflowFrame m) k)
        (overflowFrame m k) ∧
      (processSample m (stateAt m (prepare m ⟨44100, maxBlock⟩ cp u.construct)
        (overflowFrame m) k) (overflowFrame m k)).2 = (0, 0) := by
  have hs := overflow_runState m hm maxBlock cp u k (by omega)
  have hs1 := overflow_runState m hm maxBlock cp u (k + 1) (by omega)
  obtain ⟨a1, a2⟩ := overflow_amplitude_bounds
  obtain ⟨-, -, hadj3, hadj4⟩ := overflow_coefficients m hm _ hs.rand0_eq hs.dt_eq hs.shape_eq
  have hsat := overflow_saturation m hm _ hs.rand0_eq hs.dt_eq hs.shape_eq 1
  have hready := prepare_delayReady m ⟨44100, maxBlock⟩ cp u
  have hsec := stateAt_second_states m (prepare m ⟨44100, maxBlock⟩ cp u.construct)
    (overflowFrame m) ⟨rfl, rfl, rfl, rfl⟩ k
  have hsecond := processSampleSecond_eq m _ (overflowFrame m k) hsec
  have ho2 := (delayOut_pure_delay m _ (overflowFrame m) 882 42 hready 2 k).1
    (by rw [regionLength_two]; omega)
  have ho3 := (delayOut_pure_delay m _ (overflowFrame m) 882 42 hready 3 k).1
    (by rw [regionLength_three]; omega)
  have ho2' : (processSampleAllpass m (stateAt m (prepare m ⟨44100, maxBlock⟩ cp u.construct)
      (overflowFrame m) k) (overflowFrame m k)).2.1 = 0 := ho2
  have ho3' : (processSampleAllpass m (stateAt m (prepare m ⟨44100, maxBlock⟩ cp u.construct)
      (overflowFrame m) k) (overflowFrame m k)).2.2 = 0 := ho3
  have hzero := processSampleBack_zero _ _ _
    (processSampleFront m (stateAt m (prepare m ⟨44100, maxBlock⟩ cp u.construct)
      (overflowFrame m) k) (overflowFrame m k)).2.2.2
    (by rw [hsecond]; exact ho2') (by rw [hsecond]; exact ho3')
  have hd := drive_gain_bounds
  have hg := exp_gain_bounds
  refine ⟨⟨overflow_coeffFinite m hm, ?_, ?_, ⟨?_, ?_, ?_, ?_, ?_, ?_⟩⟩, ?_⟩
  · apply atanApprox_toFp
    rw [processSamplePre_spl0, processSamplePre_delta0]
    have e1 : (processSample m (stateAt m (prepare m ⟨44100, maxBlock⟩ cp u.construct)
        (overflowFrame m) k) (overflowFrame m k)).1.h0 = _ := hs1.h0_eq
    have e2 : (processSample m (stateAt m (prepare m ⟨44100, maxBlock⟩ cp u.construct)
        (overflowFrame m) k) (overflowFrame m k)).1.l0 = _ := hs1.l0_eq
    rw [e1, e2, overflowFrame_controls, overflowFrame_in0 m k hk, overflowFrame_in1, hsat]
    exact overflow_first_arg _ (by linarith) a2 k
  · rw [processSamplePre_spl1]
    have e1 : (processSample m (stateAt m (prepare m ⟨44100, maxBlock⟩ cp u.construct)
        (overflowFrame m) k) (overflowFrame m k)).1.h1 = _ := hs1.h1_eq
    rw [e1, overflowFrame_controls, overflowFrame_in0 m k hk, overflowFrame_in1, hsat]
    simp only [sub_zero, zero_mul]
    exact atanFinite_zero
  · rw [hsecond, ho2', zero_mul]
    exact atanFinite_zero
  · rw [hsecond, ho3', zero_mul]
    exact atanFinite_zero
  · rw [hsecond, processSamplePre_driveVal, overflowFrame_controls, overflowFrame_in0 m k hk,
      overflowFrame_in1, hsat]
    have e3 : (processSampleAllpass m (stateAt m (prepare m ⟨44100, maxBlock⟩ cp u.construct)
        (overflowFrame m) k) (overflowFrame m k)).1.adj3 =
        (updateCoefficients m (overflowControls m) (stateAt m
          (prepare m ⟨44100, maxBlock⟩ cp u.construct) (overflowFrame m) k)).adj3 := rfl
    rw [e3, hadj3]
    have : 0 < (Real.exp (4 * (Real.log 7.1249993 / Real.log 10)) + 0.00000001) *
        (Real.rpow 10 (100 * 0.3 * 0.05) * 0.1 + 1.0) := by
      apply mul_pos <;> linarith [hd.1, hg.1]
    exact this.ne'
  · rw [hsecond, processSamplePre_driveVal, overflowFrame_controls, overflowFrame_in0 m k hk,
      overflowFrame_in1, hsat]
    have e3 : (processSampleAllpass m (stateAt m (prepare m ⟨44100, maxBlock⟩ cp u.construct)
        (overflowFrame m) k) (overflowFrame m k)).1.adj4 =
        (updateCoefficients m (overflowControls m) (stateAt m
          (prepare m ⟨44100, maxBlock⟩ cp u.construct) (overflowFrame m) k)).adj4 := rfl
    rw [e3, hadj4]
    have : 0 < (Real.exp (4 * (Real.log 7.1249993 / Real.log 10)) + 0.00000001) *
        (Real.rpow 10 (100 * 0.3 * 0.05) * 0.1 + 1.0) := by
      apply mul_pos <;> linarith [hd.1, hg.1]
    exact this.ne'
  · rw [hzero.1, abs_zero]; exact floatMax_pos.le
  · rw [hzero.2, abs_zero]; exact floatMax_pos.le
  · rw [processSample_eq_front_back]
    exact Prod.ext hzero.1 hzero.2

end OverflowRunFinite

section NonFinite

variable {K : Type} [LinearOrderedField K]

theorem atanApprox_nan : Ieee.atanApprox (Fp.nan : Fp K) = Fp.nan := by
  simp only [Ieee.atanApprox, Ieee.FastMathApproximations.tanh, Fp.toFloat_nan, Fp.nan_mul,
    Fp.add_nan, Fp.mul_nan, Fp.nan_div, Fp.nan_add]

theorem Fp.negInf_mul_zero : (Fp.negInf * Fp.fin (0 : K) : Fp K) = Fp.nan := by
  show Fp.mul Fp.negInf (Fp.fin 0) = _
  simp [Fp.mul, Fp.signedInf]

/-- Once the first recombination has returned `-inf` on the left channel, with
`g = 0` the output of delay region 2 is NaN, and so are the state `h2` of the
second highpass and the left output sample. -/
theorem processSampleBack_negInf (S : RubidiumDistortion (Fp K)) (b d : Fp K) (v e : K)
    (hg : S.g = .fin 0) (hc : S.cDenorm = .fin e)
    (hst : Ieee.getSample S.dataBuffer (S.v_n_buf2 + S.pos2) = .fin v) :
    (Ieee.nestedAllpass S .negInf b).2.1 = .nan ∧
      (Ieee.processSampleBack S .negInf b d).1.h2 = .nan ∧
      (Ieee.processSampleBack S .negInf b d).2.1 = .nan := by
  have h1 : (Ieee.nestedAllpass S .negInf b).2.1 = .nan := by
    simp only [Ieee.nestedAllpass, hg, hc, hst, Fp.neg_fin, Fp.fin_mul_fin, Fp.negInf_add_fin,
      Fp.negInf_mul_zero, Fp.nan_add]
  have h2 : (Ieee.processSampleBack S .negInf b d).1.h2 =
      (Ieee.nestedAllpass S .negInf b).1.h2 +
        ((Ieee.nestedAllpass S .negInf b).2.1 - (Ieee.nestedAllpass S .negInf b).1.h2) *
          (Ieee.nestedAllpass S .negInf b).1.cut2 := rfl
  have h3 : ∃ den r1 q vol, (Ieee.processSampleBack S .negInf b d).2.1 =
      Fp.toFloat (Ieee.atanApprox (((Ieee.nestedAllpass S .negInf b).2.1 -
        (Ieee.processSampleBack S .negInf b d).1.h2) * r1) / den / q * vol) :=
    ⟨_, _, _, _, rfl⟩
  obtain ⟨den, r1, q, vol, h4⟩ := h3
  refine ⟨h1, ?_, ?_⟩
  · rw [h2, h1, Fp.nan_sub, Fp.nan_mul, Fp.add_nan]
  · rw [h4, h1, Fp.nan_sub, Fp.nan_mul, atanApprox_nan, Fp.nan_div, Fp.nan_div, Fp.nan_mul,
      Fp.toFloat_nan]

end NonFinite

section LastSample

theorem overflowFrame_last {K : Type} [LinearOrderedField K] (m : Libm K) :
    (overflowFrame m 41).in0 = -1 := by
  simp only [overflowFrame, lt_irrefl, if_false]

/-- The argument of the first recombination at sample 41 of the run, in terms
of the saturation amplitude `A`: between `-1000000` and `-319600`. -/
theorem overflow_last_arg (A : ℝ) (h1 : 45.3 ≤ A) (h2 : A ≤ 57) (t : ℝ) :
    (-A - (A * (1 - (1 / 2) ^ 41) + (-A - A * (1 - (1 / 2) ^ 41)) * (1 / 2)) < 0 ∧
      (A * (1 - 2.375 * 0.9 ^ 41 + 1.375 * (1 / 2) ^ 41) +
        (1.9 * A * (1 - 0.9 ^ 41) + -0.9 * -A + 0 * t -
          A * (1 - 2.375 * 0.9 ^ 41 + 1.375 * (1 / 2) ^ 41)) * (1 / 2)) *
        (A * (1 - 2.375 * 0.9 ^ 41 + 1.375 * (1 / 2) ^ 41) +
        (1.9 * A * (1 - 0.9 ^ 41) + -0.9 * -A + 0 * t -
          A * (1 - 2.375 * 0.9 ^ 41 + 1.375 * (1 / 2) ^ 41)) * (1 / 2)) ≠ 0) ∧
    -1000000 ≤ (-A - (A * (1 - (1 / 2) ^ 41) + (-A - A * (1 - (1 / 2) ^ 41)) * (1 / 2))) *
      ((A * (1 - 2.375 * 0.9 ^ 41 + 1.375 * (1 / 2) ^ 41) +
        (1.9 * A * (1 - 0.9 ^ 41) + -0.9 * -A + 0 * t -
          A * (1 - 2.375 * 0.9 ^ 41 + 1.375 * (1 / 2) ^ 41)) * (1 / 2)) *
        (A * (1 - 2.375 * 0.9 ^ 41 + 1.375 * (1 / 2) ^ 41) +
        (1.9 * A * (1 - 0.9 ^ 41) + -0.9 * -A + 0 * t -
          A * (1 - 2.375 * 0.9 ^ 41 + 1.375 * (1 / 2) ^ 41)) * (1 / 2))) ∧
    (-A - (A * (1 - (1 / 2) ^ 41) + (-A - A * (1 - (1 / 2) ^ 41)) * (1 / 2))) *
      ((A * (1 - 2.375 * 0.9 ^ 41 + 1.375 * (1 / 2) ^ 41) +
        (1.9 * A * (1 - 0.9 ^ 41) + -0.9 * -A + 0 * t -
          A * (1 - 2.375 * 0.9 ^ 41 + 1.375 * (1 / 2) ^ 41)) * (1 / 2)) *
        (A * (1 - 2.375 * 0.9 ^ 41 + 1.375 * (1 / 2) ^ 41) +
        (1.9 * A * (1 - 0.9 ^ 41) + -0.9 * -A + 0 * t -
          A * (1 - 2.375 * 0.9 ^ 41 + 1.375 * (1 / 2) ^ 41)) * (1 / 2))) ≤ -319600 := by
  have hx : -A - (A * (1 - (1 / 2) ^ 41) + (-A - A * (1 - (1 / 2) ^ 41)) * (1 / 2)) =
      -(A * (1 - (1 / 2) ^ 42)) := by ring
  have hl : A * (1 - 2.375 * 0.9 ^ 41 + 1.375 * (1 / 2) ^ 41) +
        (1.9 * A * (1 - 0.9 ^ 41) + -0.9 * -A + 0 * t -
          A * (1 - 2.375 * 0.9 ^ 41 + 1.375 * (1 / 2) ^ 41)) * (1 / 2) =
      A * (1.9 - 2.1375 * 0.9 ^ 41 + 0.6875 * (1 / 2) ^ 41) := by ring
  have hA0 : 0 < A := by linarith
  have hp : (0 : ℝ) < 1 - (1 / 2) ^ 42 := by norm_num
  have hmu : (0 : ℝ) < 1.9 - 2.1375 * 0.9 ^ 41 + 0.6875 * (1 / 2) ^ 41 := by norm_num
  have hc1 : (3.5 : ℝ) ≤ (1 - (1 / 2) ^ 42) * ((1.9 - 2.1375 * 0.9 ^ 41 + 0.6875 * (1 / 2) ^ 41) *
      (1.9 - 2.1375 * 0.9 ^ 41 + 0.6875 * (1 / 2) ^ 41)) := by norm_num
  have hc2 : (1 - (1 / 2) ^ 42) * ((1.9 - 2.1375 * 0.9 ^ 41 + 0.6875 * (1 / 2) ^ 41) *
      (1.9 - 2.1375 * 0.9 ^ 41 + 0.6875 * (1 / 2) ^ 41)) ≤ (3.51 : ℝ) := by norm_num
  have hA2 : 45.3 * 45.3 ≤ A * A := by nlinarith
  have hA2' : A * A ≤ 57 * 57 := by nlinarith
  have hA3 : 45.3 * 45.3 * 45.3 ≤ A * A * A := by nlinarith
  have hA3' : A * A * A ≤ 57 * 57 * 57 := by nlinarith
  have hA30 : 0 ≤ A * A * A := by positivity
  have hprod : (-(A * (1 - (1 / 2) ^ 42))) *
      ((A * (1.9 - 2.1375 * 0.9 ^ 41 + 0.6875 * (1 / 2) ^ 41)) *
        (A * (1.9 - 2.1375 * 0.9 ^ 41 + 0.6875 * (1 / 2) ^ 41))) =
      -(A * A * A * ((1 - (1 / 2) ^ 42) * ((1.9 - 2.1375 * 0.9 ^ 41 + 0.6875 * (1 / 2) ^ 41) *
        (1.9 - 2.1375 * 0.9 ^ 41 + 0.6875 * (1 / 2) ^ 41)))) := by ring
  have hlo : 45.3 * 45.3 * 45.3 * 3.5 ≤ A * A * A * ((1 - (1 / 2) ^ 42) *
      ((1.9 - 2.1375 * 0.9 ^ 41 + 0.6875 * (1 / 2) ^ 41) *
        (1.9 - 2.1375 * 0.9 ^ 41 + 0.6875 * (1 / 2) ^ 41))) :=
    mul_le_mul hA3 hc1 (by norm_num) hA30
  have hhi : A * A * A * ((1 - (1 / 2) ^ 42) *
      ((1.9 - 2.1375 * 0.9 ^ 41 + 0.6875 * (1 / 2) ^ 41) *
        (1.9 - 2.1375 * 0.9 ^ 41 + 0.6875 * (1 / 2) ^ 41))) ≤ 57 * 57 * 57 * 3.51 :=
    mul_le_mul hA3' hc2 (by linarith) (by norm_num)
  rw [hx, hl, hprod]
  refine ⟨⟨?_, ?_⟩, ?_, ?_⟩
  · have := mul_pos hA0 hp
    linarith
  · exact (mul_pos (mul_pos hA0 hmu) (mul_pos hA0 hmu)).ne'
  · norm_num at hhi ⊢
    linarith
  · norm_num at hlo ⊢
    linarith

end LastSample

section LastSampleFront

theorem processSampleFront_eq_pre {K : Type} [LinearOrderedField K] (mx : Libm (Fp K))
    (s : RubidiumDistortion (Fp K)) (f : Frame (Fp K)) :
    Ieee.processSampleFront mx s f =
      ((Ieee.processSamplePre mx s f).1,
        (Ieee.recombineFirst (Ieee.processSamplePre mx s f).1 (Ieee.processSamplePre mx s f).2.1
          (Ieee.processSamplePre mx s f).2.2.1).1,
        (Ieee.recombineFirst (Ieee.processSamplePre mx s f).1 (Ieee.processSamplePre mx s f).2.1
          (Ieee.processSamplePre mx s f).2.2.1).2,
        (Ieee.processSamplePre mx s f).2.2.2) := rfl

theorem processSample_eq_front_back_fp {K : Type} [LinearOrderedField K] (mx : Libm (Fp K))
    (s : RubidiumDistortion (Fp K)) (f : Frame (Fp K)) :
    Ieee.processSample mx s f =
      Ieee.processSampleBack (Ieee.processSampleFront mx s f).1
        (Ieee.processSampleFront mx s f).2.1 (Ieee.processSampleFront mx s f).2.2.1
        (Ieee.processSampleFront mx s f).2.2.2 := rfl

/-- Sample 41 of the run, on floating values: everything up to the first
signal highpass is finite and the first recombination returns `-inf` on the
left channel. -/
theorem overflow_last_front (m : Libm ℝ) (mx : Libm (Fp ℝ)) (hm : m.IsReal) (hx : mx.Extends m)
    (maxBlock : Nat) (cp : Controls ℝ) (u : RubidiumDistortion ℝ) :
    (Ieee.processSampleFront mx
        (stateAt m (prepare m ⟨44100, maxBlock⟩ cp u.construct) (overflowFrame m) 41).toFp
        (overflowFrame m 41).toFp).1 =
      (processSamplePre m (stateAt m (prepare m ⟨44100, maxBlock⟩ cp u.construct)
        (overflowFrame m) 41) (overflowFrame m 41)).1.toFp ∧
    (Ieee.processSampleFront mx
        (stateAt m (prepare m ⟨44100, maxBlock⟩ cp u.construct) (overflowFrame m) 41).toFp
        (overflowFrame m 41).toFp).2.1 = .negInf := by
  have hs := overflow_runState m hm maxBlock cp u 41 (le_refl _)
  obtain ⟨a1, a2⟩ := overflow_amplitude_bounds
  obtain ⟨hc0, hh1, -, -⟩ := overflow_coefficients m hm _ hs.rand0_eq hs.dt_eq hs.shape_eq
  have hsat := overflow_saturation m hm _ hs.rand0_eq hs.dt_eq hs.shape_eq (-1)
  have hneg : Real.arctan (-1 * 1.1 * Real.rpow 10 (100 * 0.3 * 0.05)) =
      -Real.arctan (1 * 1.1 * Real.rpow 10 (100 * 0.3 * 0.05)) := by
    rw [← Real.arctan_neg]
    congr 1
    ring
  have hsat1 : (saturation m (overflowControls m) (updateCoefficients m (overflowControls m)
      (stateAt m (prepare m ⟨44100, maxBlock⟩ cp u.construct) (overflowFrame m) 41)) (-1) 0).1 =
      -(Real.arctan (1 * 1.1 * Real.rpow 10 (100 * 0.3 * 0.05)) *
        (Real.exp (4 * (Real.log 7.1249993 / Real.log 10)) + 0.00000001)) := by
    rw [hsat, hneg, neg_mul]
  obtain ⟨t, ht⟩ := processSample_l0 m (stateAt m (prepare m ⟨44100, maxBlock⟩ cp u.construct)
    (overflowFrame m) 41) (overflowFrame m 41)
  have hh0 := processSample_h0 m (stateAt m (prepare m ⟨44100, maxBlock⟩ cp u.construct)
    (overflowFrame m) 41) (overflowFrame m 41)
  rw [overflowFrame_controls, overflowFrame_last, overflowFrame_in1, hsat1, hc0, hs.h0_eq] at hh0
  rw [overflowFrame_controls, overflowFrame_last, overflowFrame_in1, hsat1, hc0, hh1, hs.l0_eq,
    hs.y0_eq, hs.k0_eq] at ht
  have hx0 := processSamplePre_spl0 m (stateAt m (prepare m ⟨44100, maxBlock⟩ cp u.construct)
    (overflowFrame m) 41) (overflowFrame m 41)
  rw [overflowFrame_controls, overflowFrame_last, overflowFrame_in1, hsat1, hh0] at hx0
  have hd0 := processSamplePre_delta0 m (stateAt m (prepare m ⟨44100, maxBlock⟩ cp u.construct)
    (overflowFrame m) 41) (overflowFrame m 41)
  rw [ht] at hd0
  obtain ⟨⟨b1, b2⟩, b3, b4⟩ := overflow_last_arg _ a1 a2 t
  rw [← hx0] at b1 b3 b4
  rw [← hd0] at b2 b3 b4
  have hP := processSamplePre_toFp m mx hx (stateAt m (prepare m ⟨44100, maxBlock⟩ cp u.construct)
    (overflowFrame m) 41) (overflowFrame m 41)
    (by rw [overflowFrame_controls]; exact overflow_coeffFinite m hm)
  have hov := atanApprox_overflow _ b3 b4
  have hdn : 0 ≤ (processSamplePre m (stateAt m (prepare m ⟨44100, maxBlock⟩ cp u.construct)
      (overflowFrame m) 41) (overflowFrame m 41)).1.delta0 := by
    rw [processSamplePre_delta0]
    exact mul_self_nonneg _
  rw [processSampleFront_eq_pre, hP]
  refine ⟨rfl, ?_⟩
  simp only [Ieee.recombineFirst, RubidiumDistortion.toFp, Fp.fin_mul_fin, hov, Fp.eq_fin_fin,
    decide_eq_true_eq, if_neg b1.ne, if_neg b2, Fp.negInf_div_fin _ hdn]

end LastSampleFront

section OverflowBlock

variable {K : Type} [LinearOrderedField K]

/-- On floating values, a block processed in one call is the block processed in
two consecutive calls. -/
theorem processBlock_append_fp (mx : Libm (Fp K)) (s : RubidiumDistortion (Fp K))
    (fs gs : List (Frame (Fp K))) :
    Ieee.processBlock mx s (fs ++ gs) =
      ((Ieee.processBlock mx (Ieee.processBlock mx s fs).1 gs).1,
       (Ieee.processBlock mx s fs).2 ++ (Ieee.processBlock mx (Ieee.processBlock mx s fs).1 gs).2) := by
  induction fs generalizing s with
  | nil => simp [Ieee.processBlock]
  | cons f fs ih => simp [Ieee.processBlock, ih]

theorem noOverflowBlock_append (m : Libm K) (s : RubidiumDistortion K) (fs gs : List (Frame K))
    (h1 : NoOverflowBlock m s fs) (h2 : NoOverflowBlock m (processBlock m s fs).1 gs) :
    NoOverflowBlock m s (fs ++ gs) := by
  induction fs generalizing s with
  | nil => exact h2
  | cons f fs ih => exact ⟨h1.1, ih _ h1.2 h2⟩

theorem noOverflowBlock_range (m : Libm K) (s : RubidiumDistortion K) (fr : Nat → Frame K)
    (n : Nat) (h : ∀ k < n, NoOverflow m (stateAt m s fr k) (fr k)) :
    NoOverflowBlock m s ((List.range n).map fr) := by
  induction n with
  | zero => exact trivial
  | succ n ih =>
    rw [List.range_succ, List.map_append]
    refine noOverflowBlock_append m s _ _ (ih fun k hk => h k (by omega)) ?_
    rw [← stateAt_eq_processBlock]
    exact ⟨h n (by omega), trivial⟩

theorem processBlock_range_zero (m : Libm K) (s : RubidiumDistortion K) (fr : Nat → Frame K)
    (n : Nat) (h : ∀ k < n, (processSample m (stateAt m s fr k) (fr k)).2 = (0, 0)) :
    (processBlock m s ((List.range n).map fr)).2 = List.replicate n (0, 0) := by
  induction n with
  | zero => rfl
  | succ n ih =>
    have e : (processBlock m (stateAt m s fr n) ([n].map fr)).2 = [(0, 0)] := by
      show [(processSample m (stateAt m s fr n) (fr n)).2] = _
      rw [h n (by omega)]
    rw [List.range_succ, List.map_append, processBlock_append, ← stateAt_eq_processBlock,
      ih fun k hk => h k (by omega), List.replicate_succ']
    show _ ++ _ = _
    rw [e]

end OverflowBlock

section OverflowRunResult

theorem processSamplePre_g {K : Type} [LinearOrderedField K] (m : Libm K)
    (s : RubidiumDistortion K) (f : Frame K) : (processSamplePre m s f).1.g = s.g := rfl

theorem processSampleBack_negInf_toFp {K : Type} [LinearOrderedField K]
    (s : RubidiumDistortion K) (b d : Fp K) (hg : s.g = 0) :
    (Ieee.nestedAllpass s.toFp .negInf b).2.1 = .nan ∧
      (Ieee.processSampleBack s.toFp .negInf b d).1.h2 = .nan ∧
      (Ieee.processSampleBack s.toFp .negInf b d).2.1 = .nan :=
  processSampleBack_negInf s.toFp b d (s.dataBuffer.data (s.v_n_buf2 + s.pos2)) s.cDenorm
    (congrArg Fp.fin hg) rfl rfl


/-- The run that leads to the overflow, on floating values: the first 41
samples agree with the embedding over the reals and return zero on both
channels; in sample 41 the first recombination returns `-inf`, the output of
delay region 2 is NaN, `h2` becomes NaN and the left output sample is NaN. -/
theorem overflow_run (m : Libm ℝ) (mx : Libm (Fp ℝ)) (hm : m.IsReal) (hx : mx.Extends m)
    (maxBlock : Nat) (cp : Controls ℝ) (u : RubidiumDistortion ℝ) :
    Ieee.processBlock mx (prepare m ⟨44100, maxBlock⟩ cp u.construct).toFp
        (((List.range 41).map (overflowFrame m)).map Frame.toFp) =
      ((stateAt m (prepare m ⟨44100, maxBlock⟩ cp u.construct) (overflowFrame m) 41).toFp,
        List.replicate 41 (Fp.fin 0, Fp.fin 0)) ∧
    (Ieee.processSampleFront mx
        (stateAt m (prepare m ⟨44100, maxBlock⟩ cp u.construct) (overflowFrame m) 41).toFp
        (overflowFrame m 41).toFp).2.1 = .negInf ∧
    (Ieee.processSampleAllpass mx
        (stateAt m (prepare m ⟨44100, maxBlock⟩ cp u.construct) (overflowFrame m) 41).toFp
        (overflowFrame m 41).toFp).2.1 = .nan ∧
    (Ieee.processSample mx
        (stateAt m (prepare m ⟨44100, maxBlock⟩ cp u.construct) (overflowFrame m) 41).toFp
        (overflowFrame m 41).toFp).1.h2 = .nan ∧
    (Ieee.processSample mx
        (stateAt m (prepare m ⟨44100, maxBlock⟩ cp u.construct) (overflowFrame m) 41).toFp
        (overflowFrame m 41).toFp).2.1 = .nan := by
  have hno := fun k hk => overflow_noOverflow m hm maxBlock cp u k hk
  obtain ⟨f1, f2⟩ := overflow_last_front m mx hm hx maxBlock cp u
  have hg0 := (stateAt_delay_invariant m _ (overflowFrame m) 882 42
    (prepare_delayReady m ⟨44100, maxBlock⟩ cp u) 41).1.g_eq
  have hback := processSampleBack_negInf_toFp
    (processSamplePre m (stateAt m (prepare m ⟨44100, maxBlock⟩ cp u.construct)
      (overflowFrame m) 41) (overflowFrame m 41)).1
    (Ieee.processSampleFront mx
        (stateAt m (prepare m ⟨44100, maxBlock⟩ cp u.construct) (overflowFrame m) 41).toFp
        (overflowFrame m 41).toFp).2.2.1
    (Ieee.processSampleFront mx
        (stateAt m (prepare m ⟨44100, maxBlock⟩ cp u.construct) (overflowFrame m) 41).toFp
        (overflowFrame m 41).toFp).2.2.2
    ((processSamplePre_g m _ _).trans hg0)
  refine ⟨?_, f2, ?_, ?_, ?_⟩
  · rw [processBlock_toFp m mx hx _ _ (noOverflowBlock_range m _ _ 41 fun k hk => (hno k hk).1),
      ← stateAt_eq_processBlock, processBlock_range_zero m _ _ 41 fun k hk => (hno k hk).2,
      List.map_replicate]
  · rw [Ieee.processSampleAllpass, f1, f2]
    exact hback.1
  · rw [processSample_eq_front_back_fp, f1, f2]
    exact hback.2.1
  · rw [processSample_eq_front_back_fp, f1, f2]
    exact hback.2.2

end OverflowRunResult

section FloatRecombination

variable {K : Type} [LinearOrderedField K]

theorem atanApprox_fin_zero : Ieee.atanApprox (Fp.fin (0 : K)) = Fp.fin 0 := by
  have h := atanFinite_zero (K := K)
  unfold AtanFinite at h
  rw [h, atanApprox_zero]

theorem Fp.eq_fin_zero_iff (a : Fp K) : Fp.eq a (Fp.fin 0) = true ↔ a = Fp.fin 0 := by
  cases a with
  | fin x => simp [Fp.eq]
  | posInf => simp [Fp.eq]
  | negInf => simp [Fp.eq]
  | nan => simp [Fp.eq]

theorem Fp.mul_fin_zero (a : Fp K) :
    a * Fp.fin (0 : K) = Fp.fin 0 ∨ a * Fp.fin (0 : K) = Fp.nan := by
  cases a with
  | fin x => left; show Fp.fin (x * 0) = _; rw [mul_zero]
  | posInf => right; show Fp.signedInf (0 : K) = _; simp [Fp.signedInf]
  | negInf => right; show Fp.signedInf (-(0 : K)) = _; simp [Fp.signedInf]
  | nan => right; rfl

theorem Fp.fin_zero_div_fin (c : K) (hc : c ≠ 0) : (Fp.fin 0 / Fp.fin c : Fp K) = Fp.fin 0 := by
  rw [Fp.fin_div_fin _ _ hc, zero_div]

/-- On floating values, the recombination with either floor equals the
specification's recombination: the floor is only selected when `delta == 0`,
where `atanApprox(x * delta)` is `0` or NaN. -/
theorem recombine_floor_fp (x delta : Fp K) (c : K) (hc : c ≠ 0) :
    Ieee.atanApprox (x * delta) /
        (if Fp.eq x (.fin 0) then .fin 1 else (if Fp.eq delta (.fin 0) then .fin c else delta)) =
      Ieee.recombineSpec x delta := by
  unfold Ieee.recombineSpec
  show Ieee.atanApprox (x * delta) / _ = Ieee.atanApprox (x * delta) / _
  by_cases hx : Fp.eq x (.fin 0) = true
  · rw [if_pos hx, if_pos hx]
  · rw [if_neg hx, if_neg hx]
    by_cases hd : Fp.eq delta (.fin 0) = true
    · rw [if_pos hd, if_pos hd]
      rw [(Fp.eq_fin_zero_iff delta).mp hd]
      rcases Fp.mul_fin_zero x with h | h
      · rw [h, atanApprox_fin_zero, Fp.fin_zero_div_fin c hc,
          Fp.fin_zero_div_fin 1e-14 (by norm_num)]
      · rw [h, atanApprox_nan, Fp.nan_div, Fp.nan_div]
    · rw [if_neg hd, if_neg hd]

/-- On floating values both recombinations are the recombination of the
specification, on both channels. -/
theorem recombine_fp (s : RubidiumDistortion (Fp K)) (spl0 spl1 : Fp K) :
    Ieee.recombineFirst s spl0 spl1 =
        (Ieee.recombineSpec spl0 s.delta0, Ieee.recombineSpec spl1 s.delta1) ∧
      Ieee.recombineSecond s spl0 spl1 =
        (Ieee.recombineSpec spl0 s.delta0, Ieee.recombineSpec spl1 s.delta1) := by
  constructor
  · simp only [Ieee.recombineFirst,
      recombine_floor_fp spl0 s.delta0 (0.00000000000001 : K) (by norm_num),
      recombine_floor_fp spl1 s.delta1 (0.00000000000001 : K) (by norm_num)]
  · simp only [Ieee.recombineSecond,
      recombine_floor_fp spl0 s.delta0 (0.0000000000001 : K) (by norm_num),
      recombine_floor_fp spl1 s.delta1 (0.0000000000001 : K) (by norm_num)]

/-- C7: for every signal value and every delta, the recombination before the
allpass network (`recombineFirst`) and the one after it (`recombineSecond`)
both return `atanApprox(x * delta) / denom` with `denom = 1` if `x == 0`, else
`1e-14` if `delta == 0`, else `delta`, on each channel, where
`atanApprox(v) = tanhApprox(v) + 0.08 * v`: on finite values with the rational
`tanhApprox` (`recombineSpec`), and on floating values with the `float`
operations of the source (`Ieee.recombineSpec`). -/
theorem recombine_eq_spec (s : RubidiumDistortion K) (spl0 spl1 : K)
    (sx : RubidiumDistortion (Fp K)) (x0 x1 : Fp K) :
    (recombineFirst s spl0 spl1 = (recombineSpec spl0 s.delta0, recombineSpec spl1 s.delta1) ∧
      recombineSecond s spl0 spl1 =
        (recombineSpec spl0 s.delta0, recombineSpec spl1 s.delta1)) ∧
    (Ieee.recombineFirst sx x0 x1 =
        (Ieee.recombineSpec x0 sx.delta0, Ieee.recombineSpec x1 sx.delta1) ∧
      Ieee.recombineSecond sx x0 x1 =
        (Ieee.recombineSpec x0 sx.delta0, Ieee.recombineSpec x1 sx.delta1)) := by
  refine ⟨⟨?_, ?_⟩, recombine_fp sx x0 x1⟩
  · simp only [recombineFirst, recombineSpec_first]
  · simp only [recombineSecond, recombineSpec_second]

/-- C17: the contraction fails on the program. At `x = -53.5`,
`delta = 6123.18` the product `x * delta` is `-327588.13`, the `float`
evaluation of `atanApprox` overflows, and the recombination before the allpass
network and the one after it both return `-inf`, which is not within
`1.08 * |x|`. -/
theorem recombination_overflows (s : RubidiumDistortion (Fp K)) (spl1 : Fp K) :
    (Ieee.recombineFirst { s with delta0 := .fin 6123.18 } (.fin (-53.5)) spl1).1 = .negInf ∧
      (Ieee.recombineSecond { s with delta0 := .fin 6123.18 } (.fin (-53.5)) spl1).1 =
        .negInf := by
  have h := atanApprox_overflow (-53.5 * 6123.18 : K) (by norm_num) (by norm_num)
  have h1 : ¬ ((-53.5 : K) = 0) := by norm_num
  have h2 : ¬ ((6123.18 : K) = 0) := by norm_num
  constructor
  · simp only [Ieee.recombineFirst, Fp.fin_mul_fin, h, Fp.eq_fin_fin, decide_eq_true_eq,
      if_neg h1, if_neg h2, Fp.negInf_div_fin _ (by norm_num : (0 : K) ≤ 6123.18)]
  · simp only [Ieee.recombineSecond, Fp.fin_mul_fin, h, Fp.eq_fin_fin, decide_eq_true_eq,
      if_neg h1, if_neg h2, Fp.negInf_div_fin _ (by norm_num : (0 : K) ≤ 6123.18)]

/-- The routines `Libm.toFp m` extend `m`. -/
theorem extends_toFp (m : Libm K) : (Libm.toFp m).Extends m := by
  refine ⟨fun _ _ _ _ => rfl, fun _ => rfl, fun x hx => ?_, fun _ => rfl, fun x hx => ?_, rfl,
    fun _ => rfl⟩
  · show (if 0 < x then _ else _) = _
    rw [if_pos hx]
  · show (if 0 ≤ x then _ else _) = _
    rw [if_pos hx]

end FloatRecombination

section OverflowClaims

/-- Every frame of the run that leads to the overflow is in range: inputs in
`[-1, 1]`, drive 100, mojo 100, asym 0, bias 0, and `0 ≤ cut0, cut1 ≤ 1`. -/
theorem overflowFrame_inRange (m : Libm ℝ) (hm : m.IsReal) (maxBlock : Nat)
    (u : RubidiumDistortion ℝ) (k : Nat) :
    (overflowFrame m k).InRange m (prepare m ⟨44100, maxBlock⟩ (overflowControls m) u.construct) := by
  have hpi := Real.pi_pos
  have hpi4 := Real.pi_le_four
  have hin : (-1 : ℝ) ≤ (overflowFrame m k).in0 ∧ (overflowFrame m k).in0 ≤ 1 := by
    by_cases hk : k < 41
    · rw [overflowFrame_in0 m k hk]; norm_num
    · simp only [overflowFrame, if_neg hk]; norm_num
  have hc0 : m.twoPi * ((overflowControls m).tone + 0.02) * (1 / 44100) = 1 / 2 := by
    simp only [overflowControls, hm.twoPi_eq]
    field_simp
    ring
  have hc1 : m.twoPi * ((overflowControls m).tone + 0.09) * (1 / 44100) =
      1 / 2 + 2 * Real.pi * 0.07 / 44100 := by
    simp only [overflowControls, hm.twoPi_eq]
    field_simp
    ring
  refine ⟨hin, ?_, ?_, ?_, ?_, ?_, ?_, ?_⟩
  · rw [overflowFrame_in1]; norm_num
  · rw [overflowFrame_controls]; simp only [overflowControls]; norm_num
  · rw [overflowFrame_controls]; simp only [overflowControls]; norm_num
  · rw [overflowFrame_controls]; simp only [overflowControls]; norm_num
  · rw [overflowFrame_controls]; simp only [overflowControls]; norm_num
  · rw [overflowFrame_controls, prepare_cut0, hc0]; norm_num
  · rw [overflowFrame_controls, prepare_cut1, hc1]
    constructor
    · positivity
    · have : 2 * Real.pi * 0.07 / 44100 ≤ 1 / 2 := by
        rw [div_le_iff₀ (by norm_num)]
        nlinarith
      linarith

/-- C1: the bound fails on the program. From the state constructed and
prepared at 44100 Hz, the block of 42 frames with drive 100, mojo 100, asym 0,
bias 0, the tone for which `cut0 = 1/2`, right input 0 and left input 1 in
frames 0 to 40 and -1 in frame 41 is in range; on floating values
`processBlock` returns 41 left output samples 0 and then NaN. -/
theorem processBlock_output_nan (m : Libm ℝ) (mx : Libm (Fp ℝ)) (hm : m.IsReal)
    (hx : mx.Extends m) (maxBlock : Nat) (u : RubidiumDistortion ℝ) :
    (∀ f ∈ (List.range 42).map (overflowFrame m),
      f.InRange m (prepare m ⟨44100, maxBlock⟩ (overflowControls m) u.construct)) ∧
    (Ieee.processBlock mx (prepare m ⟨44100, maxBlock⟩ (overflowControls m) u.construct).toFp
        (((List.range 42).map (overflowFrame m)).map Frame.toFp)).2.map Prod.fst =
      List.replicate 41 (Fp.fin 0) ++ [Fp.nan] := by
  obtain ⟨h1, -, -, -, h5⟩ := overflow_run m mx hm hx maxBlock (overflowControls m) u
  constructor
  · intro f hf
    obtain ⟨k, -, rfl⟩ := List.mem_map.mp hf
    exact overflowFrame_inRange m hm maxBlock u k
  · rw [List.range_succ, List.map_append, List.map_append, processBlock_append_fp, h1]
    show List.map Prod.fst (List.replicate 41 (Fp.fin 0, Fp.fin 0) ++
      [((Ieee.processSample mx _ (overflowFrame m 41).toFp).2.1,
        (Ieee.processSample mx _ (overflowFrame m 41).toFp).2.2)]) = _
    rw [List.map_append, List.map_replicate, h5]
    rfl

/-- C11: the pure delay fails on the program. In the run of 41 frames
`(1, 0)` from the constructed and prepared state (drive 100, mojo 100,
`cut0 = 1/2`), the value fed to delay region 2 in sample 41 is `-inf` and the
output `out2` of the region in that sample, which is below the region's delay
of 43 samples, is NaN, not 0. -/
theorem delay_region_output_nan (m : Libm ℝ) (mx : Libm (Fp ℝ)) (hm : m.IsReal)
    (hx : mx.Extends m) (maxBlock : Nat) (u : RubidiumDistortion ℝ) :
    (Ieee.processSampleFront mx
        (Ieee.processBlock mx
          (prepare m ⟨44100, maxBlock⟩ (overflowControls m) u.construct).toFp
          (((List.range 41).map (overflowFrame m)).map Frame.toFp)).1
        (overflowFrame m 41).toFp).2.1 = .negInf ∧
    (Ieee.processSampleAllpass mx
        (Ieee.processBlock mx
          (prepare m ⟨44100, maxBlock⟩ (overflowControls m) u.construct).toFp
          (((List.range 41).map (overflowFrame m)).map Frame.toFp)).1
        (overflowFrame m 41).toFp).2.1 = .nan := by
  obtain ⟨h1, h2, h3, -, -⟩ := overflow_run m mx hm hx maxBlock (overflowControls m) u
  rw [h1]
  exact ⟨h2, h3⟩

/-- C13: the second pass is not the identity on the program. The state `h2`
is 0 after `prepare`, and after the block of 42 frames of the run (drive 100,
mojo 100, `cut0 = 1/2`, left input 1 in frames 0 to 40 and -1 in frame 41) it
is NaN. -/
theorem second_highpass_state_nan (m : Libm ℝ) (mx : Libm (Fp ℝ)) (hm : m.IsReal)
    (hx : mx.Extends m) (maxBlock : Nat) (u : RubidiumDistortion ℝ) :
    (prepare m ⟨44100, maxBlock⟩ (overflowControls m) u.construct).toFp.h2 = .fin 0 ∧
    (Ieee.processBlock mx (prepare m ⟨44100, maxBlock⟩ (overflowControls m) u.construct).toFp
        (((List.range 42).map (overflowFrame m)).map Frame.toFp)).1.h2 = .nan := by
  obtain ⟨h1, -, -, h4, -⟩ := overflow_run m mx hm hx maxBlock (overflowControls m) u
  constructor
  · rfl
  · rw [List.range_succ, List.map_append, List.map_append, processBlock_append_fp, h1]
    exact h4

end OverflowClaims

section OverflowWitnesses

/-- C1, at the real-valued routines and their extension `Libm.toFp`, block
size 128. -/
theorem processBlock_output_nan_witness :
    (Libm.mk Real.rpow Real.exp (fun x => Real.log x / Real.log 10) Real.arctan
        Real.sqrt (2 * Real.pi)
        (fun dB => if dB > -100 then Real.rpow 10 (dB * 0.05) else 0)).IsReal ∧
    (Libm.toFp (Libm.mk Real.rpow Real.exp (fun x => Real.log x / Real.log 10) Real.arctan
        Real.sqrt (2 * Real.pi)
        (fun dB => if dB > -100 then Real.rpow 10 (dB * 0.05) else 0))).Extends
      (Libm.mk Real.rpow Real.exp (fun x => Real.log x / Real.log 10) Real.arctan
        Real.sqrt (2 * Real.pi)
        (fun dB => if dB > -100 then Real.rpow 10 (dB * 0.05) else 0)) ∧
    (Ieee.processBlock
        (Libm.toFp (Libm.mk Real.rpow Real.exp (fun x => Real.log x / Real.log 10) Real.arctan
          Real.sqrt (2 * Real.pi)
          (fun dB => if dB > -100 then Real.rpow 10 (dB * 0.05) else 0)))
        (prepare (Libm.mk Real.rpow Real.exp (fun x => Real.log x / Real.log 10) Real.arctan
          Real.sqrt (2 * Real.pi)
          (fun dB => if dB > -100 then Real.rpow 10 (dB * 0.05) else 0)) ⟨44100, 128⟩
          (overflowControls (Libm.mk Real.rpow Real.exp (fun x => Real.log x / Real.log 10)
            Real.arctan Real.sqrt (2 * Real.pi)
            (fun dB => if dB > -100 then Real.rpow 10 (dB * 0.05) else 0)))
          RubidiumDistortion.allZero.construct).toFp
        (((List.range 42).map (overflowFrame (Libm.mk Real.rpow Real.exp
          (fun x => Real.log x / Real.log 10) Real.arctan Real.sqrt (2 * Real.pi)
          (fun dB => if dB > -100 then Real.rpow 10 (dB * 0.05) else 0)))).map
            Frame.toFp)).2.map Prod.fst =
      List.replicate 41 (Fp.fin 0) ++ [Fp.nan] :=
  ⟨isReal_mk, extends_toFp _,
    (processBlock_output_nan _ _ isReal_mk (extends_toFp _) 128 RubidiumDistortion.allZero).2⟩

/-- C11, at the real-valued routines and their extension `Libm.toFp`, block
size 128: the output of region 2 in sample 41. -/
theorem delay_region_output_nan_witness :
    (Libm.mk Real.rpow Real.exp (fun x => Real.log x / Real.log 10) Real.arctan
        Real.sqrt (2 * Real.pi)
        (fun dB => if dB > -100 then Real.rpow 10 (dB * 0.05) else 0)).IsReal ∧
    (Libm.toFp (Libm.mk Real.rpow Real.exp (fun x => Real.log x / Real.log 10) Real.arctan
        Real.sqrt (2 * Real.pi)
        (fun dB => if dB > -100 then Real.rpow 10 (dB * 0.05) else 0))).Extends
      (Libm.mk Real.rpow Real.exp (fun x => Real.log x / Real.log 10) Real.arctan
        Real.sqrt (2 * Real.pi)
        (fun dB => if dB > -100 then Real.rpow 10 (dB * 0.05) else 0)) ∧
    (Ieee.processSampleAllpass
        (Libm.toFp (Libm.mk Real.rpow Real.exp (fun x => Real.log x / Real.log 10) Real.arctan
          Real.sqrt (2 * Real.pi)
          (fun dB => if dB > -100 then Real.rpow 10 (dB * 0.05) else 0)))
        (Ieee.processBlock
          (Libm.toFp (Libm.mk Real.rpow Real.exp (fun x => Real.log x / Real.log 10) Real.arctan
            Real.sqrt (2 * Real.pi)
            (fun dB => if dB > -100 then Real.rpow 10 (dB * 0.05) else 0)))
          (prepare (Libm.mk Real.rpow Real.exp (fun x => Real.log x / Real.log 10) Real.arctan
            Real.sqrt (2 * Real.pi)
            (fun dB => if dB > -100 then Real.rpow 10 (dB * 0.05) else 0)) ⟨44100, 128⟩
            (overflowControls (Libm.mk Real.rpow Real.exp (fun x => Real.log x / Real.log 10)
              Real.arctan Real.sqrt (2 * Real.pi)
              (fun dB => if dB > -100 then Real.rpow 10 (dB * 0.05) else 0)))
            RubidiumDistortion.allZero.construct).toFp
          (((List.range 41).map (overflowFrame (Libm.mk Real.rpow Real.exp
            (fun x => Real.log x / Real.log 10) Real.arctan Real.sqrt (2 * Real.pi)
            (fun dB => if dB > -100 then Real.rpow 10 (dB * 0.05) else 0)))).map
              Frame.toFp)).1
        (overflowFrame (Libm.mk Real.rpow Real.exp (fun x => Real.log x / Real.log 10)
          Real.arctan Real.sqrt (2 * Real.pi)
          (fun dB => if dB > -100 then Real.rpow 10 (dB * 0.05) else 0)) 41).toFp).2.1 =
      Fp.nan :=
  ⟨isReal_mk, extends_toFp _,
    (delay_region_output_nan _ _ isReal_mk (extends_toFp _) 128 RubidiumDistortion.allZero).2⟩

/-- C13, at the real-valued routines and their extension `Libm.toFp`, block
size 128: the state `h2` after the 42 frames. -/
theorem second_highpass_state_nan_witness :
    (Libm.mk Real.rpow Real.exp (fun x => Real.log x / Real.log 10) Real.arctan
        Real.sqrt (2 * Real.pi)
        (fun dB => if dB > -100 then Real.rpow 10 (dB * 0.05) else 0)).IsReal ∧
    (Libm.toFp (Libm.mk Real.rpow Real.exp (fun x => Real.log x / Real.log 10) Real.arctan
        Real.sqrt (2 * Real.pi)
        (fun dB => if dB > -100 then Real.rpow 10 (dB * 0.05) else 0))).Extends
      (Libm.mk Real.rpow Real.exp (fun x => Real.log x / Real.log 10) Real.arctan
        Real.sqrt (2 * Real.pi)
        (fun dB => if dB > -100 then Real.rpow 10 (dB * 0.05) else 0)) ∧
    (Ieee.processBlock
        (Libm.toFp (Libm.mk Real.rpow Real.exp (fun x => Real.log x / Real.log 10) Real.arctan
          Real.sqrt (2 * Real.pi)
          (fun dB => if dB > -100 then Real.rpow 10 (dB * 0.05) else 0)))
        (prepare (Libm.mk Real.rpow Real.exp (fun x => Real.log x / Real.log 10) Real.arctan
          Real.sqrt (2 * Real.pi)
          (fun dB => if dB > -100 then Real.rpow 10 (dB * 0.05) else 0)) ⟨44100, 128⟩
          (overflowControls (Libm.mk Real.rpow Real.exp (fun x => Real.log x / Real.log 10)
            Real.arctan Real.sqrt (2 * Real.pi)
            (fun dB => if dB > -100 then Real.rpow 10 (dB * 0.05) else 0)))
          RubidiumDistortion.allZero.construct).toFp
        (((List.range 42).map (overflowFrame (Libm.mk Real.rpow Real.exp
          (fun x => Real.log x / Real.log 10) Real.arctan Real.sqrt (2 * Real.pi)
          (fun dB => if dB > -100 then Real.rpow 10 (dB * 0.05) else 0)))).map
            Frame.toFp)).1.h2 = Fp.nan :=
  ⟨isReal_mk, extends_toFp _,
    (second_highpass_state_nan _ _ isReal_mk (extends_toFp _) 128
      RubidiumDistortion.allZero).2⟩

end OverflowWitnesses

end Rubidium
